import Mathlib

/-!
# Shallow embedding of `gfx/drivers/sdl_rs90_gfx.c`

The RS-90 video driver copies or resamples an emulated frame into a fixed
240x160 SDL surface.  Memory is modelled at byte granularity: a buffer is a map
from byte offsets to byte values, multi-byte integers are laid out according to
the byte order of the platform (`msb_first`), C `unsigned` arithmetic is `Nat`
arithmetic reduced modulo `2^32`, and an access outside an allocation, outside the
pixel buffer of the surface or through a null pointer is a `Fault`.
-/

namespace RS90

/-! ## Definitions: memory, driver state and the embedded functions -/

/-- Value of a C `unsigned` / `uint32_t` expression: reduction modulo `2^32`. -/
def u32 (n : Nat) : Nat := n % 4294967296

/-- Value of a conversion to `uint16_t`: reduction modulo `2^16`. -/
def u16 (n : Nat) : Nat := n % 65536

def SDL_RS90_WIDTH : Nat := 240

def SDL_RS90_HEIGHT : Nat := 160

def SDL_DINGUX_NUM_FONT_GLYPHS : Nat := 256

/-- Ways in which a memory access of the driver can go wrong. -/
inductive Fault where
  | null_deref
  | heap_out_of_bounds
  | surface_out_of_bounds
  deriving DecidableEq, Repr

/-- A heap allocation: its size in bytes and its contents, byte by byte. -/
structure Block where
  size : Nat
  bytes : Nat → Nat

/-- Overwrite `n` bytes of a block from offset `off` with `data 0 .. data (n-1)`. -/
def Block.write (b : Block) (off n : Nat) (data : Nat → Nat) : Except Fault Block :=
  if off + n ≤ b.size then
    .ok { size := b.size,
          bytes := fun j => if off ≤ j ∧ j < off + n then data (j - off) else b.bytes j }
  else .error .heap_out_of_bounds

/-- Byte number `k` (in memory order) of the 32-bit integer `v`. -/
def byte32 (msb_first : Bool) (v k : Nat) : Nat :=
  (v / 256 ^ (if msb_first then 3 - k else k)) % 256

/-- Store through an `unsigned *`: four bytes at byte offset `off`. -/
def Block.store32 (msb_first : Bool) (b : Block) (off v : Nat) : Except Fault Block :=
  b.write off 4 (byte32 msb_first v)

/-- The 32-bit integer laid out in the four bytes from byte offset `off`. -/
def Block.peek32 (msb_first : Bool) (b : Block) (off : Nat) : Nat :=
  if msb_first then
    ((b.bytes off * 256 + b.bytes (off + 1)) * 256 + b.bytes (off + 2)) * 256
      + b.bytes (off + 3)
  else
    b.bytes off + 256 * (b.bytes (off + 1) + 256 * (b.bytes (off + 2)
      + 256 * b.bytes (off + 3)))

/-- Load through an `unsigned *`: the 32-bit integer at byte offset `off`. -/
def Block.load32 (msb_first : Bool) (b : Block) (off : Nat) : Except Fault Nat :=
  if off + 4 ≤ b.size then .ok (b.peek32 msb_first off) else .error .heap_out_of_bounds

/-- The 16-bit integer laid out in the two bytes from byte offset `off`. -/
def Block.peek16 (msb_first : Bool) (b : Block) (off : Nat) : Nat :=
  if msb_first then b.bytes off * 256 + b.bytes (off + 1)
  else b.bytes off + 256 * b.bytes (off + 1)

/-- Load through a `uint16_t *`: the 16-bit integer at byte offset `off`. -/
def Block.load16 (msb_first : Bool) (b : Block) (off : Nat) : Except Fault Nat :=
  if off + 2 ≤ b.size then .ok (b.peek16 msb_first off) else .error .heap_out_of_bounds

/-- The process allocator: how many `calloc` requests it has served and which
requests it grants. -/
structure Heap where
  calloc_calls : Nat
  grants : Nat → Bool

/-- Model of `calloc(nmemb, size)`: a zero-filled block, or null when the
request is not granted. -/
def calloc (hp : Heap) (nmemb size : Nat) : Option Block × Heap :=
  (if hp.grants hp.calloc_calls then some { size := nmemb * size, bytes := fun _ => 0 }
    else none,
   { hp with calloc_calls := hp.calloc_calls + 1 })

/-- The fields of `SDL_Surface` the driver uses.  `pixels` points to
`pitch * h` bytes. -/
structure SDL_Surface where
  w : Nat
  h : Nat
  pitch : Nat
  pixels : Nat → Nat

/-- Overwrite `n` bytes of the pixel buffer of a surface from byte offset `off`. -/
def SDL_Surface.write (s : SDL_Surface) (off n : Nat) (data : Nat → Nat) :
    Except Fault SDL_Surface :=
  if off + n ≤ s.pitch * s.h then
    .ok { s with
          pixels := fun j => if off ≤ j ∧ j < off + n then data (j - off) else s.pixels j }
  else .error .surface_out_of_bounds

/-- The glyph cell constants of the bitmap font (`FONT_WIDTH`, `FONT_HEIGHT`,
`FONT_WIDTH_STRIDE`, `FONT_HEIGHT_STRIDE` of `bitmap.h`, a header outside the
sources); the functions that use them take them as a parameter. -/
structure FontMetrics where
  FONT_WIDTH : Nat
  FONT_HEIGHT : Nat
  FONT_WIDTH_STRIDE : Nat
  FONT_HEIGHT_STRIDE : Nat

/-- The glyph lookup table `bitmapfont_lut_t`: `lut symbol k` is entry `k` of
the boolean bitmap of glyph `symbol`, for `symbol ≤ glyph_max`. -/
structure bitmapfont_lut_t where
  lut : Nat → Nat → Bool
  glyph_max : Nat

/-- The driver state `sdl_rs90_video_t`, together with the allocator it uses. -/
structure sdl_rs90_video_t where
  last_frame_time : Int := 0
  ff_frame_time_min : Int := 16667
  screen : Option SDL_Surface
  osd_font : Option bitmapfont_lut_t := none
  frame_width : Nat
  frame_height : Nat
  frame_padding_x : Nat
  frame_padding_y : Nat
  font_colour32 : Nat := 0
  font_colour16 : Nat := 0
  menu_texture : Nat → Nat := fun _ => 0
  rgb32 : Bool
  vsync : Bool
  keep_aspect : Bool := false
  scale_integer : Bool := false
  menu_active : Bool
  was_in_menu : Bool
  quitting : Bool := false
  mode_valid : Bool
  content_width : Nat
  content_height : Nat
  content_pitch : Nat
  scaling_table : Option Block
  heap : Heap

/-- A C `for (k = 0; k < n; k++) body` over a state `σ`; the body may fault. -/
def forLoop {σ : Type} (n : Nat) (body : Nat → σ → Except Fault σ) (s : σ) :
    Except Fault σ :=
  match n with
  | 0 => .ok s
  | k + 1 =>
    (forLoop k body s).bind (body k)

/-- The display: `SDL_SetVideoMode w h bpp triplebuf` returns the new surface,
or `none` when the mode is rejected. -/
abbrev VideoModeSetter := Nat → Nat → Nat → Bool → Option SDL_Surface

/-- Embedding of `sdl_rs90_set_output`. -/
def sdl_rs90_set_output (SDL_SetVideoMode : VideoModeSetter)
    (vid : sdl_rs90_video_t) (width height : Nat) (rgb32 : Bool) : sdl_rs90_video_t :=
  let vid := { vid with frame_width := width, frame_height := height }
  let vid := { vid with frame_padding_x := 0, frame_padding_y := 0 }
  let vid := { vid with
    screen := SDL_SetVideoMode SDL_RS90_WIDTH SDL_RS90_HEIGHT (if rgb32 then 32 else 16)
      vid.vsync }
  match vid.screen with
  | none => { vid with mode_valid := false }
  | some screen =>
    let vid :=
      if SDL_RS90_WIDTH ≠ width ∨ SDL_RS90_HEIGHT ≠ height then
        { vid with
          frame_padding_x :=
            if width < SDL_RS90_WIDTH then (SDL_RS90_WIDTH - width) >>> 1 else 0,
          frame_padding_y :=
            if height < SDL_RS90_HEIGHT then (SDL_RS90_HEIGHT - height) >>> 1 else 0,
          screen := some { screen with pixels := fun j =>
            if j < (u32 (screen.pitch * screen.h)) then 0 else screen.pixels j } }
      else vid
    { vid with mode_valid := true }

/-- State of the two loops of `sdl_rs90_generate_scaling_table`: the running
index `i` and the table being filled. -/
structure TableSt where
  i : Nat
  table : Block

/-- Body of the inner (column) loop of `sdl_rs90_generate_scaling_table`:
`scaling_table[i++] = idx + ((x_step * col) >> 16)`. -/
def scaling_table_col (msb_first : Bool) (idx x_step : Nat) (col : Nat) (st : TableSt) :
    Except Fault TableSt :=
  (st.table.store32 msb_first (4 * st.i) (u32 (idx + (u32 (x_step * col) >>> 16)))).map
    fun t => { i := st.i + 1, table := t }

/-- Body of the outer (row) loop of `sdl_rs90_generate_scaling_table`. -/
def scaling_table_row (msb_first : Bool) (x_step y_step in_stride : Nat) (row : Nat)
    (st : TableSt) : Except Fault TableSt :=
  let idx := u32 ((u32 (row * y_step) >>> 16) * in_stride)
  forLoop SDL_RS90_WIDTH (scaling_table_col msb_first idx x_step) st

/-- Embedding of `sdl_rs90_generate_scaling_table`.  The old table is freed,
the geometry triple is recorded, a new table is requested from `calloc` and
filled without checking the result of the allocation. -/
def sdl_rs90_generate_scaling_table (msb_first : Bool) (vid : sdl_rs90_video_t)
    (width height src_pitch : Nat) : Except Fault sdl_rs90_video_t :=
  let vid := { vid with
    content_width := width, content_height := height, content_pitch := src_pitch }
  let r := calloc vid.heap (SDL_RS90_WIDTH * SDL_RS90_HEIGHT) 4
  let vid := { vid with scaling_table := r.1, heap := r.2 }
  let x_step := u32 (u32 (width <<< 16) / SDL_RS90_WIDTH)
  let y_step := u32 (u32 (height <<< 16) / SDL_RS90_HEIGHT)
  let in_stride := u16 (src_pitch >>> 1)
  match r.1 with
  | none => .error .null_deref
  | some scaling_table =>
    (forLoop SDL_RS90_HEIGHT (scaling_table_row msb_first x_step y_step in_stride)
        { i := 0, table := scaling_table }).map
      fun st => { vid with scaling_table := some st.table }

/-- State of the loops of `sdl_rs90_blit_frame16_scale_precomputed`: the running
table index `i`, the byte offset of `out_ptr` from `screen->pixels`, and the
surface being written. -/
structure BlitSt where
  i : Nat
  out_ptr : Nat
  screen : SDL_Surface

/-- Body of the inner loop of `sdl_rs90_blit_frame16_scale_precomputed`:
`*out_ptr = src[scaling_table[i++]]; out_ptr++;` where `scaling_table` and
`src` are `uint16_t *`. -/
def blit_frame16_col (msb_first : Bool) (scaling_table : Block) (src : Nat → Nat)
    (_col : Nat) (st : BlitSt) : Except Fault BlitSt :=
  (scaling_table.load16 msb_first (2 * st.i)).bind fun t =>
    (st.screen.write st.out_ptr 2 (fun k => src (2 * t + k))).map
      fun s => { i := st.i + 1, out_ptr := st.out_ptr + 2, screen := s }

/-- Body of the outer loop of `sdl_rs90_blit_frame16_scale_precomputed`. -/
def blit_frame16_row (msb_first : Bool) (scaling_table : Block) (src : Nat → Nat)
    (out_stride : Nat) (row : Nat) (st : BlitSt) : Except Fault BlitSt :=
  forLoop SDL_RS90_WIDTH (blit_frame16_col msb_first scaling_table src)
    { st with out_ptr := 2 * u32 (out_stride * row) }

/-- Embedding of `sdl_rs90_blit_frame16_scale_precomputed`.  `src` is the
memory at the source pointer, byte by byte. -/
def sdl_rs90_blit_frame16_scale_precomputed (msb_first : Bool) (vid : sdl_rs90_video_t)
    (src : Nat → Nat) : Except Fault sdl_rs90_video_t :=
  match vid.screen with
  | none => .error .null_deref
  | some screen =>
    let out_stride := u16 (screen.pitch >>> 1)
    match vid.scaling_table with
    | none => .error .null_deref
    | some scaling_table =>
      (forLoop SDL_RS90_HEIGHT (blit_frame16_row msb_first scaling_table src out_stride)
          { i := 0, out_ptr := 0, screen := screen }).map
        fun st => { vid with screen := some st.screen }

/-- Embedding of `sdl_rs90_blit_frame16`. -/
def sdl_rs90_blit_frame16 (msb_first : Bool) (vid : sdl_rs90_video_t)
    (src : Nat → Nat) (width height src_pitch : Nat) : Except Fault sdl_rs90_video_t :=
  match vid.screen with
  | none => .error .null_deref
  | some screen =>
    let dst_pitch := screen.pitch
    let _width_trunc := if width > SDL_RS90_WIDTH then SDL_RS90_WIDTH else width
    let height_trunc := if height > SDL_RS90_HEIGHT then SDL_RS90_HEIGHT else height
    if src_pitch = dst_pitch ∧ height = height_trunc then
      (screen.write 0 (u32 (src_pitch * height)) src).map
        fun s => { vid with screen := some s }
    else
      (if vid.content_width ≠ width ∨ vid.content_height ≠ height
            ∨ vid.content_pitch ≠ src_pitch then
          sdl_rs90_generate_scaling_table msb_first vid width height src_pitch
        else .ok vid).bind
        fun vid => sdl_rs90_blit_frame16_scale_precomputed msb_first vid src

/-- State of the line loop of `sdl_rs90_blit_frame32`: byte offsets of `in_ptr`
from `src` and of `out_ptr` from `screen->pixels`, and the surface. -/
structure LineSt where
  in_ptr : Nat
  out_ptr : Nat
  screen : SDL_Surface

/-- Body of the line loop of `sdl_rs90_blit_frame32`. -/
def blit_frame32_line (src : Nat → Nat) (width_trunc in_stride out_stride : Nat)
    (_y : Nat) (st : LineSt) : Except Fault LineSt :=
  (st.screen.write st.out_ptr (width_trunc * 4) (fun k => src (st.in_ptr + k))).map
    fun s => { in_ptr := st.in_ptr + 4 * in_stride,
               out_ptr := st.out_ptr + 4 * out_stride, screen := s }

/-- Embedding of `sdl_rs90_blit_frame32`. -/
def sdl_rs90_blit_frame32 (vid : sdl_rs90_video_t)
    (src : Nat → Nat) (width height src_pitch : Nat) : Except Fault sdl_rs90_video_t :=
  match vid.screen with
  | none => .error .null_deref
  | some screen =>
    let dst_pitch := screen.pitch
    let out_ptr := u32 (vid.frame_padding_y * dst_pitch)
    let width_trunc := if width > SDL_RS90_WIDTH then SDL_RS90_WIDTH else width
    let height_trunc := if height > SDL_RS90_HEIGHT then SDL_RS90_HEIGHT else height
    if src_pitch = dst_pitch ∧ height = height_trunc then
      (screen.write out_ptr (u32 (src_pitch * height)) src).map
        fun s => { vid with screen := some s }
    else
      let in_stride := u32 (src_pitch >>> 2)
      let out_stride := u32 (dst_pitch >>> 2)
      let out_ptr := out_ptr + 4 * vid.frame_padding_x
      (forLoop height_trunc (blit_frame32_line src width_trunc in_stride out_stride)
          { in_ptr := 0, out_ptr := out_ptr, screen := screen }).map
        fun st => { vid with screen := some st.screen }

/-- Embedding of `sdl_rs90_init_font_color`; `red`, `green`, `blue` are the
8-bit channels obtained from the configured message colour. -/
def sdl_rs90_init_font_color (vid : sdl_rs90_video_t) (red green blue : Nat) :
    sdl_rs90_video_t :=
  let vid := { vid with font_colour32 := (red <<< 16) ||| (green <<< 8) ||| blue }
  let red := red >>> 3
  let green := green >>> 3
  let blue := blue >>> 3
  { vid with font_colour16 := u16 ((red <<< 11) ||| (green <<< 6) ||| blue) }

/-- Embedding of `sdl_rs90_gfx_init` (build without `DINGUX_BETA`).  The SDL
subsystem start-up and the font table are external; their outcomes are the
flag `sdl_ok` and the table `bitmapfont_get_lut` (null when the font cannot be
loaded).  The driver struct itself is requested from
`calloc` (its size plays no role and is taken as 1) and the call gives up when
that request is refused; the empty table requested next is not tested. -/
def sdl_rs90_gfx_init (SDL_SetVideoMode : VideoModeSetter) (hp : Heap)
    (sdl_ok : Bool) (bitmapfont_get_lut : Option bitmapfont_lut_t)
    (video_rgb32 video_vsync keep_aspect scale_integer : Bool)
    (red green blue : Nat) : Option sdl_rs90_video_t :=
  if !sdl_ok then none
  else
    let r := calloc hp 1 1
    match r.1 with
    | none => none
    | some _ =>
      match SDL_SetVideoMode SDL_RS90_WIDTH SDL_RS90_HEIGHT
          (if video_rgb32 then 32 else 16) video_vsync with
      | none => none
      | some screen =>
        let t := calloc r.2 0 4
        let vid : sdl_rs90_video_t :=
          { last_frame_time := 0
            ff_frame_time_min := 16667
            screen := some screen
            frame_width := SDL_RS90_WIDTH
            frame_height := SDL_RS90_HEIGHT
            frame_padding_x := 0
            frame_padding_y := 0
            rgb32 := video_rgb32
            vsync := video_vsync
            keep_aspect := keep_aspect
            scale_integer := scale_integer
            menu_active := false
            was_in_menu := false
            quitting := false
            mode_valid := true
            content_width := 0
            content_height := 0
            content_pitch := 0
            scaling_table := t.1
            heap := t.2 }
        let vid := sdl_rs90_init_font_color vid red green blue
        let vid := { vid with osd_font := bitmapfont_get_lut }
        match vid.osd_font with
        | none => none
        | some osd_font =>
          if osd_font.glyph_max < SDL_DINGUX_NUM_FONT_GLYPHS - 1 then none else some vid

/-- A display that keeps a record of the mode requests made to it: `answer` is
what `SDL_SetVideoMode` returns for a request, `requests` the requests received
so far, oldest first, each with its width, height, depth and triple-buffer
flag. -/
structure Display where
  answer : VideoModeSetter
  requests : List (Nat × Nat × Nat × Bool)

/-- A call of `SDL_SetVideoMode` on a recording display. -/
def Display.SDL_SetVideoMode (d : Display) (w h bpp : Nat) (triplebuf : Bool) :
    Option SDL_Surface × Display :=
  (d.answer w h bpp triplebuf, { d with requests := d.requests ++ [(w, h, bpp, triplebuf)] })

/-- The function `sdl_rs90_set_output` on a recording display: its one call
`SDL_SetVideoMode(SDL_RS90_WIDTH, SDL_RS90_HEIGHT, rgb32 ? 32 : 16, surface_flags)`
is made on the display, and the function goes on with the answer. -/
def set_output_recorded (d : Display) (vid : sdl_rs90_video_t) (width height : Nat)
    (rgb32 : Bool) : sdl_rs90_video_t × Display :=
  let r := d.SDL_SetVideoMode SDL_RS90_WIDTH SDL_RS90_HEIGHT (if rgb32 then 32 else 16)
    vid.vsync
  (sdl_rs90_set_output (fun _ _ _ _ => r.1) vid width height rgb32, r.2)

/-- Embedding of `sdl_rs90_gfx_set_nonblock_state` on a recording display. -/
def sdl_rs90_gfx_set_nonblock_state (d : Display) (data : Option sdl_rs90_video_t)
    (toggle : Bool) (_adaptive_vsync_enabled : Bool) (_swap_interval : Nat) :
    Option sdl_rs90_video_t × Display :=
  let vsync := !toggle
  match data with
  | none => (none, d)
  | some vid =>
    if vid.vsync ≠ vsync then
      let current_width := vid.frame_width
      let current_height := vid.frame_height
      let vid := { vid with vsync := vsync }
      let r := set_output_recorded d vid current_width
        (if current_height > 4 then current_height - 2 else 16) vid.rgb32
      let r := set_output_recorded r.2 r.1 current_width current_height r.1.rgb32
      (some r.1, r.2)
    else (some vid, d)

/-- The value the code stores in entry `k` of the table for `(width, height,
src_pitch)`, with the wrap-around of the C expressions. -/
def scaling_entry (width height src_pitch k : Nat) : Nat :=
  let x_step := u32 (u32 (width <<< 16) / SDL_RS90_WIDTH)
  let y_step := u32 (u32 (height <<< 16) / SDL_RS90_HEIGHT)
  let in_stride := u16 (src_pitch >>> 1)
  let idx := u32 ((u32 ((k / SDL_RS90_WIDTH) * y_step) >>> 16) * in_stride)
  u32 (idx + (u32 (x_step * (k % SDL_RS90_WIDTH)) >>> 16))

/-- The first `n` entries of the table `t` are the entries `E 0 .. E (n-1)`,
laid out as 32-bit integers. -/
def table_filled (msb_first : Bool) (E : Nat → Nat) (n : Nat) (t : Block) : Prop :=
  t.size = 153600 ∧ (∀ j, j < 4 * n → t.bytes j = byte32 msb_first (E (j / 4)) (j % 4))
    ∧ ∀ j, 4 * n ≤ j → t.bytes j = 0

/-- The 16-bit integer found at half-word position `i` of a memory whose 32-bit
word `i / 2` holds `v`. -/
def half32 (msb_first : Bool) (v i : Nat) : Nat :=
  if msb_first then (if i % 2 = 0 then v / 65536 % 65536 else v % 65536)
  else (if i % 2 = 0 then v % 65536 else v / 65536 % 65536)

/-- The cell of RetroArch's bitmap font: glyphs of 5x10 pixels on a 6x11 grid. -/
def bitmap_font_metrics : FontMetrics :=
  { FONT_WIDTH := 5, FONT_HEIGHT := 10, FONT_WIDTH_STRIDE := 6, FONT_HEIGHT_STRIDE := 11 }

/-- A 256-glyph font for examples: glyph 65 has its top-left pixel set, every
other glyph is blank. -/
def font_dots : bitmapfont_lut_t :=
  { lut := fun symbol k => decide (symbol = 65 ∧ k = 0), glyph_max := 255 }

/-- An allocator that grants every request. -/
def heap_granting : Heap := { calloc_calls := 0, grants := fun _ => true }

/-- The 240x160 RGB565 surface of the RS-90, cleared. -/
def screen_rgb565 : SDL_Surface := { w := 240, h := 160, pitch := 480, pixels := fun _ => 0 }

/-- The 240x160 XRGB8888 surface of the RS-90, cleared. -/
def screen_xrgb8888 : SDL_Surface := { w := 240, h := 160, pitch := 960, pixels := fun _ => 0 }

/-- The display of the RS-90: every mode request is accepted. -/
def display_rs90 : VideoModeSetter := fun _ _ bpp _ =>
  some (if bpp = 32 then screen_xrgb8888 else screen_rgb565)

/-- The 16-bit driver state right after initialisation. -/
def vid_rgb565 : sdl_rs90_video_t :=
  { screen := some screen_rgb565, frame_width := 240, frame_height := 160,
    frame_padding_x := 0, frame_padding_y := 0, rgb32 := false, vsync := true,
    menu_active := false, was_in_menu := false, mode_valid := true,
    content_width := 0, content_height := 0, content_pitch := 0,
    scaling_table := some { size := 0, bytes := fun _ => 0 },
    heap := { calloc_calls := 2, grants := fun _ => true } }

/-- Pixel bytes after the table-driven blit has produced `n` pixels: 16-bit
pixel `j / 2` is the source pixel whose index is the 16-bit integer found at
half-word position `j / 2` of the table memory. -/
def blit16_pixels (msb_first : Bool) (t : Block) (src p0 : Nat → Nat) (n : Nat) :
    Nat → Nat :=
  fun j => if j < 2 * n then src (2 * t.peek16 msb_first (2 * (j / 2)) + j % 2) else p0 j

/-- Loop invariant of the table-driven blit on a surface of pitch 480. -/
def Blit16Inv (msb_first : Bool) (t : Block) (src : Nat → Nat) (s0 : SDL_Surface)
    (n : Nat) (st : BlitSt) : Prop :=
  st.i = n ∧ st.screen.w = s0.w ∧ st.screen.h = 160 ∧ st.screen.pitch = 480
    ∧ st.screen.pixels = blit16_pixels msb_first t src s0.pixels n

/-- A source frame whose byte `j` holds `j mod 256`: 16-bit pixel 0 is the
byte pair `(0, 1)` and pixel 1 is the byte pair `(2, 3)`. -/
def src_ramp : Nat → Nat := fun j => j % 256

/-- The 32-bit driver state right after initialisation. -/
def vid_xrgb8888 : sdl_rs90_video_t :=
  { screen := some screen_xrgb8888, frame_width := 240, frame_height := 160,
    frame_padding_x := 0, frame_padding_y := 0, rgb32 := true, vsync := true,
    menu_active := false, was_in_menu := false, mode_valid := true,
    content_width := 0, content_height := 0, content_pitch := 0,
    scaling_table := some { size := 0, bytes := fun _ => 0 },
    heap := { calloc_calls := 2, grants := fun _ => true } }

/-- Pixel bytes after `n` lines of the 32-bit line copy on a surface of pitch
960: line `y` occupies `4 * wt` bytes from byte offset `base + 960 * y` and
comes from byte offset `4 * stride * y` of the source. -/
def blit32_pixels (src p0 : Nat → Nat) (base wt stride : Nat) (n : Nat) : Nat → Nat :=
  fun j =>
    if base ≤ j ∧ (j - base) / 960 < n ∧ (j - base) % 960 < 4 * wt then
      src (4 * stride * ((j - base) / 960) + (j - base) % 960)
    else p0 j

/-- The 32-bit driver state after the output has been set for a 160x144 frame:
padding 40 and 8, surface cleared. -/
def vid_padded32 : sdl_rs90_video_t :=
  sdl_rs90_set_output display_rs90 vid_xrgb8888 160 144 true

/-- One call of `sdl_rs90_blit_frame16`: the source memory and its geometry. -/
structure FrameCall where
  src : Nat → Nat
  width : Nat
  height : Nat
  pitch : Nat

/-- A sequence of calls of `sdl_rs90_blit_frame16`, each on the state left by
the previous one. -/
def blit_frame16_seq (msb_first : Bool) (vid : sdl_rs90_video_t) :
    List FrameCall → Except Fault sdl_rs90_video_t
  | [] => .ok vid
  | c :: cs =>
    (sdl_rs90_blit_frame16 msb_first vid c.src c.width c.height c.pitch).bind
      fun v => blit_frame16_seq msb_first v cs

/-- The cache invariant: the surface is the 240x160 RGB565 one, the allocator
grants, and either nothing was built yet (triple `(0,0,0)`) or the table held
is the complete table of the stored triple. -/
def CacheValid (msb_first : Bool) (vid : sdl_rs90_video_t) : Prop :=
  (∃ screen, vid.screen = some screen ∧ screen.pitch = 480 ∧ screen.h = 160)
  ∧ (∀ n, vid.heap.grants n = true)
  ∧ ((vid.content_width = 0 ∧ vid.content_height = 0 ∧ vid.content_pitch = 0)
    ∨ ∃ t, vid.scaling_table = some t
        ∧ table_filled msb_first
            (scaling_entry vid.content_width vid.content_height vid.content_pitch) 38400 t)

/-- Three calls after initialisation: a 256x224 frame (table path), a native
240x160 frame (fast path) and a 160x144 frame (table path). -/
def calls_mixed : List FrameCall :=
  [{ src := src_ramp, width := 256, height := 224, pitch := 512 },
   { src := src_ramp, width := 240, height := 160, pitch := 480 },
   { src := src_ramp, width := 160, height := 144, pitch := 320 }]

/-- The 16-bit driver state right after initialisation, with an allocator that
refuses the next request. -/
def vid_rgb565_no_memory : sdl_rs90_video_t :=
  { vid_rgb565 with heap := { calloc_calls := 2, grants := fun n => decide (n < 2) } }

/-! ## Text compositor -/

/-- Byte number `k` (in memory order) of the 16-bit integer `v`. -/
def byte16 (msb_first : Bool) (v k : Nat) : Nat :=
  (v / 256 ^ (if msb_first then 1 - k else k)) % 256

/-- Value of the C `unsigned` difference `a - b`. -/
def usub (a b : Nat) : Nat := u32 (u32 a + 4294967296 - u32 b)

/-- Modelled from the spec: `utf8_walk` of libretro-common is outside the
sources; it decodes one code point at a time, returning the code point at the
head of the string and advancing the string past it.  A string is
represented by the sequence of its code points, ended by the list or by a
code point 0. -/
def utf8_walk (str : List Nat) : Nat × List Nat := (str.headD 0, str.tail)

/-- Body of the inner loop over the columns `i` of a glyph row `j`: when the
glyph bit is set, `memcpy` one pixel (`sz` bytes) of the colour to
`screen_buf + buff_offset + i` and one pixel of zeroes one line below. -/
def blit_text_pixel (fm : FontMetrics) (sz : Nat) (colour : Nat → Nat)
    (symbol_lut : Nat → Bool) (screen_stride buff_offset j : Nat) (i : Nat)
    (s : SDL_Surface) : Except Fault SDL_Surface :=
  if symbol_lut (i + j * fm.FONT_WIDTH) then
    (s.write (sz * (buff_offset + i)) sz colour).bind fun s =>
      s.write (sz * (buff_offset + i + screen_stride)) sz (fun _ => 0)
  else .ok s

/-- Body of the outer loop over the rows `j` of a glyph. -/
def blit_text_row (fm : FontMetrics) (sz : Nat) (colour : Nat → Nat)
    (symbol_lut : Nat → Bool) (screen_stride x_pos y_pos : Nat) (j : Nat)
    (s : SDL_Surface) : Except Fault SDL_Surface :=
  let buff_offset := u32 (u32 ((y_pos + j) * screen_stride) + x_pos)
  forLoop fm.FONT_WIDTH (blit_text_pixel fm sz colour symbol_lut screen_stride buff_offset j) s

/-- The two loops that draw one glyph at the cursor `(x_pos, y_pos)`. -/
def blit_text_glyph (fm : FontMetrics) (sz : Nat) (colour : Nat → Nat)
    (symbol_lut : Nat → Bool) (screen_stride x_pos y_pos : Nat) (s : SDL_Surface) :
    Except Fault SDL_Surface :=
  forLoop fm.FONT_HEIGHT (blit_text_row fm sz colour symbol_lut screen_stride x_pos y_pos) s

/-- State of the character loop of the text compositor: the rest of the
string, the cursor and the surface. -/
structure TextSt where
  str : List Nat
  x_pos : Nat
  screen : SDL_Surface

/-- The `while (!string_is_empty(str))` loop of `sdl_rs90_blit_text16` and
`sdl_rs90_blit_text32`, which differ only in the pixel size `sz` and the bytes
`colour` of the font colour.  The result is the state in which the loop is
left: by the end of the string, or by the `return` of the bounds check. -/
def blit_text_chars (fm : FontMetrics) (sz : Nat) (colour : Nat → Nat)
    (osd_font : bitmapfont_lut_t) (screen_stride screen_width frame_padding_x y_pos : Nat) :
    List Nat → Nat → SDL_Surface → Except Fault TextSt
  | [], x_pos, s => .ok { str := [], x_pos := x_pos, screen := s }
  | c :: cs, x_pos, s =>
    if c = 0 then .ok { str := c :: cs, x_pos := x_pos, screen := s }
    else if u32 (x_pos + fm.FONT_WIDTH_STRIDE + 1) ≥ usub screen_width frame_padding_x then
      .ok { str := c :: cs, x_pos := x_pos, screen := s }
    else if c = 32 then
      blit_text_chars fm sz colour osd_font screen_stride screen_width frame_padding_x y_pos
        cs (u32 (x_pos + fm.FONT_WIDTH_STRIDE)) s
    else
      let symbol := (utf8_walk (c :: cs)).1
      let symbol := if symbol = 339 then 156 else symbol
      let symbol := if symbol = 338 then 140 else symbol
      if symbol ≥ SDL_DINGUX_NUM_FONT_GLYPHS then
        blit_text_chars fm sz colour osd_font screen_stride screen_width frame_padding_x y_pos
          cs x_pos s
      else if symbol > osd_font.glyph_max then .error .heap_out_of_bounds
      else
        (blit_text_glyph fm sz colour (osd_font.lut symbol) screen_stride x_pos y_pos s).bind
          fun s =>
            blit_text_chars fm sz colour osd_font screen_stride screen_width frame_padding_x
              y_pos cs (u32 (x_pos + fm.FONT_WIDTH_STRIDE)) s

/-- The part common to `sdl_rs90_blit_text16` and `sdl_rs90_blit_text32` once
the surface fields have been read: cursor, vertical bounds check, character
loop. -/
def blit_text (fm : FontMetrics) (sz : Nat) (colour : Nat → Nat) (vid : sdl_rs90_video_t)
    (screen : SDL_Surface) (osd_font : bitmapfont_lut_t)
    (screen_stride screen_width screen_height : Nat) (x y : Nat) (str : List Nat) :
    Except Fault sdl_rs90_video_t :=
  let x_pos := u32 (x + vid.frame_padding_x)
  let y_pos := if y > screen_height >>> 1 then usub y vid.frame_padding_y
    else u32 (y + vid.frame_padding_y)
  if u32 (y_pos + fm.FONT_HEIGHT + 1) ≥ usub screen_height vid.frame_padding_y then .ok vid
  else
    (blit_text_chars fm sz colour osd_font screen_stride screen_width vid.frame_padding_x
      y_pos str x_pos screen).map fun st => { vid with screen := some st.screen }

/-- Embedding of `sdl_rs90_blit_text16`. -/
def sdl_rs90_blit_text16 (fm : FontMetrics) (msb_first : Bool) (vid : sdl_rs90_video_t)
    (x y : Nat) (str : List Nat) : Except Fault sdl_rs90_video_t :=
  match vid.screen with
  | none => .error .null_deref
  | some screen =>
    match vid.osd_font with
    | none => .error .null_deref
    | some osd_font =>
      blit_text fm 2 (byte16 msb_first vid.font_colour16) vid screen osd_font
        (u16 (screen.pitch >>> 1)) (u16 screen.w) (u16 screen.h) x y str

/-- Embedding of `sdl_rs90_blit_text32`. -/
def sdl_rs90_blit_text32 (fm : FontMetrics) (msb_first : Bool) (vid : sdl_rs90_video_t)
    (x y : Nat) (str : List Nat) : Except Fault sdl_rs90_video_t :=
  match vid.screen with
  | none => .error .null_deref
  | some screen =>
    match vid.osd_font with
    | none => .error .null_deref
    | some osd_font =>
      blit_text fm 4 (byte32 msb_first vid.font_colour32) vid screen osd_font
        (u32 (screen.pitch >>> 2)) (u32 screen.w) (u32 screen.h) x y str

/-- The string `snprintf` leaves in `display_mode[64]` for the format
`"> %ux%u, %s"`. -/
def display_mode_string (frame_width frame_height : Nat) (rgb32 : Bool) : List Nat :=
  ((['>', ' '] ++ Nat.toDigits 10 (u32 frame_width) ++ ['x']
      ++ Nat.toDigits 10 (u32 frame_height) ++ [',', ' ']
      ++ (if rgb32 then "XRGB8888" else "RGB565").toList).map Char.toNat).take 63

/-- Embedding of `sdl_rs90_blit_video_mode_error_msg`; `error_msg` is the text
of `MSG_UNSUPPORTED_VIDEO_MODE`, which is kept outside the sources. -/
def sdl_rs90_blit_video_mode_error_msg (fm : FontMetrics) (msb_first : Bool)
    (error_msg : List Nat) (vid : sdl_rs90_video_t) : Except Fault sdl_rs90_video_t :=
  match vid.screen with
  | none => .error .null_deref
  | some screen =>
    let vid := { vid with screen := some { screen with pixels := fun j =>
      if j < (u32 (screen.pitch * screen.h)) then 0 else screen.pixels j } }
    let display_mode := display_mode_string vid.frame_width vid.frame_height vid.rgb32
    if vid.rgb32 then
      (sdl_rs90_blit_text32 fm msb_first vid fm.FONT_WIDTH_STRIDE fm.FONT_WIDTH_STRIDE
        error_msg).bind fun vid =>
          sdl_rs90_blit_text32 fm msb_first vid fm.FONT_WIDTH_STRIDE
            (fm.FONT_WIDTH_STRIDE + fm.FONT_HEIGHT_STRIDE) display_mode
    else
      (sdl_rs90_blit_text16 fm msb_first vid fm.FONT_WIDTH_STRIDE fm.FONT_WIDTH_STRIDE
        error_msg).bind fun vid =>
          sdl_rs90_blit_text16 fm msb_first vid fm.FONT_WIDTH_STRIDE
            (fm.FONT_WIDTH_STRIDE + fm.FONT_HEIGHT_STRIDE) display_mode

/-! ## Rendering one frame -/

/-- Modelled from the spec: `SDL_MUSTLOCK`, `SDL_LockSurface` and
`SDL_UnlockSurface` belong to SDL, outside the sources.  They acquire and
release the surface around the pixel writes and leave the pixels alone; the
macro reads fields of the surface it is given, so with a null surface it is a
null dereference. -/
def SDL_MUSTLOCK (screen : Option SDL_Surface) : Except Fault Unit :=
  match screen with
  | none => .error .null_deref
  | some _ => .ok ()

/-- The OSD part of `sdl_rs90_gfx_frame`: `if (msg) ...`. -/
def gfx_frame_osd (fm : FontMetrics) (msb_first : Bool) (vid : sdl_rs90_video_t)
    (msg : Option (List Nat)) : Except Fault sdl_rs90_video_t :=
  match msg with
  | none => .ok vid
  | some msg =>
    match vid.screen with
    | none => .error .null_deref
    | some screen =>
      if vid.rgb32 ∧ ¬ vid.menu_active then
        sdl_rs90_blit_text32 fm msb_first vid fm.FONT_WIDTH_STRIDE
          (usub screen.h (fm.FONT_HEIGHT + fm.FONT_WIDTH_STRIDE)) msg
      else
        sdl_rs90_blit_text16 fm msb_first vid fm.FONT_WIDTH_STRIDE
          (usub screen.h (fm.FONT_HEIGHT + fm.FONT_WIDTH_STRIDE)) msg

/-- The content branch of `sdl_rs90_gfx_frame` (`!vid->menu_active`). -/
def gfx_frame_content (fm : FontMetrics) (msb_first : Bool)
    (SDL_SetVideoMode : VideoModeSetter) (error_msg : List Nat) (vid : sdl_rs90_video_t)
    (frame : Option (Nat → Nat)) (width height pitch : Nat) :
    Except Fault sdl_rs90_video_t :=
  let vid :=
    if vid.was_in_menu ∨ vid.frame_width ≠ width ∨ vid.frame_height ≠ height then
      sdl_rs90_set_output SDL_SetVideoMode vid width height vid.rgb32
    else vid
  (SDL_MUSTLOCK vid.screen).bind fun _ =>
    (if vid.mode_valid then
      match frame with
      | none => .ok vid
      | some frame =>
        if vid.rgb32 then sdl_rs90_blit_frame32 vid frame width height pitch
        else sdl_rs90_blit_frame16 msb_first vid frame width height pitch
    else sdl_rs90_blit_video_mode_error_msg fm msb_first error_msg vid).map
      fun vid => { vid with was_in_menu := false }

/-- The menu branch of `sdl_rs90_gfx_frame` (`vid->menu_active`). -/
def gfx_frame_menu (msb_first : Bool) (SDL_SetVideoMode : VideoModeSetter)
    (vid : sdl_rs90_video_t) : Except Fault sdl_rs90_video_t :=
  let vid :=
    if ¬ vid.was_in_menu then
      { sdl_rs90_set_output SDL_SetVideoMode vid SDL_RS90_WIDTH SDL_RS90_HEIGHT false with
        was_in_menu := true }
    else vid
  (SDL_MUSTLOCK vid.screen).bind fun _ =>
    sdl_rs90_blit_frame16 msb_first vid vid.menu_texture SDL_RS90_WIDTH SDL_RS90_HEIGHT
      (SDL_RS90_WIDTH * 2)

/-- Embedding of `sdl_rs90_gfx_frame`.  `data` is the driver state (null when
the driver is not initialised), `frame` the source memory (null for a
duplicated frame), `msg` the OSD text, `input_driver_nonblock_state` the
fast-forward flag of `video_info` and `current_time` the value read from
`cpu_features_get_time_usec`.  `menu_driver_frame` and `SDL_Flip` act outside
the driver state.  The result is the state left and the returned flag. -/
def sdl_rs90_gfx_frame (fm : FontMetrics) (msb_first : Bool)
    (SDL_SetVideoMode : VideoModeSetter) (error_msg : List Nat)
    (data : Option sdl_rs90_video_t) (frame : Option (Nat → Nat))
    (width height pitch : Nat) (msg : Option (List Nat))
    (input_driver_nonblock_state : Bool) (current_time : Int) :
    Except Fault (Option sdl_rs90_video_t × Bool) :=
  match data with
  | none => .ok (none, true)
  | some vid =>
    if input_driver_nonblock_state ∧ current_time - vid.last_frame_time < vid.ff_frame_time_min
    then .ok (some vid, true)
    else
      let vid :=
        if input_driver_nonblock_state then { vid with last_frame_time := current_time }
        else vid
      ((if ¬ vid.menu_active then
          gfx_frame_content fm msb_first SDL_SetVideoMode error_msg vid frame width height
            pitch
        else gfx_frame_menu msb_first SDL_SetVideoMode vid).bind fun vid =>
        (gfx_frame_osd fm msb_first vid msg).bind fun vid =>
          (SDL_MUSTLOCK vid.screen).map fun _ => vid).map
        fun vid => (some vid, true)

/-- What the glyph loops have done to the pixel in column `i`, row `j` of the
glyph cell once `rows` rows are complete and `cols` columns of the next row
are done: `some true` for the font colour, `some false` for the shadow,
`none` for a pixel not written so far. -/
def glyph_mark (fm : FontMetrics) (g : Nat → Bool) (rows cols : Nat) (i j : Nat) :
    Option Bool :=
  if j < (if i < cols then rows + 1 else rows) ∧ g (i + j * fm.FONT_WIDTH) = true then
    some true
  else if 1 ≤ j ∧ j ≤ (if i < cols then rows + 1 else rows)
      ∧ g (i + (j - 1) * fm.FONT_WIDTH) = true then some false
  else none

/-- Pixel bytes of a surface of 240 pixels per line after the glyph loops have
run `rows` rows and `cols` columns of glyph `g` at the cursor `(x, y)`, from
the pixel bytes `p0`. -/
def glyph_pixels (fm : FontMetrics) (sz : Nat) (colour : Nat → Nat) (g : Nat → Bool)
    (x y : Nat) (p0 : Nat → Nat) (rows cols : Nat) : Nat → Nat :=
  fun b =>
    if x ≤ b / sz % 240 ∧ b / sz % 240 < x + fm.FONT_WIDTH ∧ y ≤ b / sz / 240 then
      match glyph_mark fm g rows cols (b / sz % 240 - x) (b / sz / 240 - y) with
      | some true => colour (b % sz)
      | some false => 0
      | none => p0 b
    else p0 b

/-- The effect of one glyph `g` drawn at the cursor `(x, y)` on a surface of 240
pixels of `sz` bytes per line, from the surface `s` to the surface `s'`: pixel
`(x + i, y + j)` of the glyph cell and of the row below it holds the colour
if the glyph bit `(i, j)` is set, else zero if the bit above it is set, else
its previous value; every other byte is unchanged. -/
def GlyphDrawn (fm : FontMetrics) (sz : Nat) (colour : Nat → Nat) (g : Nat → Bool)
    (x y : Nat) (s s' : SDL_Surface) : Prop :=
  (∀ i j b, i < fm.FONT_WIDTH → j ≤ fm.FONT_HEIGHT → b < sz →
    s'.pixels (sz * ((y + j) * 240 + (x + i)) + b)
      = if j < fm.FONT_HEIGHT ∧ g (i + j * fm.FONT_WIDTH) = true then colour b
        else if 1 ≤ j ∧ g (i + (j - 1) * fm.FONT_WIDTH) = true then 0
        else s.pixels (sz * ((y + j) * 240 + (x + i)) + b))
  ∧ (∀ a, (¬ ∃ i j b, i < fm.FONT_WIDTH ∧ j ≤ fm.FONT_HEIGHT ∧ b < sz
        ∧ a = sz * ((y + j) * 240 + (x + i)) + b) → s'.pixels a = s.pixels a)
  ∧ s'.w = s.w ∧ s'.h = s.h ∧ s'.pitch = s.pitch

/-- The glyph index the character loop uses for the code point `c`: the two
ligature code points are remapped, every other code point is kept. -/
def ligature (c : Nat) : Nat := if c = 339 then 156 else if c = 338 then 140 else c

/-- The string in which every code point 339 is replaced by 156 and every code
point 338 by 140. -/
def replace_ligatures (str : List Nat) : List Nat := str.map ligature

/-- The string without its code points `≥ 256` other than 338 and 339. -/
def drop_unmapped (str : List Nat) : List Nat :=
  str.filter fun c => !(decide (256 ≤ c ∧ c ≠ 338 ∧ c ≠ 339))

/-- A 16-bit driver state ready for text: grey surface (every byte 170), white
font colour, the font `font_dots`, no padding. -/
def vid_osd16 : sdl_rs90_video_t :=
  { vid_rgb565 with
    screen := some { screen_rgb565 with pixels := fun _ => 170 },
    osd_font := some font_dots, font_colour16 := 65535 }

/-- A 32-bit driver state ready for text: grey surface (every byte 170), white
font colour, the font `font_dots`, no padding. -/
def vid_osd32 : sdl_rs90_video_t :=
  { vid_xrgb8888 with
    screen := some { screen_xrgb8888 with pixels := fun _ => 170 },
    osd_font := some font_dots, font_colour32 := 4294967295 }

/-- The character loop leaves the same surface, or the same fault, for the
strings `A` and `B`, whatever the pixel format, font, geometry, cursor and
surface. -/
def SameDrawing (fm : FontMetrics) (A B : List Nat) : Prop :=
  ∀ (sz : Nat) (colour : Nat → Nat) (f : bitmapfont_lut_t) (stride w pad y x : Nat)
    (s : SDL_Surface),
    (blit_text_chars fm sz colour f stride w pad y A x s).map TextSt.screen
      = (blit_text_chars fm sz colour f stride w pad y B x s).map TextSt.screen

/-- A driver state ready for text on the 240x160 surface of the given pitch:
it has the surface and a font of 256 glyphs or more, and its padding is at
most 120 columns and 80 rows. -/
def TextReady (vid : sdl_rs90_video_t) (pitch : Nat) : Prop :=
  ∃ s f, vid.screen = some s ∧ vid.osd_font = some f ∧ s.w = 240 ∧ s.h = 160
    ∧ s.pitch = pitch ∧ 255 ≤ f.glyph_max
    ∧ vid.frame_padding_x ≤ 120 ∧ vid.frame_padding_y ≤ 80

/-- The outcome `r` of compositing text at the origin `(x, y)` in the state
`vid`, whose surface has 240 pixels of `sz` bytes per line: the call
completes; it changes nothing but the pixels of the surface; and every byte
changed belongs to a pixel whose column lies in
`[x + frame_padding_x, 240 - frame_padding_x)` and whose row lies below
`160 - frame_padding_y`. -/
def TextInBounds (sz : Nat) (vid : sdl_rs90_video_t) (x : Nat)
    (r : Except Fault sdl_rs90_video_t) : Prop :=
  ∃ s s', vid.screen = some s ∧ r = .ok { vid with screen := some s' }
    ∧ s'.w = s.w ∧ s'.h = s.h ∧ s'.pitch = s.pitch
    ∧ ∀ a, s'.pixels a ≠ s.pixels a →
        x + vid.frame_padding_x ≤ a / sz % 240 ∧ a / sz % 240 < 240 - vid.frame_padding_x
          ∧ a / sz / 240 < 160 - vid.frame_padding_y

/-- The 16-bit driver state after the output has been set for a 240x8 frame:
padding 0 and 76, surface cleared; white font colour, the font `font_dots`. -/
def vid_low_frame : sdl_rs90_video_t :=
  sdl_rs90_set_output display_rs90 vid_osd16 240 8 false

/-- A display that rejects every mode request. -/
def display_rejecting : VideoModeSetter := fun _ _ _ _ => none

/-- The 16-bit driver state after a request for a 256x224 frame that the
display has rejected. -/
def vid_rejected : sdl_rs90_video_t :=
  sdl_rs90_set_output display_rejecting vid_osd16 256 224 false

/-- The source column `(x_step * col) >> 16` that
`sdl_rs90_generate_scaling_table` assigns to destination column `col`, with
`x_step = (width << 16) / SDL_RS90_WIDTH`. -/
def source_col (width col : Nat) : Nat :=
  let x_step := u32 (u32 (width <<< 16) / SDL_RS90_WIDTH)
  u32 (x_step * col) >>> 16

/-- The source row `(row * y_step) >> 16` that
`sdl_rs90_generate_scaling_table` assigns to destination row `row`, with
`y_step = (height << 16) / SDL_RS90_HEIGHT`. -/
def source_row (height row : Nat) : Nat :=
  let y_step := u32 (u32 (height <<< 16) / SDL_RS90_HEIGHT)
  u32 (row * y_step) >>> 16

/-- Pixel bytes after the table-driven blit has produced `n` pixels on a
surface of pitch 960: the 16-bit pixel `k` occupies the two bytes from byte
offset `960 * (k / 240) + 2 * (k % 240)` and is the source pixel whose index
is the 16-bit integer found at half-word position `k` of the table memory. -/
def blit16_pixels_wide (msb_first : Bool) (t : Block) (src p0 : Nat → Nat) (n : Nat) :
    Nat → Nat :=
  fun j =>
    if j % 960 < 480 ∧ j / 960 * 240 + j % 960 / 2 < n then
      src (2 * t.peek16 msb_first (2 * (j / 960 * 240 + j % 960 / 2)) + j % 2)
    else p0 j

/-- Loop invariant of the table-driven blit on a surface of pitch 960. -/
def Blit16WideInv (msb_first : Bool) (t : Block) (src : Nat → Nat) (s0 : SDL_Surface)
    (n : Nat) (st : BlitSt) : Prop :=
  st.i = n ∧ st.screen.w = s0.w ∧ st.screen.h = 160 ∧ st.screen.pitch = 960
    ∧ st.screen.pixels = blit16_pixels_wide msb_first t src s0.pixels n

/-- The 32-bit driver state right after initialisation, once the menu has been
switched on; the menu texture holds the bytes of `src_ramp`. -/
def vid_menu_start : sdl_rs90_video_t :=
  { vid_xrgb8888 with menu_active := true, menu_texture := src_ramp }

/-- The state in which the first menu frame leaves `vid_menu_start`: the
surface is the 16-bit one and holds the menu texture. -/
def vid_menu_shown : sdl_rs90_video_t :=
  { sdl_rs90_set_output display_rs90 vid_menu_start 240 160 false with
    was_in_menu := true,
    screen := some { screen_rgb565 with
      pixels := fun j => if j < u32 (480 * 160) then src_ramp j else screen_rgb565.pixels j } }

/-- The state in which a change of the vsync policy leaves `vid_menu_shown`:
the output is set again with the depth of the content, 32 bits. -/
def vid_menu_toggled : sdl_rs90_video_t :=
  sdl_rs90_set_output display_rs90
    (sdl_rs90_set_output display_rs90 { vid_menu_shown with vsync := false } 240 158 true)
    240 160 true

/-! ## Theorems -/

/-! ### Loops -/

theorem forLoop_zero {σ : Type} (body : Nat → σ → Except Fault σ) (s : σ) :
    forLoop 0 body s = .ok s := rfl

theorem forLoop_succ {σ : Type} (n : Nat) (body : Nat → σ → Except Fault σ) (s : σ) :
    forLoop (n + 1) body s = (forLoop n body s).bind (body n) := rfl

attribute [irreducible] forLoop

theorem forLoop_inv {σ : Type} (Inv : Nat → σ → Prop) (n : Nat)
    (body : Nat → σ → Except Fault σ) (s : σ) (h0 : Inv 0 s)
    (hstep : ∀ k s, k < n → Inv k s → ∃ s', body k s = .ok s' ∧ Inv (k + 1) s') :
    ∃ s', forLoop n body s = .ok s' ∧ Inv n s' := by
  induction n with
  | zero => exact ⟨s, forLoop_zero body s, h0⟩
  | succ n ih =>
    obtain ⟨s1, h1, hi⟩ := ih (fun k s hk => hstep k s (by omega))
    obtain ⟨s2, h2, hi2⟩ := hstep n s1 (by omega) hi
    exact ⟨s2, by rw [forLoop_succ, h1]; exact h2, hi2⟩

theorem forLoop_inv_or {σ : Type} (Inv : Nat → σ → Prop) (Bad : Fault → Prop) (n : Nat)
    (body : Nat → σ → Except Fault σ) (s : σ) (h0 : Inv 0 s)
    (hstep : ∀ k s, k < n → Inv k s →
      (∃ s', body k s = .ok s' ∧ Inv (k + 1) s') ∨ (∃ e, body k s = .error e ∧ Bad e)) :
    (∃ s', forLoop n body s = .ok s' ∧ Inv n s')
      ∨ (∃ e, forLoop n body s = .error e ∧ Bad e) := by
  induction n with
  | zero => exact Or.inl ⟨s, forLoop_zero body s, h0⟩
  | succ n ih =>
    rcases ih (fun k s hk => hstep k s (by omega)) with ⟨s1, h1, hi⟩ | ⟨e, h1, hb⟩
    · rcases hstep n s1 (by omega) hi with ⟨s2, h2, hi2⟩ | ⟨e, h2, hb⟩
      · exact Or.inl ⟨s2, by rw [forLoop_succ, h1]; exact h2, hi2⟩
      · exact Or.inr ⟨e, by rw [forLoop_succ, h1]; exact h2, hb⟩
    · exact Or.inr ⟨e, by rw [forLoop_succ, h1]; rfl, hb⟩

/-! ### The scaling table, entry by entry -/

theorem scaling_table_col_loop (msb_first : Bool) (W H P r : Nat) (hr : r < 160)
    (st : TableSt) (hi : st.i = 240 * r)
    (ht : table_filled msb_first (scaling_entry W H P) (240 * r) st.table) :
    ∃ st', scaling_table_row msb_first (u32 (u32 (W <<< 16) / SDL_RS90_WIDTH))
        (u32 (u32 (H <<< 16) / SDL_RS90_HEIGHT)) (u16 (P >>> 1)) r st = .ok st'
      ∧ st'.i = 240 * (r + 1)
      ∧ table_filled msb_first (scaling_entry W H P) (240 * (r + 1)) st'.table := by
  unfold scaling_table_row
  have key := forLoop_inv
    (fun c (s : TableSt) => s.i = 240 * r + c
      ∧ table_filled msb_first (scaling_entry W H P) (240 * r + c) s.table)
    SDL_RS90_WIDTH
    (scaling_table_col msb_first
      (u32 ((u32 (r * u32 (u32 (H <<< 16) / SDL_RS90_HEIGHT)) >>> 16) * u16 (P >>> 1)))
      (u32 (u32 (W <<< 16) / SDL_RS90_WIDTH))) st ⟨by omega, ht⟩ ?_
  · obtain ⟨st', h1, h2, h3⟩ := key
    refine ⟨st', h1, ?_, ?_⟩
    · simp only [SDL_RS90_WIDTH] at h2; omega
    · have : 240 * (r + 1) = 240 * r + SDL_RS90_WIDTH := by simp [SDL_RS90_WIDTH]; omega
      rw [this]; exact h3
  · intro c s hc ⟨hsi, hsz, hby, hzero⟩
    simp only [SDL_RS90_WIDTH] at hc
    have hle : 4 * s.i + 4 ≤ s.table.size := by omega
    simp only [scaling_table_col, Block.store32, Block.write, if_pos hle, Except.map]
    refine ⟨_, rfl, ?_⟩
    refine ⟨by simp only; omega, hsz, ?_, ?_⟩
    · intro j hj
      simp only
      by_cases hjo : 4 * s.i ≤ j ∧ j < 4 * s.i + 4
      · rw [if_pos hjo]
        have e1 : j / 4 = 240 * r + c := by omega
        have e2 : j % 4 = j - 4 * s.i := by omega
        have e3 : (240 * r + c) / 240 = r := by omega
        have e4 : (240 * r + c) % 240 = c := by omega
        rw [e1, e2]
        simp only [scaling_entry, SDL_RS90_WIDTH, e3, e4]
      · rw [if_neg hjo]
        exact hby j (by omega)
    · intro j hj
      simp only
      rw [if_neg (by omega)]
      exact hzero j (by omega)

theorem scaling_table_row_loop (msb_first : Bool) (W H P : Nat) (t0 : Block)
    (h0 : t0.size = 153600) (hz : ∀ j, t0.bytes j = 0) :
    ∃ st', forLoop SDL_RS90_HEIGHT
        (scaling_table_row msb_first (u32 (u32 (W <<< 16) / SDL_RS90_WIDTH))
          (u32 (u32 (H <<< 16) / SDL_RS90_HEIGHT)) (u16 (P >>> 1)))
        { i := 0, table := t0 } = .ok st'
      ∧ table_filled msb_first (scaling_entry W H P) 38400 st'.table := by
  have key := forLoop_inv
    (fun r (s : TableSt) => s.i = 240 * r
      ∧ table_filled msb_first (scaling_entry W H P) (240 * r) s.table)
    SDL_RS90_HEIGHT
    (scaling_table_row msb_first (u32 (u32 (W <<< 16) / SDL_RS90_WIDTH))
      (u32 (u32 (H <<< 16) / SDL_RS90_HEIGHT)) (u16 (P >>> 1)))
    { i := 0, table := t0 } ⟨rfl, h0, fun j hj => absurd hj (by omega), fun j _ => hz j⟩ ?_
  · obtain ⟨st', h1, _, h3⟩ := key
    exact ⟨st', h1, h3⟩
  · intro r s hr ⟨hsi, hs⟩
    exact scaling_table_col_loop msb_first W H P r hr s hsi hs

/-- With a granted allocation, `sdl_rs90_generate_scaling_table` completes: it
records the triple, counts one `calloc` and leaves a completely filled table. -/
theorem generate_scaling_table_ok (msb_first : Bool) (vid : sdl_rs90_video_t)
    (W H P : Nat) (hg : vid.heap.grants vid.heap.calloc_calls = true) :
    ∃ t, sdl_rs90_generate_scaling_table msb_first vid W H P
        = .ok { vid with
            content_width := W, content_height := H, content_pitch := P,
            scaling_table := some t,
            heap := { vid.heap with calloc_calls := vid.heap.calloc_calls + 1 } }
      ∧ table_filled msb_first (scaling_entry W H P) 38400 t := by
  obtain ⟨st', h1, h2⟩ := scaling_table_row_loop msb_first W H P
    { size := SDL_RS90_WIDTH * SDL_RS90_HEIGHT * 4, bytes := fun _ => 0 } rfl (fun _ => rfl)
  refine ⟨st'.table, ?_, h2⟩
  unfold sdl_rs90_generate_scaling_table
  simp only [calloc]
  rw [if_pos hg]
  dsimp only
  rw [h1]
  rfl

theorem byte32_peek (msb_first : Bool) (v : Nat) (hv : v < 4294967296) (t : Block)
    (off : Nat) (h : ∀ k, k < 4 → t.bytes (off + k) = byte32 msb_first v k) :
    t.peek32 msb_first off = v := by
  have h0 := h 0 (by omega)
  have h1 := h 1 (by omega)
  have h2 := h 2 (by omega)
  have h3 := h 3 (by omega)
  cases msb_first <;>
    simp only [byte32, Nat.add_zero, if_true, if_false, Bool.false_eq_true] at h0 h1 h2 h3 <;>
    norm_num at h0 h1 h2 h3 <;>
    simp only [Block.peek32, if_true, if_false, Bool.false_eq_true, h0, h1, h2, h3] <;>
    omega

theorem table_filled_peek32 (msb_first : Bool) (E : Nat → Nat) (n : Nat) (t : Block)
    (ht : table_filled msb_first E n t) (k : Nat) (hk : k < n) (hE : E k < 4294967296) :
    t.peek32 msb_first (4 * k) = E k := by
  apply byte32_peek msb_first (E k) hE
  intro j hj
  have := ht.2.1 (4 * k + j) (by omega)
  have e1 : (4 * k + j) / 4 = k := by omega
  have e2 : (4 * k + j) % 4 = j := by omega
  rw [e1, e2] at this
  exact this

theorem table_filled_peek16 (msb_first : Bool) (E : Nat → Nat) (n : Nat) (t : Block)
    (ht : table_filled msb_first E n t) (i : Nat) (hi : i < 2 * n) :
    t.peek16 msb_first (2 * i) = half32 msb_first (E (i / 2)) i := by
  have h0 := ht.2.1 (2 * i) (by omega)
  have h1 := ht.2.1 (2 * i + 1) (by omega)
  have e1 : (2 * i) / 4 = i / 2 := by omega
  have e2 : (2 * i + 1) / 4 = i / 2 := by omega
  rw [e1] at h0
  rw [e2] at h1
  rcases Nat.mod_two_eq_zero_or_one i with hp | hp
  · have e3 : (2 * i) % 4 = 0 := by omega
    have e4 : (2 * i + 1) % 4 = 1 := by omega
    rw [e3] at h0
    rw [e4] at h1
    cases msb_first <;>
      simp only [byte32, if_true, if_false, Bool.false_eq_true] at h0 h1 <;>
      norm_num at h0 h1 <;>
      simp only [Block.peek16, half32, if_true, if_false, Bool.false_eq_true, h0, h1, hp,
        one_ne_zero] <;>
      omega
  · have e3 : (2 * i) % 4 = 2 := by omega
    have e4 : (2 * i + 1) % 4 = 3 := by omega
    rw [e3] at h0
    rw [e4] at h1
    cases msb_first <;>
      simp only [byte32, if_true, if_false, Bool.false_eq_true] at h0 h1 <;>
      norm_num at h0 h1 <;>
      simp only [Block.peek16, half32, if_true, if_false, Bool.false_eq_true, h0, h1, hp,
        one_ne_zero] <;>
      omega

theorem scaling_entry_lt (W H P k : Nat) : scaling_entry W H P k < 4294967296 := by
  unfold scaling_entry u32
  exact Nat.mod_lt _ (by norm_num)

/-- Within the 16-bit ranges no C expression of the table builder wraps: the
stored entry is the plain fixed-point formula. -/
theorem scaling_entry_exact (W H P r c : Nat) (hW : W ≤ 65535) (hH : H ≤ 65535)
    (hP : P ≤ 131071) (hr : r < 160) (hc : c < 240) :
    scaling_entry W H P (r * 240 + c)
      = ((r * ((H <<< 16) / 160)) >>> 16) * (P >>> 1) + ((c * ((W <<< 16) / 240)) >>> 16)
    ∧ ((r * ((H <<< 16) / 160)) >>> 16) * (P >>> 1) + ((c * ((W <<< 16) / 240)) >>> 16)
        < 4294967296 := by
  have e3 : (r * 240 + c) / 240 = r := by omega
  have e4 : (r * 240 + c) % 240 = c := by omega
  simp only [scaling_entry, u32, u16, SDL_RS90_WIDTH, SDL_RS90_HEIGHT, e3, e4,
    Nat.shiftLeft_eq, Nat.shiftRight_eq_div_pow]
  simp only [Nat.reducePow]
  have hx : c * (W * 65536 / 240) ≤ 239 * (W * 65536 / 240) :=
    Nat.mul_le_mul_right _ (by omega)
  have hy : r * (H * 65536 / 160) ≤ 159 * (H * 65536 / 160) :=
    Nat.mul_le_mul_right _ (by omega)
  have hrow : r * (H * 65536 / 160) / 65536 ≤ 65534 := by omega
  have hcol : c * (W * 65536 / 240) / 65536 ≤ 65534 := by omega
  have hprod : r * (H * 65536 / 160) / 65536 * (P / 2) ≤ 65534 * 65535 :=
    Nat.mul_le_mul hrow (by omega)
  have m1 : W * 65536 % 4294967296 = W * 65536 := Nat.mod_eq_of_lt (by omega)
  have m2 : H * 65536 % 4294967296 = H * 65536 := Nat.mod_eq_of_lt (by omega)
  have m3 : W * 65536 / 240 % 4294967296 = W * 65536 / 240 := Nat.mod_eq_of_lt (by omega)
  have m4 : H * 65536 / 160 % 4294967296 = H * 65536 / 160 := Nat.mod_eq_of_lt (by omega)
  have m5 : P / 2 % 65536 = P / 2 := Nat.mod_eq_of_lt (by omega)
  have m6 : r * (H * 65536 / 160) % 4294967296 = r * (H * 65536 / 160) :=
    Nat.mod_eq_of_lt (by omega)
  have m7 : W * 65536 / 240 * c % 4294967296 = c * (W * 65536 / 240) := by
    rw [Nat.mul_comm]; exact Nat.mod_eq_of_lt (by omega)
  have m8 : r * (H * 65536 / 160) / 65536 * (P / 2) % 4294967296
      = r * (H * 65536 / 160) / 65536 * (P / 2) := Nat.mod_eq_of_lt (by omega)
  rw [m1, m2, m3, m4, m5, m6, m7, m8]
  constructor
  · exact Nat.mod_eq_of_lt (by omega)
  · omega

/-- Claim C2.  For `W`, `H` in `[1, 65535]` and `P` in `[1, 131071]`, and when
the allocation is granted, `sdl_rs90_generate_scaling_table` completes with a
table of exactly `240 * 160` 32-bit entries, and entry `r * 240 + c` is
`((r * y_step) >> 16) * (P >> 1) + ((c * x_step) >> 16)` with
`x_step = (W << 16) / 240`, `y_step = (H << 16) / 160`; the formula is the plain
one, below `2^32`, so no 32-bit wrap-around takes place. -/
theorem generate_scaling_table_entries (msb_first : Bool) (vid : sdl_rs90_video_t)
    (W H P : Nat) (hW : 1 ≤ W ∧ W ≤ 65535) (hH : 1 ≤ H ∧ H ≤ 65535)
    (hP : 1 ≤ P ∧ P ≤ 131071) (hg : vid.heap.grants vid.heap.calloc_calls = true) :
    ∃ vid' t, sdl_rs90_generate_scaling_table msb_first vid W H P = .ok vid'
      ∧ vid'.scaling_table = some t
      ∧ t.size = 4 * (240 * 160)
      ∧ ∀ r c, r < 160 → c < 240 →
          t.load32 msb_first (4 * (r * 240 + c))
            = .ok (((r * ((H <<< 16) / 160)) >>> 16) * (P >>> 1)
                + ((c * ((W <<< 16) / 240)) >>> 16))
          ∧ ((r * ((H <<< 16) / 160)) >>> 16) * (P >>> 1)
                + ((c * ((W <<< 16) / 240)) >>> 16) < 4294967296 := by
  obtain ⟨t, h1, h2⟩ := generate_scaling_table_ok msb_first vid W H P hg
  refine ⟨_, t, h1, rfl, h2.1, ?_⟩
  intro r c hr hc
  have hex := scaling_entry_exact W H P r c hW.2 hH.2 hP.2 hr hc
  refine ⟨?_, hex.2⟩
  have hsz : 4 * (r * 240 + c) + 4 ≤ t.size := by rw [h2.1]; omega
  rw [Block.load32, if_pos hsz,
    table_filled_peek32 msb_first _ 38400 t h2 (r * 240 + c) (by omega)
      (scaling_entry_lt W H P _), hex.1]

/-- Witness of C2 at the spec's example `W = 256`, `H = 224`, `P = 512`:
`x_step = 69905`, `y_step = 91750`, entry `(0,0)` is `0` and entry
`(239,159)` is `57086`. -/
theorem generate_scaling_table_entries_witness :
    (256 <<< 16) / 240 = 69905 ∧ (224 <<< 16) / 160 = 91750 ∧
    ∃ vid' t, sdl_rs90_generate_scaling_table false vid_rgb565 256 224 512 = .ok vid'
      ∧ vid'.scaling_table = some t
      ∧ t.size = 4 * (240 * 160)
      ∧ t.load32 false (4 * (0 * 240 + 0)) = .ok 0
      ∧ t.load32 false (4 * (159 * 240 + 239)) = .ok 57086 := by
  refine ⟨by decide, by decide, ?_⟩
  obtain ⟨vid', t, h1, h2, h3, h4⟩ :=
    generate_scaling_table_entries false vid_rgb565 256 224 512 (by decide) (by decide)
      (by decide) rfl
  refine ⟨vid', t, h1, h2, h3, ?_, ?_⟩
  · rw [(h4 0 0 (by decide) (by decide)).1]; rfl
  · rw [(h4 159 239 (by decide) (by decide)).1]; rfl

/-! ### The table-driven blit, pixel by pixel -/

theorem blit_frame16_row_loop (msb_first : Bool) (t : Block) (src : Nat → Nat)
    (s0 : SDL_Surface) (r : Nat) (hr : r < 160) (st : BlitSt)
    (hinv : Blit16Inv msb_first t src s0 (240 * r) st) :
    (∃ st', blit_frame16_row msb_first t src 240 r st = .ok st'
        ∧ Blit16Inv msb_first t src s0 (240 * (r + 1)) st')
      ∨ (∃ e, blit_frame16_row msb_first t src 240 r st = .error e
        ∧ (e = .heap_out_of_bounds ∧ t.size < 76800)) := by
  unfold blit_frame16_row
  have hu : 2 * u32 (240 * r) = 2 * (240 * r) := by
    unfold u32; omega
  rw [hu]
  have key := forLoop_inv_or
    (fun c (s : BlitSt) => s.out_ptr = 2 * (240 * r + c)
      ∧ Blit16Inv msb_first t src s0 (240 * r + c) s)
    (fun e => e = .heap_out_of_bounds ∧ t.size < 76800)
    SDL_RS90_WIDTH (blit_frame16_col msb_first t src)
    { st with out_ptr := 2 * (240 * r) }
    ⟨rfl, hinv⟩ ?_
  · rcases key with ⟨st', h1, _, h3⟩ | h
    · exact Or.inl ⟨st', h1, h3⟩
    · exact Or.inr h
  · intro c s hc ⟨hop, hi, hw, hh, hp, hpx⟩
    simp only [SDL_RS90_WIDTH] at hc
    by_cases hl : 2 * s.i + 2 ≤ t.size
    · left
      have hwr : s.out_ptr + 2 ≤ s.screen.pitch * s.screen.h := by rw [hp, hh]; omega
      simp only [blit_frame16_col, Block.load16, if_pos hl, Except.bind, SDL_Surface.write,
        if_pos hwr, Except.map]
      refine ⟨_, rfl, ?_, ?_, hw, hh, hp, ?_⟩
      · simp only; omega
      · simp only; omega
      · funext j
        simp only [hpx, blit16_pixels]
        by_cases hj : s.out_ptr ≤ j ∧ j < s.out_ptr + 2
        · rw [if_pos hj, if_pos (by omega)]
          have e1 : j / 2 = s.i := by omega
          have e2 : j % 2 = j - s.out_ptr := by omega
          rw [e1, e2]
        · rw [if_neg hj]
          by_cases hj2 : j < 2 * (240 * r + c)
          · rw [if_pos hj2, if_pos (by omega)]
          · rw [if_neg hj2, if_neg (by omega)]
    · right
      refine ⟨.heap_out_of_bounds, ?_, rfl, by omega⟩
      simp only [blit_frame16_col, Block.load16, if_neg hl, Except.bind]

/-- What `sdl_rs90_blit_frame16_scale_precomputed` does on the 240x160 RGB565
surface, whatever the table block: either it completes and rewrites all
`240 * 160` pixels, pixel `i` receiving the source pixel indexed by the 16-bit
half-word `i` of the table memory, or the table block is shorter than
`2 * 240 * 160` bytes and a read of the table leaves the block. -/
theorem blit_frame16_scale_precomputed_cases (msb_first : Bool) (vid : sdl_rs90_video_t)
    (src : Nat → Nat) (screen : SDL_Surface) (t : Block)
    (hs : vid.screen = some screen) (hp : screen.pitch = 480) (hh : screen.h = 160)
    (htab : vid.scaling_table = some t) :
    sdl_rs90_blit_frame16_scale_precomputed msb_first vid src
        = .ok { vid with screen := some { screen with
            pixels := blit16_pixels msb_first t src screen.pixels 38400 } }
      ∨ (sdl_rs90_blit_frame16_scale_precomputed msb_first vid src
          = .error .heap_out_of_bounds ∧ t.size < 76800) := by
  have key := forLoop_inv_or (fun r s => Blit16Inv msb_first t src screen (240 * r) s)
    (fun e => e = .heap_out_of_bounds ∧ t.size < 76800)
    SDL_RS90_HEIGHT
    (blit_frame16_row msb_first t src 240) { i := 0, out_ptr := 0, screen := screen }
    ⟨rfl, rfl, hh, hp, by funext j; simp [blit16_pixels]⟩
    (fun r s hr hinv => blit_frame16_row_loop msb_first t src screen r hr s hinv)
  have hos : u16 (screen.pitch >>> 1) = 240 := by rw [hp]; rfl
  rcases key with ⟨st', h1, _, hw, hh', hp', hpx⟩ | ⟨e, h1, he, hsz⟩
  · left
    unfold sdl_rs90_blit_frame16_scale_precomputed
    rw [hs, htab]
    dsimp only
    rw [hos, h1]
    have : st'.screen = { screen with
        pixels := blit16_pixels msb_first t src screen.pixels 38400 } := by
      cases hst : st'.screen
      rw [hst] at hw hh' hp' hpx
      simp only at hw hh' hp' hpx
      simp only [SDL_RS90_HEIGHT] at hpx
      subst hw hpx
      rw [hh, hp, hh', hp']
    simp only [Except.map, this]
  · right
    refine ⟨?_, hsz⟩
    unfold sdl_rs90_blit_frame16_scale_precomputed
    rw [hs, htab]
    dsimp only
    rw [hos, h1, he]
    rfl

/-- With a table block of at least `2 * 240 * 160` bytes the table-driven blit
completes. -/
theorem blit_frame16_scale_precomputed_ok (msb_first : Bool) (vid : sdl_rs90_video_t)
    (src : Nat → Nat) (screen : SDL_Surface) (t : Block)
    (hs : vid.screen = some screen) (hp : screen.pitch = 480) (hh : screen.h = 160)
    (htab : vid.scaling_table = some t) (ht : 76800 ≤ t.size) :
    sdl_rs90_blit_frame16_scale_precomputed msb_first vid src
      = .ok { vid with screen := some { screen with
          pixels := blit16_pixels msb_first t src screen.pixels 38400 } } := by
  rcases blit_frame16_scale_precomputed_cases msb_first vid src screen t hs hp hh htab
    with h | ⟨_, h⟩
  · exact h
  · omega

/-- Claim C1, evaluated on the code.  On the little-endian RS-90, for the
256x224 source of stride 512 the table entry 1 is the index 1, yet after
`sdl_rs90_blit_frame16_scale_precomputed` destination pixel 1 holds source
pixel 0 and not source pixel `table[1] = 1`: the blitter reads the table
through a `uint16_t` pointer, so for pixel 1 it reads the upper half of the
32-bit entry 0. -/
theorem blit_frame16_scale_precomputed_reads_halfwords :
    ∃ vid1 t vid2 s,
      sdl_rs90_generate_scaling_table false vid_rgb565 256 224 512 = .ok vid1
      ∧ vid1.scaling_table = some t
      ∧ t.load32 false (4 * 1) = .ok 1
      ∧ sdl_rs90_blit_frame16_scale_precomputed false vid1 src_ramp = .ok vid2
      ∧ vid2.screen = some s
      ∧ s.pixels (2 * 1) = src_ramp (2 * 0)
      ∧ s.pixels (2 * 1 + 1) = src_ramp (2 * 0 + 1)
      ∧ s.pixels (2 * 1) ≠ src_ramp (2 * 1) := by
  obtain ⟨t, h1, h2⟩ := generate_scaling_table_ok false vid_rgb565 256 224 512 rfl
  have hb := blit_frame16_scale_precomputed_ok false _ src_ramp screen_rgb565 t
    (rfl : ({ vid_rgb565 with
        content_width := 256, content_height := 224, content_pitch := 512,
        scaling_table := some t,
        heap := { vid_rgb565.heap with
          calloc_calls := vid_rgb565.heap.calloc_calls + 1 } } : sdl_rs90_video_t).screen
      = some screen_rgb565) rfl rfl rfl (by rw [h2.1]; omega)
  have e0 : scaling_entry 256 224 512 0 = 0 := by decide
  have e1 : scaling_entry 256 224 512 1 = 1 := by decide
  have p1 : t.peek16 false (2 * 1) = 0 := by
    rw [table_filled_peek16 false _ 38400 t h2 1 (by omega)]
    simp only [half32, Bool.false_eq_true, if_false]
    rw [show (1 : Nat) / 2 = 0 by decide, e0]
    decide
  have l1 : t.load32 false (4 * 1) = .ok 1 := by
    have hsz : 4 * 1 + 4 ≤ t.size := by rw [h2.1]; omega
    rw [Block.load32, if_pos hsz,
      table_filled_peek32 false _ 38400 t h2 1 (by omega) (scaling_entry_lt _ _ _ _), e1]
  have q2 : blit16_pixels false t src_ramp screen_rgb565.pixels 38400 (2 * 1)
      = src_ramp (2 * 0) := by
    simp only [blit16_pixels]
    rw [if_pos (by omega), show (2 * 1) / 2 = 1 by decide, p1]
  have q3 : blit16_pixels false t src_ramp screen_rgb565.pixels 38400 (2 * 1 + 1)
      = src_ramp (2 * 0 + 1) := by
    simp only [blit16_pixels]
    rw [if_pos (by omega), show (2 * 1 + 1) / 2 = 1 by decide, p1]
  refine ⟨_, t, _, _, h1, rfl, l1, hb, rfl, q2, q3, ?_⟩
  show blit16_pixels false t src_ramp screen_rgb565.pixels 38400 (2 * 1) ≠ src_ramp (2 * 1)
  rw [q2]
  decide

/-! ### Range of the table entries -/

theorem u32_le (n : Nat) : u32 n ≤ n := Nat.mod_le _ _

/-- Every entry is at most `(H - 1) * in_stride + (W - 1)`, whatever the
arguments: wrap-around can only make an index smaller. -/
theorem scaling_entry_le (W H P k : Nat) (hW : 1 ≤ W) (hH : 1 ≤ H) (hk : k < 38400) :
    scaling_entry W H P k ≤ (H - 1) * u16 (P >>> 1) + (W - 1) := by
  unfold scaling_entry
  simp only [SDL_RS90_WIDTH, SDL_RS90_HEIGHT, Nat.shiftLeft_eq, Nat.shiftRight_eq_div_pow,
    Nat.reducePow]
  have hc : k % 240 ≤ 239 := by omega
  have hr : k / 240 ≤ 159 := by omega
  generalize k % 240 = c at *
  generalize k / 240 = r at *
  have hcol : u32 (u32 (u32 (W * 65536) / 240) * c) / 65536 ≤ W - 1 := by
    have h1 := u32_le (W * 65536)
    have h2 := u32_le (u32 (W * 65536) / 240)
    have h3 := u32_le (u32 (u32 (W * 65536) / 240) * c)
    have h4 : u32 (u32 (W * 65536) / 240) * c ≤ (u32 (W * 65536) / 240) * 239 :=
      Nat.mul_le_mul h2 hc
    omega
  have hrow : u32 (r * u32 (u32 (H * 65536) / 160)) / 65536 ≤ H - 1 := by
    have h1 := u32_le (H * 65536)
    have h2 := u32_le (u32 (H * 65536) / 160)
    have h3 := u32_le (r * u32 (u32 (H * 65536) / 160))
    have h4 : r * u32 (u32 (H * 65536) / 160) ≤ 159 * (u32 (H * 65536) / 160) :=
      Nat.mul_le_mul hr h2
    omega
  have hidx : u32 (u32 (r * u32 (u32 (H * 65536) / 160)) / 65536 * u16 (P / 2))
      ≤ (H - 1) * u16 (P / 2) :=
    le_trans (u32_le _) (Nat.mul_le_mul_right _ hrow)
  exact le_trans (u32_le _) (Nat.add_le_add hidx hcol)

theorem half32_le (msb_first : Bool) (v i : Nat) : half32 msb_first v i ≤ v := by
  unfold half32
  split <;> split <;> omega

/-- A source whose rows are 512 pixels apart although only 256 are shown. -/
theorem scaling_entry_padded_rows :
    ∃ vid' t, sdl_rs90_generate_scaling_table false vid_rgb565 256 224 1024 = .ok vid'
      ∧ vid'.scaling_table = some t
      ∧ t.load32 false (4 * (159 * 240 + 239)) = .ok 113918
      ∧ ¬ (113918 < 256 * 224) := by
  obtain ⟨t, h1, h2⟩ := generate_scaling_table_ok false vid_rgb565 256 224 1024 rfl
  refine ⟨_, t, h1, rfl, ?_, by decide⟩
  have hsz : 4 * (159 * 240 + 239) + 4 ≤ t.size := by have := h2.1; omega
  rw [Block.load32, if_pos hsz,
    table_filled_peek32 false _ 38400 t h2 (159 * 240 + 239) (by omega)
      (scaling_entry_lt _ _ _ _),
    show scaling_entry 256 224 1024 (159 * 240 + 239) = 113918 by decide]

/-- Claim C3, amended.  For positive `W`, `H`, `P` with `P >> 1 ≤ W` (rows
without padding pixels, such as the tight stride `P = 2 * W`), and when the
allocation is granted, every entry of the table built by
`sdl_rs90_generate_scaling_table` lies in `[0, W * H)`, and so does every index
the table-driven blit reads from the table memory. -/
theorem scaling_table_entries_in_range (msb_first : Bool) (vid : sdl_rs90_video_t)
    (W H P : Nat) (hW : 1 ≤ W) (hH : 1 ≤ H) (_hP : 1 ≤ P) (hstride : P >>> 1 ≤ W)
    (hg : vid.heap.grants vid.heap.calloc_calls = true) :
    ∃ vid' t, sdl_rs90_generate_scaling_table msb_first vid W H P = .ok vid'
      ∧ vid'.scaling_table = some t
      ∧ (∀ k, k < 240 * 160 → ∃ e, t.load32 msb_first (4 * k) = .ok e ∧ e < W * H)
      ∧ (∀ i, i < 240 * 160 → ∃ v, t.load16 msb_first (2 * i) = .ok v ∧ v < W * H) := by
  obtain ⟨t, h1, h2⟩ := generate_scaling_table_ok msb_first vid W H P hg
  have hbound : ∀ k, k < 38400 → scaling_entry W H P k < W * H := by
    intro k hk
    have h := scaling_entry_le W H P k hW hH hk
    have hs : u16 (P >>> 1) ≤ W := le_trans (Nat.mod_le _ _) hstride
    have hm : (H - 1) * u16 (P >>> 1) ≤ (H - 1) * W := Nat.mul_le_mul_left _ hs
    have he : W * H = (H - 1) * W + W := by
      obtain ⟨h', rfl⟩ : ∃ h', H = h' + 1 := ⟨H - 1, by omega⟩
      simp only [Nat.add_sub_cancel]
      ring
    omega
  refine ⟨_, t, h1, rfl, ?_, ?_⟩
  · intro k hk
    have hsz : 4 * k + 4 ≤ t.size := by rw [h2.1]; omega
    refine ⟨scaling_entry W H P k, ?_, hbound k (by omega)⟩
    rw [Block.load32, if_pos hsz,
      table_filled_peek32 msb_first _ 38400 t h2 k (by omega) (scaling_entry_lt _ _ _ _)]
  · intro i hi
    have hsz : 2 * i + 2 ≤ t.size := by rw [h2.1]; omega
    refine ⟨half32 msb_first (scaling_entry W H P (i / 2)) i, ?_, ?_⟩
    · rw [Block.load16, if_pos hsz, table_filled_peek16 msb_first _ 38400 t h2 i (by omega)]
    · exact lt_of_le_of_lt (half32_le _ _ _) (hbound (i / 2) (by omega))

/-- Witness of C3 (amended) at the tight stride `W = 256`, `H = 224`, `P = 512`. -/
theorem scaling_table_entries_in_range_witness :
    ∃ vid' t, sdl_rs90_generate_scaling_table false vid_rgb565 256 224 512 = .ok vid'
      ∧ vid'.scaling_table = some t
      ∧ (∀ k, k < 240 * 160 → ∃ e, t.load32 false (4 * k) = .ok e ∧ e < 256 * 224)
      ∧ (∀ i, i < 240 * 160 → ∃ v, t.load16 false (2 * i) = .ok v ∧ v < 256 * 224) :=
  scaling_table_entries_in_range false vid_rgb565 256 224 512 (by decide) (by decide)
    (by decide) (by decide) rfl

/-! ### Padding, bulk copy and path choice -/

theorem set_output_padding (SDL_SetVideoMode : VideoModeSetter) (vid : sdl_rs90_video_t)
    (W H : Nat) (rgb32 : Bool) :
    (sdl_rs90_set_output SDL_SetVideoMode vid W H rgb32).frame_padding_x
        = (if (SDL_SetVideoMode 240 160 (if rgb32 then 32 else 16) vid.vsync).isSome
            then (if W < 240 then (240 - W) / 2 else 0) else 0)
    ∧ (sdl_rs90_set_output SDL_SetVideoMode vid W H rgb32).frame_padding_y
        = (if (SDL_SetVideoMode 240 160 (if rgb32 then 32 else 16) vid.vsync).isSome
            then (if H < 160 then (160 - H) / 2 else 0) else 0) := by
  unfold sdl_rs90_set_output
  simp only [SDL_RS90_WIDTH, SDL_RS90_HEIGHT]
  cases SDL_SetVideoMode 240 160 (if rgb32 then 32 else 16) vid.vsync with
  | none => simp
  | some screen =>
    simp only [Option.isSome_some, if_true, Nat.shiftRight_eq_div_pow, pow_one]
    by_cases h : 240 ≠ W ∨ 160 ≠ H
    · rw [if_pos h]
      exact ⟨rfl, rfl⟩
    · rw [if_neg h]
      have hW : ¬ W < 240 := by omega
      have hH : ¬ H < 160 := by omega
      simp only [if_neg hW, if_neg hH]
      exact ⟨trivial, trivial⟩

theorem surface_write_ok (s : SDL_Surface) (off n : Nat) (data : Nat → Nat)
    (h : off + n ≤ s.pitch * s.h) :
    s.write off n data = .ok { s with
      pixels := fun j => if off ≤ j ∧ j < off + n then data (j - off) else s.pixels j } := by
  rw [SDL_Surface.write, if_pos h]

/-- The fast path of `sdl_rs90_blit_frame16`: taken when the strides agree and
the frame is at most 160 rows high, it copies `P * H` bytes to the start of the
pixel buffer and touches nothing else. -/
theorem blit_frame16_fast (msb_first : Bool) (vid : sdl_rs90_video_t) (src : Nat → Nat)
    (screen : SDL_Surface) (W H P : Nat) (hs : vid.screen = some screen)
    (hp : P = screen.pitch) (hH : H ≤ 160) (hfit : u32 (P * H) ≤ screen.pitch * screen.h) :
    sdl_rs90_blit_frame16 msb_first vid src W H P
      = .ok { vid with screen := some { screen with
          pixels := fun j => if j < u32 (P * H) then src j else screen.pixels j } } := by
  unfold sdl_rs90_blit_frame16
  rw [hs]
  have hc : P = screen.pitch ∧ H = (if H > SDL_RS90_HEIGHT then SDL_RS90_HEIGHT else H) := by
    refine ⟨hp, ?_⟩
    rw [if_neg (by simp only [SDL_RS90_HEIGHT]; omega)]
  dsimp only
  rw [if_pos hc, surface_write_ok screen 0 (u32 (P * H)) src (by omega)]
  simp only [Except.map, Nat.zero_le, true_and, Nat.zero_add, Nat.sub_zero]

/-- The fast path of `sdl_rs90_blit_frame32`: `P * H` bytes are copied to the
start of row `frame_padding_y`. -/
theorem blit_frame32_fast (vid : sdl_rs90_video_t) (src : Nat → Nat)
    (screen : SDL_Surface) (W H P : Nat) (hs : vid.screen = some screen)
    (hp : P = screen.pitch) (hH : H ≤ 160)
    (hfit : u32 (vid.frame_padding_y * screen.pitch) + u32 (P * H)
      ≤ screen.pitch * screen.h) :
    sdl_rs90_blit_frame32 vid src W H P
      = .ok { vid with screen := some { screen with
          pixels := fun j =>
            if u32 (vid.frame_padding_y * screen.pitch) ≤ j
                ∧ j < u32 (vid.frame_padding_y * screen.pitch) + u32 (P * H)
            then src (j - u32 (vid.frame_padding_y * screen.pitch))
            else screen.pixels j } } := by
  unfold sdl_rs90_blit_frame32
  rw [hs]
  have hc : P = screen.pitch ∧ H = (if H > SDL_RS90_HEIGHT then SDL_RS90_HEIGHT else H) := by
    refine ⟨hp, ?_⟩
    rw [if_neg (by simp only [SDL_RS90_HEIGHT]; omega)]
  dsimp only
  rw [if_pos hc, surface_write_ok screen _ (u32 (P * H)) src hfit]
  simp only [Except.map]

/-- Claim C4.  When the source has the native geometry and stride of the
destination (`W = 240`, `H = 160`, `P` = destination pitch = `240 *` pixel
size) and the padding is the one `sdl_rs90_set_output` computes for 240x160
(zero), both `sdl_rs90_blit_frame16` (pitch 480) and `sdl_rs90_blit_frame32`
(pitch 960) complete and leave the `P * H` bytes of the destination buffer
equal, byte for byte, to the first `P * H` bytes of the source. -/
theorem blit_native_geometry_is_copy (msb_first : Bool)
    (SDL_SetVideoMode : VideoModeSetter) (vid0 vid : sdl_rs90_video_t)
    (src : Nat → Nat) (screen : SDL_Surface)
    (hs : vid.screen = some screen) (hh : screen.h = 160)
    (hpad : vid.frame_padding_y
      = (sdl_rs90_set_output SDL_SetVideoMode vid0 240 160 vid.rgb32).frame_padding_y) :
    (screen.pitch = 480 →
      ∃ s', sdl_rs90_blit_frame16 msb_first vid src 240 160 480
          = .ok { vid with screen := some s' }
        ∧ s'.pitch = 480 ∧ s'.h = 160 ∧ ∀ j, j < 480 * 160 → s'.pixels j = src j)
    ∧ (screen.pitch = 960 →
      ∃ s', sdl_rs90_blit_frame32 vid src 240 160 960
          = .ok { vid with screen := some s' }
        ∧ s'.pitch = 960 ∧ s'.h = 160 ∧ ∀ j, j < 960 * 160 → s'.pixels j = src j) := by
  have hpy : vid.frame_padding_y = 0 := by
    rw [hpad, (set_output_padding SDL_SetVideoMode vid0 240 160 vid.rgb32).2]
    simp
  constructor
  · intro hp
    refine ⟨_, blit_frame16_fast msb_first vid src screen 240 160 480 hs hp.symm
      (by omega) (by rw [hp, hh]; decide), hp, hh, ?_⟩
    intro j hj
    have : j < u32 (480 * 160) := by unfold u32; omega
    simp only [if_pos this]
  · intro hp
    have h0 : u32 (vid.frame_padding_y * screen.pitch) = 0 := by rw [hpy]; simp [u32]
    refine ⟨_, blit_frame32_fast vid src screen 240 160 960 hs hp.symm
      (by omega) (by rw [h0, hp, hh]; decide), hp, hh, ?_⟩
    intro j hj
    have : j < u32 (960 * 160) := by unfold u32; omega
    simp only [h0, Nat.zero_le, true_and, Nat.zero_add, if_pos this, Nat.sub_zero]

/-- Witness of C4 on the two surfaces of the RS-90. -/
theorem blit_native_geometry_is_copy_witness :
    (∃ s', sdl_rs90_blit_frame16 false vid_rgb565 src_ramp 240 160 480
          = .ok { vid_rgb565 with screen := some s' }
        ∧ s'.pitch = 480 ∧ s'.h = 160 ∧ ∀ j, j < 480 * 160 → s'.pixels j = src_ramp j)
    ∧ (∃ s', sdl_rs90_blit_frame32 vid_xrgb8888 src_ramp 240 160 960
          = .ok { vid_xrgb8888 with screen := some s' }
        ∧ s'.pitch = 960 ∧ s'.h = 160 ∧ ∀ j, j < 960 * 160 → s'.pixels j = src_ramp j) :=
  ⟨(blit_native_geometry_is_copy false display_rs90 vid_rgb565 vid_rgb565 src_ramp
      screen_rgb565 rfl rfl rfl).1 rfl,
   (blit_native_geometry_is_copy false display_rs90 vid_xrgb8888 vid_xrgb8888 src_ramp
      screen_xrgb8888 rfl rfl rfl).2 rfl⟩

/-- Outside the fast path `sdl_rs90_blit_frame16` rebuilds the table when the
stored triple differs and then runs the table-driven blit. -/
theorem blit_frame16_table_path (msb_first : Bool) (vid : sdl_rs90_video_t)
    (src : Nat → Nat) (screen : SDL_Surface) (W H P : Nat)
    (hs : vid.screen = some screen) (hn : ¬ (P = screen.pitch ∧ H ≤ 160)) :
    sdl_rs90_blit_frame16 msb_first vid src W H P
      = (if vid.content_width ≠ W ∨ vid.content_height ≠ H ∨ vid.content_pitch ≠ P then
          sdl_rs90_generate_scaling_table msb_first vid W H P
        else .ok vid).bind
        fun v => sdl_rs90_blit_frame16_scale_precomputed msb_first v src := by
  have hc : ¬ (P = screen.pitch
      ∧ H = (if H > SDL_RS90_HEIGHT then SDL_RS90_HEIGHT else H)) := by
    intro ⟨h1, h2⟩
    apply hn
    refine ⟨h1, ?_⟩
    simp only [SDL_RS90_HEIGHT] at h2
    split at h2 <;> omega
  unfold sdl_rs90_blit_frame16
  rw [hs]
  dsimp only
  rw [if_neg hc]

/-- Counterexample to C5 as stated: a 240x144 frame of stride 480 (so
`H ≠ 160`) is bulk-copied.  Starting from the initial state, whose stored
triple is `(0,0,0)`, the table path would have rebuilt the table and recorded
the triple; instead the call completes with the triple, the table and the
allocator untouched, the first `480 * 144` bytes of the destination equal to
the source and the other bytes unchanged. -/
theorem blit_frame16_fast_path_at_144_rows :
    (144 : Nat) ≠ 160 ∧
    ∃ vid' s', sdl_rs90_blit_frame16 false vid_rgb565 src_ramp 240 144 480 = .ok vid'
      ∧ vid'.content_width = 0 ∧ vid'.content_height = 0 ∧ vid'.content_pitch = 0
      ∧ vid'.scaling_table = vid_rgb565.scaling_table
      ∧ vid'.heap.calloc_calls = vid_rgb565.heap.calloc_calls
      ∧ vid'.screen = some s'
      ∧ (∀ j, j < 480 * 144 → s'.pixels j = src_ramp j)
      ∧ (∀ j, 480 * 144 ≤ j → s'.pixels j = screen_rgb565.pixels j) := by
  refine ⟨by decide, _, _,
    blit_frame16_fast false vid_rgb565 src_ramp screen_rgb565 240 144 480 rfl rfl
      (by omega) (by decide), rfl, rfl, rfl, rfl, rfl, rfl, ?_, ?_⟩
  · intro j hj
    have : j < u32 (480 * 144) := by unfold u32; omega
    simp only [if_pos this]
  · intro j hj
    have : ¬ j < u32 (480 * 144) := by unfold u32; omega
    simp only [if_neg this]

/-- Claim C5, amended.  `sdl_rs90_blit_frame16` takes the bulk-copy fast path
exactly when `P` equals the destination pitch and `H ≤ 160`, whatever `W`: it
then copies `P * H` bytes of the source to the start of the destination and
leaves the rest of the destination, the table, its triple and the allocator
untouched (so the fast path never needs a vertical crop).  In every other
call, with a granted allocation, the frame goes through the scaling table:
the call is `sdl_rs90_blit_frame16_scale_precomputed` run on a state whose
stored triple is `(W, H, P)`, which is the unchanged state when the stored
triple already was `(W, H, P)` and the state rebuilt by
`sdl_rs90_generate_scaling_table` otherwise. -/
theorem blit_frame16_path_choice (msb_first : Bool) (vid : sdl_rs90_video_t)
    (src : Nat → Nat) (screen : SDL_Surface) (W H P : Nat)
    (hs : vid.screen = some screen) (hh : screen.h = 160)
    (hg : vid.heap.grants vid.heap.calloc_calls = true) :
    (P = screen.pitch ∧ H ≤ 160 →
      sdl_rs90_blit_frame16 msb_first vid src W H P
        = .ok { vid with screen := some { screen with
            pixels := fun j => if j < u32 (P * H) then src j else screen.pixels j } })
    ∧ (¬ (P = screen.pitch ∧ H ≤ 160) →
      ∃ v, ((vid.content_width = W ∧ vid.content_height = H ∧ vid.content_pitch = P
              ∧ v = vid)
            ∨ (¬ (vid.content_width = W ∧ vid.content_height = H
                  ∧ vid.content_pitch = P)
              ∧ sdl_rs90_generate_scaling_table msb_first vid W H P = .ok v))
        ∧ v.content_width = W ∧ v.content_height = H ∧ v.content_pitch = P
        ∧ sdl_rs90_blit_frame16 msb_first vid src W H P
            = sdl_rs90_blit_frame16_scale_precomputed msb_first v src) := by
  constructor
  · rintro ⟨hp, hH⟩
    refine blit_frame16_fast msb_first vid src screen W H P hs hp hH ?_
    have h1 : u32 (P * H) ≤ P * H := u32_le _
    have h2 : P * H ≤ P * 160 := Nat.mul_le_mul_left _ hH
    rw [← hp, hh]
    omega
  · intro hn
    rw [blit_frame16_table_path msb_first vid src screen W H P hs hn]
    by_cases hsame : vid.content_width = W ∧ vid.content_height = H ∧ vid.content_pitch = P
    · refine ⟨vid, Or.inl ⟨hsame.1, hsame.2.1, hsame.2.2, rfl⟩, hsame.1, hsame.2.1,
        hsame.2.2, ?_⟩
      have hcond : ¬ (vid.content_width ≠ W ∨ vid.content_height ≠ H
          ∨ vid.content_pitch ≠ P) := by
        rw [hsame.1, hsame.2.1, hsame.2.2]; simp
      rw [if_neg hcond]
      rfl
    · obtain ⟨t, h1, _⟩ := generate_scaling_table_ok msb_first vid W H P hg
      have hcond : vid.content_width ≠ W ∨ vid.content_height ≠ H
          ∨ vid.content_pitch ≠ P := by
        by_contra hcon
        simp only [not_or, not_not] at hcon
        exact hsame hcon
      rw [if_pos hcond, h1]
      exact ⟨_, Or.inr ⟨hsame, rfl⟩, rfl, rfl, rfl, rfl⟩

/-- Witness of C5 (amended): 240x144 at stride 480 is bulk-copied, 256x224 at
stride 512 goes through the table. -/
theorem blit_frame16_path_choice_witness :
    sdl_rs90_blit_frame16 false vid_rgb565 src_ramp 240 144 480
        = .ok { vid_rgb565 with screen := some { screen_rgb565 with
            pixels := fun j =>
              if j < u32 (480 * 144) then src_ramp j else screen_rgb565.pixels j } }
    ∧ ∃ v, ((vid_rgb565.content_width = 256 ∧ vid_rgb565.content_height = 224
              ∧ vid_rgb565.content_pitch = 512 ∧ v = vid_rgb565)
            ∨ (¬ (vid_rgb565.content_width = 256 ∧ vid_rgb565.content_height = 224
                  ∧ vid_rgb565.content_pitch = 512)
              ∧ sdl_rs90_generate_scaling_table false vid_rgb565 256 224 512 = .ok v))
        ∧ v.content_width = 256 ∧ v.content_height = 224 ∧ v.content_pitch = 512
        ∧ sdl_rs90_blit_frame16 false vid_rgb565 src_ramp 256 224 512
            = sdl_rs90_blit_frame16_scale_precomputed false v src_ramp :=
  ⟨(blit_frame16_path_choice false vid_rgb565 src_ramp screen_rgb565 240 144 480
      rfl rfl rfl).1 ⟨rfl, by decide⟩,
   (blit_frame16_path_choice false vid_rgb565 src_ramp screen_rgb565 256 224 512
      rfl rfl rfl).2 (by decide)⟩

/-! ### The line-by-line path of the 32-bit blitter -/

theorem blit_frame32_line_loop (src : Nat → Nat) (s0 : SDL_Surface) (base wt stride ht : Nat)
    (hp : s0.pitch = 960) (hh : s0.h = 160) (hwt : wt ≤ 240)
    (hfit : ∀ y, y < ht → base + 960 * y + 4 * wt ≤ 153600) :
    ∃ st', forLoop ht (blit_frame32_line src wt stride 240)
        { in_ptr := 0, out_ptr := base, screen := s0 } = .ok st'
      ∧ st'.screen = { s0 with pixels := blit32_pixels src s0.pixels base wt stride ht } := by
  have key := forLoop_inv
    (fun y (s : LineSt) => s.in_ptr = 4 * stride * y ∧ s.out_ptr = base + 960 * y
      ∧ s.screen = { s0 with pixels := blit32_pixels src s0.pixels base wt stride y })
    ht (blit_frame32_line src wt stride 240)
    { in_ptr := 0, out_ptr := base, screen := s0 }
    ⟨by simp, by simp, by
      cases s0
      simp only [SDL_Surface.mk.injEq, true_and]
      funext j
      simp [blit32_pixels]⟩ ?_
  · obtain ⟨st', h1, _, _, h4⟩ := key
    exact ⟨st', h1, h4⟩
  · intro y s hy ⟨hin, hout, hscr⟩
    have hwr : s.out_ptr + wt * 4 ≤ s.screen.pitch * s.screen.h := by
      rw [hscr, hout]
      simp only [hp, hh]
      have := hfit y hy
      omega
    simp only [blit_frame32_line, SDL_Surface.write, if_pos hwr, Except.map]
    refine ⟨_, rfl, ?_, ?_, ?_⟩
    · simp only [hin]; ring
    · simp only [hout]; omega
    · simp only [hscr, hin, hout]
      congr 1
      funext j
      simp only [blit32_pixels]
      by_cases hj : base + 960 * y ≤ j ∧ j < base + 960 * y + wt * 4
      · have e1 : (j - base) / 960 = y := by omega
        have e2 : (j - base) % 960 = j - (base + 960 * y) := by omega
        rw [if_pos hj, if_pos ⟨by omega, by omega, by omega⟩, e1, e2]
      · rw [if_neg hj]
        by_cases hc : base ≤ j ∧ (j - base) / 960 < y ∧ (j - base) % 960 < 4 * wt
        · rw [if_pos hc, if_pos ⟨hc.1, by omega, hc.2.2⟩]
        · rw [if_neg hc, if_neg (by omega)]

/-- The line-by-line path of `sdl_rs90_blit_frame32` on a surface of pitch 960
whose padding leaves room for the truncated frame. -/
theorem blit_frame32_lines (vid : sdl_rs90_video_t) (src : Nat → Nat)
    (screen : SDL_Surface) (W H P : Nat) (hs : vid.screen = some screen)
    (hp : screen.pitch = 960) (hh : screen.h = 160) (hP : P < 4294967296)
    (hslow : P ≠ screen.pitch ∨ H > 160)
    (hx : vid.frame_padding_x + min W 240 ≤ 240)
    (hy : vid.frame_padding_y + min H 160 ≤ 160) :
    sdl_rs90_blit_frame32 vid src W H P
      = .ok { vid with screen := some { screen with
          pixels := blit32_pixels src screen.pixels
            (vid.frame_padding_y * 960 + 4 * vid.frame_padding_x) (min W 240) (P >>> 2)
            (min H 160) } } := by
  have hc : ¬ (P = screen.pitch
      ∧ H = (if H > SDL_RS90_HEIGHT then SDL_RS90_HEIGHT else H)) := by
    intro ⟨h1, h2⟩
    simp only [SDL_RS90_HEIGHT] at h2
    rcases hslow with h | h
    · exact h h1
    · rw [if_pos h] at h2; omega
  have hwt : (if W > SDL_RS90_WIDTH then SDL_RS90_WIDTH else W) = min W 240 := by
    simp only [SDL_RS90_WIDTH]; split <;> omega
  have hht : (if H > SDL_RS90_HEIGHT then SDL_RS90_HEIGHT else H) = min H 160 := by
    simp only [SDL_RS90_HEIGHT]; split <;> omega
  have hbase : u32 (vid.frame_padding_y * screen.pitch) = vid.frame_padding_y * 960 := by
    rw [hp]; unfold u32; omega
  have his : u32 (P >>> 2) = P >>> 2 := by
    unfold u32
    simp only [Nat.shiftRight_eq_div_pow, Nat.reducePow]
    omega
  have hos : u32 (screen.pitch >>> 2) = 240 := by rw [hp]; rfl
  obtain ⟨st', h1, h2⟩ := blit_frame32_line_loop src screen
    (vid.frame_padding_y * 960 + 4 * vid.frame_padding_x) (min W 240) (P >>> 2) (min H 160)
    hp hh (by omega) (by intro y hy'; omega)
  unfold sdl_rs90_blit_frame32
  rw [hs]
  dsimp only
  rw [if_neg hc, hwt, hht, hbase, his, hos, h1]
  simp only [Except.map, h2]

theorem set_output_padding_fits (SDL_SetVideoMode : VideoModeSetter)
    (vid : sdl_rs90_video_t) (W H : Nat) (rgb32 : Bool) :
    (sdl_rs90_set_output SDL_SetVideoMode vid W H rgb32).frame_padding_x + min W 240 ≤ 240
    ∧ (sdl_rs90_set_output SDL_SetVideoMode vid W H rgb32).frame_padding_y + min H 160
        ≤ 160 := by
  rw [(set_output_padding SDL_SetVideoMode vid W H rgb32).1,
    (set_output_padding SDL_SetVideoMode vid W H rgb32).2]
  constructor <;> split_ifs <;> omega

/-- Claim C6.  On the line-by-line path of `sdl_rs90_blit_frame32`
(`P ≠` destination pitch or `H > 160`), on the 240x160 surface of pitch 960 and
with the padding `sdl_rs90_set_output` computes for `(W, H)`, the call
completes; it sets destination pixel `(pad_y + y, pad_x + x)` (its four bytes
`b`) to source pixel `y * (P >> 2) + x` for every `y < min(H, 160)` and
`x < min(W, 240)`, and leaves every other destination byte unchanged. -/
theorem blit_frame32_line_path (SDL_SetVideoMode : VideoModeSetter)
    (vid0 vid : sdl_rs90_video_t) (src : Nat → Nat) (screen : SDL_Surface)
    (W H P : Nat) (hs : vid.screen = some screen)
    (hp : screen.pitch = 960) (hh : screen.h = 160) (hP : P < 4294967296)
    (hpx : vid.frame_padding_x
      = (sdl_rs90_set_output SDL_SetVideoMode vid0 W H true).frame_padding_x)
    (hpy : vid.frame_padding_y
      = (sdl_rs90_set_output SDL_SetVideoMode vid0 W H true).frame_padding_y)
    (hslow : P ≠ screen.pitch ∨ H > 160) :
    ∃ s', sdl_rs90_blit_frame32 vid src W H P = .ok { vid with screen := some s' }
      ∧ s'.pitch = 960 ∧ s'.h = 160 ∧ s'.w = screen.w
      ∧ (∀ y x b, y < min H 160 → x < min W 240 → b < 4 →
          s'.pixels ((vid.frame_padding_y + y) * 960 + 4 * (vid.frame_padding_x + x) + b)
            = src (4 * (y * (P >>> 2) + x) + b))
      ∧ (∀ j, (¬ ∃ y x b, y < min H 160 ∧ x < min W 240 ∧ b < 4
            ∧ j = (vid.frame_padding_y + y) * 960 + 4 * (vid.frame_padding_x + x) + b) →
          s'.pixels j = screen.pixels j) := by
  have hfits := set_output_padding_fits SDL_SetVideoMode vid0 W H true
  rw [← hpx, ← hpy] at hfits
  refine ⟨_, blit_frame32_lines vid src screen W H P hs hp hh hP hslow hfits.1 hfits.2,
    hp, hh, rfl, ?_, ?_⟩
  · intro y x b hy hx hb
    simp only [blit32_pixels]
    have e0 : (vid.frame_padding_y + y) * 960 + 4 * (vid.frame_padding_x + x) + b
        - (vid.frame_padding_y * 960 + 4 * vid.frame_padding_x) = 960 * y + (4 * x + b) := by
      rw [Nat.add_mul]; omega
    have e1 : (960 * y + (4 * x + b)) / 960 = y := by omega
    have e2 : (960 * y + (4 * x + b)) % 960 = 4 * x + b := by omega
    rw [e0, e1, e2, if_pos ⟨by rw [Nat.add_mul]; omega, hy, by omega⟩]
    congr 1
    ring
  · intro j hj
    simp only [blit32_pixels]
    rw [if_neg]
    rintro ⟨h1, h2, h3⟩
    apply hj
    refine ⟨(j - (vid.frame_padding_y * 960 + 4 * vid.frame_padding_x)) / 960,
      (j - (vid.frame_padding_y * 960 + 4 * vid.frame_padding_x)) % 960 / 4,
      (j - (vid.frame_padding_y * 960 + 4 * vid.frame_padding_x)) % 960 % 4,
      h2, by omega, by omega, ?_⟩
    rw [Nat.add_mul]
    omega

/-- Witness of C6: a 160x144 frame of stride 640 on the padded XRGB8888
surface (padding 40 and 8). -/
theorem blit_frame32_line_path_witness :
    ∃ s', sdl_rs90_blit_frame32 vid_padded32 src_ramp 160 144 640
        = .ok { vid_padded32 with screen := some s' }
      ∧ s'.pitch = 960 ∧ s'.h = 160 ∧ s'.w = 240
      ∧ (∀ y x b, y < min 144 160 → x < min 160 240 → b < 4 →
          s'.pixels ((8 + y) * 960 + 4 * (40 + x) + b)
            = src_ramp (4 * (y * (640 >>> 2) + x) + b))
      ∧ (∀ j, (¬ ∃ y x b, y < min 144 160 ∧ x < min 160 240 ∧ b < 4
            ∧ j = (8 + y) * 960 + 4 * (40 + x) + b) →
          s'.pixels j = 0) := by
  obtain ⟨s', h1, h2, h3, h4, h5, h6⟩ :=
    blit_frame32_line_path display_rs90 vid_xrgb8888 vid_padded32 src_ramp
      { screen_xrgb8888 with pixels := fun j =>
          if j < (u32 (screen_xrgb8888.pitch * screen_xrgb8888.h)) then 0
          else screen_xrgb8888.pixels j }
      160 144 640 rfl rfl rfl (by decide) rfl rfl (Or.inl (by decide))
  refine ⟨s', h1, h2, h3, h4, h5, ?_⟩
  intro j hj
  rw [h6 j hj]
  simp only [screen_xrgb8888, ite_self]

/-! ### Faults -/

/-- When the allocation is refused, `sdl_rs90_generate_scaling_table` stores
its first entry through the null pointer. -/
theorem generate_scaling_table_null (msb_first : Bool) (vid : sdl_rs90_video_t)
    (W H P : Nat) (hg : vid.heap.grants vid.heap.calloc_calls = false) :
    sdl_rs90_generate_scaling_table msb_first vid W H P = .error .null_deref := by
  unfold sdl_rs90_generate_scaling_table
  simp only [calloc]
  rw [hg]
  rfl

theorem blit_frame16_scale_precomputed_null (msb_first : Bool) (vid : sdl_rs90_video_t)
    (src : Nat → Nat) (screen : SDL_Surface) (hs : vid.screen = some screen)
    (htab : vid.scaling_table = none) :
    sdl_rs90_blit_frame16_scale_precomputed msb_first vid src = .error .null_deref := by
  unfold sdl_rs90_blit_frame16_scale_precomputed
  rw [hs, htab]

/-- Claim C7.  On the 240x160 surface (pitch 480 for the 16-bit blitter, 960
for the 32-bit one), for positive `W`, `H`, `P` and the padding
`sdl_rs90_set_output` computes for `(W, H)`: `sdl_rs90_blit_frame16` never
writes outside the `pitch * 160` bytes of the surface, whatever the state of
the table and of the allocator, and it completes when the allocation is
granted and a table kept for the same triple has its `2 * 240 * 160` bytes;
`sdl_rs90_blit_frame32` always completes.  A write outside the surface is a
`surface_out_of_bounds` fault, so completion means every write was inside. -/
theorem blit_writes_inside_surface (msb_first : Bool)
    (SDL_SetVideoMode : VideoModeSetter) (vid0 vid : sdl_rs90_video_t)
    (src : Nat → Nat) (screen : SDL_Surface) (W H P : Nat)
    (hs : vid.screen = some screen) (hh : screen.h = 160)
    (_hW : 1 ≤ W) (_hH : 1 ≤ H) (_hP : 1 ≤ P) (hP : P < 4294967296)
    (hpx : vid.frame_padding_x
      = (sdl_rs90_set_output SDL_SetVideoMode vid0 W H vid.rgb32).frame_padding_x)
    (hpy : vid.frame_padding_y
      = (sdl_rs90_set_output SDL_SetVideoMode vid0 W H vid.rgb32).frame_padding_y) :
    (screen.pitch = 480 →
      sdl_rs90_blit_frame16 msb_first vid src W H P ≠ .error .surface_out_of_bounds
      ∧ (vid.heap.grants vid.heap.calloc_calls = true →
          (vid.content_width = W ∧ vid.content_height = H ∧ vid.content_pitch = P →
            ∃ t, vid.scaling_table = some t ∧ 76800 ≤ t.size) →
          ∃ vid', sdl_rs90_blit_frame16 msb_first vid src W H P = .ok vid'))
    ∧ (screen.pitch = 960 →
      ∃ vid', sdl_rs90_blit_frame32 vid src W H P = .ok vid') := by
  constructor
  · intro hp
    by_cases hfast : P = screen.pitch ∧ H ≤ 160
    · have h := blit_frame16_fast msb_first vid src screen W H P hs hfast.1 hfast.2 (by
        have h1 : u32 (P * H) ≤ P * H := u32_le _
        have h2 : P * H ≤ P * 160 := Nat.mul_le_mul_left _ hfast.2
        rw [← hfast.1, hh]
        omega)
      rw [h]
      exact ⟨by simp, fun _ _ => ⟨_, rfl⟩⟩
    · rw [blit_frame16_table_path msb_first vid src screen W H P hs hfast]
      by_cases hcond : vid.content_width ≠ W ∨ vid.content_height ≠ H
          ∨ vid.content_pitch ≠ P
      · rw [if_pos hcond]
        cases hg : vid.heap.grants vid.heap.calloc_calls with
        | false =>
          rw [generate_scaling_table_null msb_first vid W H P hg]
          exact ⟨by simp [Except.bind], fun h => absurd h (by simp)⟩
        | true =>
          obtain ⟨t, h1, h2⟩ := generate_scaling_table_ok msb_first vid W H P hg
          rw [h1]
          have hb := blit_frame16_scale_precomputed_ok msb_first
            { vid with
              content_width := W, content_height := H, content_pitch := P,
              scaling_table := some t,
              heap := { vid.heap with calloc_calls := vid.heap.calloc_calls + 1 } }
            src screen t hs hp hh rfl (by have := h2.1; omega)
          simp only [Except.bind]
          rw [hb]
          exact ⟨by simp, fun _ _ => ⟨_, rfl⟩⟩
      · rw [if_neg hcond]
        simp only [Except.bind]
        have hsame : vid.content_width = W ∧ vid.content_height = H
            ∧ vid.content_pitch = P := by
          simp only [not_or, not_not] at hcond
          exact hcond
        cases htab : vid.scaling_table with
        | none =>
          rw [blit_frame16_scale_precomputed_null msb_first vid src screen hs htab]
          refine ⟨by simp, fun _ hc => ?_⟩
          obtain ⟨t, ht, _⟩ := hc hsame
          exact absurd ht (by simp)
        | some t =>
          rcases blit_frame16_scale_precomputed_cases msb_first vid src screen t hs hp hh
            htab with h | ⟨h, hsz⟩
          · rw [h]
            exact ⟨by simp, fun _ _ => ⟨_, rfl⟩⟩
          · rw [h]
            refine ⟨by simp, fun _ hc => ?_⟩
            obtain ⟨t', ht', hsz'⟩ := hc hsame
            cases ht'
            omega
  · intro hp
    have hfits := set_output_padding_fits SDL_SetVideoMode vid0 W H vid.rgb32
    rw [← hpx, ← hpy] at hfits
    by_cases hfast : P = screen.pitch ∧ H ≤ 160
    · refine ⟨_, blit_frame32_fast vid src screen W H P hs hfast.1 hfast.2 ?_⟩
      have h1 : u32 (vid.frame_padding_y * 960) ≤ vid.frame_padding_y * 960 := u32_le _
      have h2 : u32 (P * H) ≤ 960 * H := by
        rw [hfast.1, hp]; exact u32_le _
      have h3 := hfits.2
      rw [hp, hh]
      omega
    · refine ⟨_, blit_frame32_lines vid src screen W H P hs hp hh hP ?_ hfits.1 hfits.2⟩
      by_contra hcon
      apply hfast
      constructor
      · by_contra h; exact hcon (Or.inl h)
      · by_contra h; exact hcon (Or.inr (by omega))

/-- Witness of C7: 256x224 at stride 512 on the RGB565 surface (table path) and
160x144 at stride 640 on the padded XRGB8888 surface (line path). -/
theorem blit_writes_inside_surface_witness :
    (sdl_rs90_blit_frame16 false vid_rgb565 src_ramp 256 224 512
        ≠ .error .surface_out_of_bounds
      ∧ ∃ vid', sdl_rs90_blit_frame16 false vid_rgb565 src_ramp 256 224 512 = .ok vid')
    ∧ ∃ vid', sdl_rs90_blit_frame32 vid_padded32 src_ramp 160 144 640 = .ok vid' := by
  have h16 := (blit_writes_inside_surface false display_rs90 vid_rgb565 vid_rgb565
    src_ramp screen_rgb565 256 224 512 rfl rfl (by decide) (by decide) (by decide)
    (by decide) rfl rfl).1 rfl
  have h32 := (blit_writes_inside_surface false display_rs90 vid_xrgb8888 vid_padded32
    src_ramp
    { screen_xrgb8888 with pixels := fun j =>
        if j < (u32 (screen_xrgb8888.pitch * screen_xrgb8888.h)) then 0
        else screen_xrgb8888.pixels j }
    160 144 640 rfl rfl (by decide) (by decide) (by decide) (by decide) rfl rfl).2 rfl
  exact ⟨⟨h16.1, h16.2 rfl (fun h => absurd h.1 (by decide))⟩, h32⟩

/-! ### The single-slot table cache -/

/-- Table path with a stored triple different from `(W, H, P)`: the table is
rebuilt (one `calloc`), the triple recorded, and the frame blitted through the
new table. -/
theorem blit_frame16_rebuild (msb_first : Bool) (vid : sdl_rs90_video_t)
    (src : Nat → Nat) (screen : SDL_Surface) (W H P : Nat)
    (hs : vid.screen = some screen) (hp : screen.pitch = 480) (hh : screen.h = 160)
    (hslow : ¬ (P = screen.pitch ∧ H ≤ 160))
    (hdiff : ¬ (vid.content_width = W ∧ vid.content_height = H ∧ vid.content_pitch = P))
    (hg : vid.heap.grants vid.heap.calloc_calls = true) :
    ∃ t, table_filled msb_first (scaling_entry W H P) 38400 t
      ∧ sdl_rs90_generate_scaling_table msb_first vid W H P
          = .ok { vid with
              content_width := W, content_height := H, content_pitch := P,
              scaling_table := some t,
              heap := { vid.heap with calloc_calls := vid.heap.calloc_calls + 1 } }
      ∧ sdl_rs90_blit_frame16 msb_first vid src W H P
          = .ok { vid with
              content_width := W, content_height := H, content_pitch := P,
              scaling_table := some t,
              heap := { vid.heap with calloc_calls := vid.heap.calloc_calls + 1 },
              screen := some { screen with
                pixels := blit16_pixels msb_first t src screen.pixels 38400 } } := by
  obtain ⟨t, h1, h2⟩ := generate_scaling_table_ok msb_first vid W H P hg
  refine ⟨t, h2, h1, ?_⟩
  have hcond : vid.content_width ≠ W ∨ vid.content_height ≠ H
      ∨ vid.content_pitch ≠ P := by
    by_contra hcon
    simp only [not_or, not_not] at hcon
    exact hdiff hcon
  rw [blit_frame16_table_path msb_first vid src screen W H P hs hslow, if_pos hcond, h1]
  simp only [Except.bind]
  exact blit_frame16_scale_precomputed_ok msb_first _ src screen t hs hp hh rfl
    (by have := h2.1; omega)

/-- Table path with the stored triple equal to `(W, H, P)`: nothing is
allocated, the table and the triple stay, and the frame is blitted through the
table already held. -/
theorem blit_frame16_reuse (msb_first : Bool) (vid : sdl_rs90_video_t)
    (src : Nat → Nat) (screen : SDL_Surface) (t : Block) (W H P : Nat)
    (hs : vid.screen = some screen) (hp : screen.pitch = 480) (hh : screen.h = 160)
    (hslow : ¬ (P = screen.pitch ∧ H ≤ 160))
    (hsame : vid.content_width = W ∧ vid.content_height = H ∧ vid.content_pitch = P)
    (htab : vid.scaling_table = some t) (ht : 76800 ≤ t.size) :
    sdl_rs90_blit_frame16 msb_first vid src W H P
      = .ok { vid with screen := some { screen with
          pixels := blit16_pixels msb_first t src screen.pixels 38400 } } := by
  have hcond : ¬ (vid.content_width ≠ W ∨ vid.content_height ≠ H
      ∨ vid.content_pitch ≠ P) := by
    rw [hsame.1, hsame.2.1, hsame.2.2]; simp
  rw [blit_frame16_table_path msb_first vid src screen W H P hs hslow, if_neg hcond]
  simp only [Except.bind]
  exact blit_frame16_scale_precomputed_ok msb_first vid src screen t hs hp hh htab ht

/-- Claim C8.  On the table path of `sdl_rs90_blit_frame16` (240x160 surface of
pitch 480, allocation granted, a table kept for the same triple complete), the
table is rebuilt, that is `calloc` is called once more and the table replaced,
if and only if `(W, H, P)` differs from the stored triple; after the call the
stored triple is `(W, H, P)`.  A second call with the same `(W, H, P)` (and any
source) allocates nothing and leaves the table and the stored triple
unchanged, so that two such consecutive calls starting from a different stored
triple rebuild the table exactly once. -/
theorem blit_frame16_rebuild_iff (msb_first : Bool) (vid : sdl_rs90_video_t)
    (src src2 : Nat → Nat) (screen : SDL_Surface) (W H P : Nat)
    (hs : vid.screen = some screen) (hp : screen.pitch = 480) (hh : screen.h = 160)
    (hslow : ¬ (P = screen.pitch ∧ H ≤ 160))
    (hg : vid.heap.grants vid.heap.calloc_calls = true)
    (hcache : vid.content_width = W ∧ vid.content_height = H ∧ vid.content_pitch = P →
      ∃ t, vid.scaling_table = some t ∧ 76800 ≤ t.size) :
    ∃ vid1 vid2,
      sdl_rs90_blit_frame16 msb_first vid src W H P = .ok vid1
      ∧ sdl_rs90_blit_frame16 msb_first vid1 src2 W H P = .ok vid2
      ∧ (vid1.heap.calloc_calls = vid.heap.calloc_calls + 1
          ↔ ¬ (vid.content_width = W ∧ vid.content_height = H ∧ vid.content_pitch = P))
      ∧ (vid1.heap.calloc_calls = vid.heap.calloc_calls
            ∧ vid1.scaling_table = vid.scaling_table
          ↔ (vid.content_width = W ∧ vid.content_height = H ∧ vid.content_pitch = P))
      ∧ (¬ (vid.content_width = W ∧ vid.content_height = H ∧ vid.content_pitch = P) →
          ∃ v, sdl_rs90_generate_scaling_table msb_first vid W H P = .ok v
            ∧ vid1.scaling_table = v.scaling_table)
      ∧ (vid1.content_width = W ∧ vid1.content_height = H ∧ vid1.content_pitch = P)
      ∧ vid2.heap.calloc_calls = vid1.heap.calloc_calls
      ∧ vid2.scaling_table = vid1.scaling_table
      ∧ (vid2.content_width = W ∧ vid2.content_height = H ∧ vid2.content_pitch = P)
      ∧ (¬ (vid.content_width = W ∧ vid.content_height = H ∧ vid.content_pitch = P) →
          vid2.heap.calloc_calls = vid.heap.calloc_calls + 1) := by
  by_cases hsame : vid.content_width = W ∧ vid.content_height = H ∧ vid.content_pitch = P
  · obtain ⟨t, htab, ht⟩ := hcache hsame
    have h1 := blit_frame16_reuse msb_first vid src screen t W H P hs hp hh hslow hsame
      htab ht
    have h2 := blit_frame16_reuse msb_first
      { vid with screen := some { screen with
          pixels := blit16_pixels msb_first t src screen.pixels 38400 } }
      src2 { screen with pixels := blit16_pixels msb_first t src screen.pixels 38400 }
      t W H P rfl hp hh hslow hsame htab ht
    refine ⟨_, _, h1, h2, ?_, ?_, ?_, hsame, rfl, rfl, hsame, ?_⟩
    · simp only [hsame, and_self, not_true_eq_false, iff_false]
      omega
    · simp only [hsame, and_self]
    · intro hn; exact absurd hsame hn
    · intro hn; exact absurd hsame hn
  · obtain ⟨t, hfill, hgen, h1⟩ := blit_frame16_rebuild msb_first vid src screen W H P hs
      hp hh hslow hsame hg
    have h2 := blit_frame16_reuse msb_first
      { vid with
        content_width := W, content_height := H, content_pitch := P,
        scaling_table := some t,
        heap := { vid.heap with calloc_calls := vid.heap.calloc_calls + 1 },
        screen := some { screen with
          pixels := blit16_pixels msb_first t src screen.pixels 38400 } }
      src2 { screen with pixels := blit16_pixels msb_first t src screen.pixels 38400 }
      t W H P rfl hp hh hslow ⟨rfl, rfl, rfl⟩ rfl (by have := hfill.1; omega)
    refine ⟨_, _, h1, h2, ?_, ?_, ?_, ⟨rfl, rfl, rfl⟩, rfl, rfl, ⟨rfl, rfl, rfl⟩, ?_⟩
    · simp only [hsame, not_false_eq_true]
    · simp only [hsame, iff_false, not_and]
      intro h
      omega
    · intro _; exact ⟨_, hgen, rfl⟩
    · intro _; rfl

/-- Witness of C8: two consecutive 256x224, stride 512 frames after
initialisation rebuild the table exactly once. -/
theorem blit_frame16_rebuild_iff_witness :
    ∃ vid1 vid2,
      sdl_rs90_blit_frame16 false vid_rgb565 src_ramp 256 224 512 = .ok vid1
      ∧ sdl_rs90_blit_frame16 false vid1 src_ramp 256 224 512 = .ok vid2
      ∧ vid1.heap.calloc_calls = vid_rgb565.heap.calloc_calls + 1
      ∧ (vid1.content_width = 256 ∧ vid1.content_height = 224 ∧ vid1.content_pitch = 512)
      ∧ vid2.heap.calloc_calls = vid_rgb565.heap.calloc_calls + 1
      ∧ vid2.scaling_table = vid1.scaling_table
      ∧ (vid2.content_width = 256 ∧ vid2.content_height = 224
          ∧ vid2.content_pitch = 512) := by
  obtain ⟨vid1, vid2, h1, h2, h3, _, _, h5, _, h7, h8, h9⟩ :=
    blit_frame16_rebuild_iff false vid_rgb565 src_ramp src_ramp screen_rgb565 256 224 512
      rfl rfl rfl (by decide) rfl (fun h => absurd h.1 (by decide))
  exact ⟨vid1, vid2, h1, h2, h3.2 (by decide), h5, h9 (by decide), h7, h8⟩

theorem table_filled_unique (msb_first : Bool) (E : Nat → Nat) (t1 t2 : Block)
    (h1 : table_filled msb_first E 38400 t1) (h2 : table_filled msb_first E 38400 t2) :
    t1 = t2 := by
  cases t1 with
  | mk s1 b1 =>
    cases t2 with
    | mk s2 b2 =>
      obtain ⟨hs1, hf1, hz1⟩ := h1
      obtain ⟨hs2, hf2, hz2⟩ := h2
      simp only at hs1 hf1 hz1 hs2 hf2 hz2
      subst hs1 hs2
      congr 1
      funext j
      by_cases hj : j < 4 * 38400
      · rw [hf1 j hj, hf2 j hj]
      · rw [hz1 j (by omega), hz2 j (by omega)]

/-- Whatever the state it starts from, a completed
`sdl_rs90_generate_scaling_table` leaves the complete table of `(W, H, P)`. -/
theorem generate_scaling_table_result (msb_first : Bool) (u u' : sdl_rs90_video_t)
    (W H P : Nat) (h : sdl_rs90_generate_scaling_table msb_first u W H P = .ok u') :
    ∃ t, u'.scaling_table = some t
      ∧ table_filled msb_first (scaling_entry W H P) 38400 t := by
  cases hg : u.heap.grants u.heap.calloc_calls with
  | false =>
    rw [generate_scaling_table_null msb_first u W H P hg] at h
    cases h
  | true =>
    obtain ⟨t, h1, h2⟩ := generate_scaling_table_ok msb_first u W H P hg
    rw [h1] at h
    cases h
    exact ⟨t, rfl, h2⟩

theorem blit_frame16_keeps_cache (msb_first : Bool) (vid : sdl_rs90_video_t)
    (src : Nat → Nat) (W H P : Nat) (hW : 1 ≤ W)
    (hinv : CacheValid msb_first vid) :
    ∃ vid', sdl_rs90_blit_frame16 msb_first vid src W H P = .ok vid'
      ∧ CacheValid msb_first vid' := by
  obtain ⟨⟨screen, hs, hp, hh⟩, hgr, hc⟩ := hinv
  by_cases hfast : P = screen.pitch ∧ H ≤ 160
  · refine ⟨_, blit_frame16_fast msb_first vid src screen W H P hs hfast.1 hfast.2 ?_,
      ⟨_, rfl, hp, hh⟩, hgr, hc⟩
    have h1 : u32 (P * H) ≤ P * H := u32_le _
    have h2 : P * H ≤ P * 160 := Nat.mul_le_mul_left _ hfast.2
    rw [← hfast.1, hh]
    omega
  · by_cases hsame : vid.content_width = W ∧ vid.content_height = H
        ∧ vid.content_pitch = P
    · rcases hc with hz | ⟨t, htab, hfill⟩
      · omega
      · exact ⟨_, blit_frame16_reuse msb_first vid src screen t W H P hs hp hh hfast hsame
          htab (by have := hfill.1; omega), ⟨_, rfl, hp, hh⟩, hgr, Or.inr ⟨t, htab, hfill⟩⟩
    · obtain ⟨t, hfill, _, h1⟩ := blit_frame16_rebuild msb_first vid src screen W H P hs
        hp hh hfast hsame (hgr _)
      exact ⟨_, h1, ⟨_, rfl, hp, hh⟩, hgr, Or.inr ⟨t, rfl, hfill⟩⟩

theorem blit_frame16_seq_keeps_cache (msb_first : Bool) (calls : List FrameCall)
    (vid : sdl_rs90_video_t) (hinv : CacheValid msb_first vid)
    (hcalls : ∀ c ∈ calls, 1 ≤ c.width ∧ 1 ≤ c.height ∧ 1 ≤ c.pitch) :
    ∃ vid', blit_frame16_seq msb_first vid calls = .ok vid'
      ∧ CacheValid msb_first vid' := by
  induction calls generalizing vid with
  | nil => exact ⟨vid, rfl, hinv⟩
  | cons c cs ih =>
    obtain ⟨v1, h1, hi1⟩ := blit_frame16_keeps_cache msb_first vid c.src c.width c.height
      c.pitch (hcalls c (List.mem_cons_self _ _)).1 hinv
    obtain ⟨v2, h2, hi2⟩ := ih v1 hi1 (fun d hd => hcalls d (List.mem_cons_of_mem _ hd))
    refine ⟨v2, ?_, hi2⟩
    rw [blit_frame16_seq, h1]
    exact h2

theorem gfx_init_cache_valid (msb_first : Bool) (SDL_SetVideoMode : VideoModeSetter)
    (hp : Heap) (sdl_ok : Bool) (bitmapfont_get_lut : Option bitmapfont_lut_t)
    (video_vsync keep_aspect scale_integer : Bool)
    (red green blue : Nat) (vid0 : sdl_rs90_video_t)
    (hinit : sdl_rs90_gfx_init SDL_SetVideoMode hp sdl_ok bitmapfont_get_lut false video_vsync
      keep_aspect scale_integer red green blue = some vid0)
    (hscreen : ∀ s, SDL_SetVideoMode 240 160 16 video_vsync = some s →
      s.pitch = 480 ∧ s.h = 160)
    (hgr : ∀ n, hp.grants n = true) :
    CacheValid msb_first vid0
      ∧ vid0.content_width = 0 ∧ vid0.content_height = 0 ∧ vid0.content_pitch = 0
      ∧ ∃ t, vid0.scaling_table = some t ∧ t.size = 0 := by
  unfold sdl_rs90_gfx_init at hinit
  cases hsdl : sdl_ok with
  | false => rw [hsdl] at hinit; simp at hinit
  | true =>
    rw [hsdl] at hinit
    simp only [Bool.not_true, Bool.false_eq_true, if_false, calloc, hgr, if_true,
      SDL_RS90_WIDTH, SDL_RS90_HEIGHT] at hinit
    cases hmode : SDL_SetVideoMode 240 160 16 video_vsync with
    | none => rw [hmode] at hinit; simp at hinit
    | some screen =>
      rw [hmode] at hinit
      cases hfont : bitmapfont_get_lut with
      | none => rw [hfont] at hinit; simp at hinit
      | some font =>
        rw [hfont] at hinit
        simp only [sdl_rs90_init_font_color] at hinit
        split at hinit
        · cases hinit
        · simp only [Option.some.injEq] at hinit
          subst hinit
          obtain ⟨h480, h160⟩ := hscreen screen hmode
          refine ⟨⟨⟨screen, rfl, h480, h160⟩, fun n => hgr n, Or.inl ⟨rfl, rfl, rfl⟩⟩,
            rfl, rfl, rfl, _, rfl, ?_⟩
          simp

/-- Claim C9.  Start from the state set up by `sdl_rs90_gfx_init` (16-bit mode,
240x160 surface of pitch 480, granting allocator; stored triple `(0,0,0)` and
an empty table) and run any sequence of `sdl_rs90_blit_frame16` calls with
positive `W`, `H`, `P`, fast-path and table-path calls interleaved at will:
the sequence completes, and whenever a further call with positive `(W, H, P)`
takes the table path, it completes and the table read by
`sdl_rs90_blit_frame16_scale_precomputed` is the table
`sdl_rs90_generate_scaling_table` builds for that very `(W, H, P)`. -/
theorem scaling_table_cache_valid (msb_first : Bool) (SDL_SetVideoMode : VideoModeSetter)
    (hp : Heap) (sdl_ok : Bool) (bitmapfont_get_lut : Option bitmapfont_lut_t)
    (video_vsync keep_aspect scale_integer : Bool)
    (red green blue : Nat) (vid0 : sdl_rs90_video_t) (calls : List FrameCall)
    (src : Nat → Nat) (W H P : Nat)
    (hinit : sdl_rs90_gfx_init SDL_SetVideoMode hp sdl_ok bitmapfont_get_lut false
      video_vsync keep_aspect scale_integer red green blue = some vid0)
    (hscreen : ∀ s, SDL_SetVideoMode 240 160 16 video_vsync = some s →
      s.pitch = 480 ∧ s.h = 160)
    (hgr : ∀ n, hp.grants n = true)
    (hcalls : ∀ c ∈ calls, 1 ≤ c.width ∧ 1 ≤ c.height ∧ 1 ≤ c.pitch)
    (hW : 1 ≤ W) (_hH : 1 ≤ H) (_hP : 1 ≤ P) :
    (vid0.content_width = 0 ∧ vid0.content_height = 0 ∧ vid0.content_pitch = 0
      ∧ ∃ t, vid0.scaling_table = some t ∧ t.size = 0)
    ∧ ∃ vid screen, blit_frame16_seq msb_first vid0 calls = .ok vid
      ∧ vid.screen = some screen ∧ screen.pitch = 480 ∧ screen.h = 160
      ∧ (¬ (P = screen.pitch ∧ H ≤ 160) →
        ∃ v vid', sdl_rs90_blit_frame16 msb_first vid src W H P
            = sdl_rs90_blit_frame16_scale_precomputed msb_first v src
          ∧ sdl_rs90_blit_frame16_scale_precomputed msb_first v src = .ok vid'
          ∧ (∃ u u', sdl_rs90_generate_scaling_table msb_first u W H P = .ok u'
              ∧ v.scaling_table = u'.scaling_table)
          ∧ ∀ u u', sdl_rs90_generate_scaling_table msb_first u W H P = .ok u' →
              v.scaling_table = u'.scaling_table) := by
  obtain ⟨hinv0, hz⟩ := gfx_init_cache_valid msb_first SDL_SetVideoMode hp sdl_ok
    bitmapfont_get_lut video_vsync keep_aspect scale_integer red green blue vid0 hinit hscreen hgr
  refine ⟨hz, ?_⟩
  obtain ⟨vid, hrun, ⟨screen, hs, hp', hh⟩, hgr', hc⟩ :=
    blit_frame16_seq_keeps_cache msb_first calls vid0 hinv0 hcalls
  refine ⟨vid, screen, hrun, hs, hp', hh, ?_⟩
  intro hslow
  have huniq : ∀ t, table_filled msb_first (scaling_entry W H P) 38400 t →
      ∀ u u', sdl_rs90_generate_scaling_table msb_first u W H P = .ok u' →
        some t = u'.scaling_table := by
    intro t ht u u' hu
    obtain ⟨t', ht', hf'⟩ := generate_scaling_table_result msb_first u u' W H P hu
    rw [ht', table_filled_unique msb_first _ t t' ht hf']
  by_cases hsame : vid.content_width = W ∧ vid.content_height = H ∧ vid.content_pitch = P
  · rcases hc with hzero | ⟨t, htab, hfill⟩
    · omega
    · rw [hsame.1, hsame.2.1, hsame.2.2] at hfill
      have hcond : ¬ (vid.content_width ≠ W ∨ vid.content_height ≠ H
          ∨ vid.content_pitch ≠ P) := by
        rw [hsame.1, hsame.2.1, hsame.2.2]; simp
      obtain ⟨tg, hg1, hg2⟩ := generate_scaling_table_ok msb_first vid W H P (hgr' _)
      refine ⟨vid, _, ?_,
        blit_frame16_scale_precomputed_ok msb_first vid src screen t hs hp' hh htab
          (by have := hfill.1; omega), ⟨vid, _, hg1, ?_⟩, ?_⟩
      · rw [blit_frame16_table_path msb_first vid src screen W H P hs hslow, if_neg hcond]
        rfl
      · rw [htab]; exact huniq t hfill vid _ hg1
      · intro u u' hu
        rw [htab]
        exact huniq t hfill u u' hu
  · obtain ⟨t, hfill, hgen, _⟩ := blit_frame16_rebuild msb_first vid src screen W H P hs
      hp' hh hslow hsame (hgr' _)
    have hcond : vid.content_width ≠ W ∨ vid.content_height ≠ H
        ∨ vid.content_pitch ≠ P := by
      by_contra hcon
      simp only [not_or, not_not] at hcon
      exact hsame hcon
    refine ⟨_, _, ?_,
      blit_frame16_scale_precomputed_ok msb_first
        { vid with
          content_width := W, content_height := H, content_pitch := P,
          scaling_table := some t,
          heap := { vid.heap with calloc_calls := vid.heap.calloc_calls + 1 } }
        src screen t hs hp' hh rfl (by have := hfill.1; omega),
      ⟨vid, _, hgen, rfl⟩, ?_⟩
    · rw [blit_frame16_table_path msb_first vid src screen W H P hs hslow, if_pos hcond,
        hgen]
      rfl
    · intro u u' hu
      exact huniq t hfill u u' hu

/-- Witness of C9: after the three calls of `calls_mixed`, a 256x224 frame of
stride 512 is blitted through the table built for `(256, 224, 512)`. -/
theorem scaling_table_cache_valid_witness :
    ∃ vid0 vid screen,
      sdl_rs90_gfx_init display_rs90 heap_granting true (some font_dots) false true false
          false 255 255 255 = some vid0
      ∧ blit_frame16_seq false vid0 calls_mixed = .ok vid
      ∧ vid.screen = some screen
      ∧ ∃ v vid', sdl_rs90_blit_frame16 false vid src_ramp 256 224 512
            = sdl_rs90_blit_frame16_scale_precomputed false v src_ramp
          ∧ sdl_rs90_blit_frame16_scale_precomputed false v src_ramp = .ok vid'
          ∧ ∀ u u', sdl_rs90_generate_scaling_table false u 256 224 512 = .ok u' →
              v.scaling_table = u'.scaling_table := by
  have hinit : ∃ vid0, sdl_rs90_gfx_init display_rs90 heap_granting true (some font_dots)
      false true false false 255 255 255 = some vid0 := ⟨_, rfl⟩
  obtain ⟨vid0, hinit⟩ := hinit
  obtain ⟨_, vid, screen, hrun, hs, hpitch, _, hrest⟩ :=
    scaling_table_cache_valid false display_rs90 heap_granting true (some font_dots) true
      false false 255 255 255 vid0 calls_mixed src_ramp 256 224 512 hinit
      (by
        intro s hs
        simp only [display_rs90, Option.some.injEq] at hs
        subst hs
        exact ⟨rfl, rfl⟩)
      (fun _ => rfl)
      (by
        intro c hc
        simp only [calls_mixed, List.mem_cons, List.mem_singleton, List.not_mem_nil,
          or_false] at hc
        rcases hc with rfl | rfl | rfl <;> exact ⟨by decide, by decide, by decide⟩)
      (by decide) (by decide) (by decide)
  obtain ⟨v, vid', h1, h2, _, h4⟩ := hrest (by rw [hpitch]; decide)
  exact ⟨vid0, vid, screen, hinit, hrun, hs, v, vid', h1, h2, h4⟩

/-- Claim C10, evaluated on the code.  When `calloc` refuses the table,
`sdl_rs90_generate_scaling_table` does not skip anything: it stores entry 0
through the null pointer, and so does `sdl_rs90_blit_frame16` on its table
path (here a 256x224 frame of stride 512 right after initialisation); the
call faults instead of completing with the destination unchanged. -/
theorem blit_frame16_alloc_failure_faults :
    vid_rgb565_no_memory.heap.grants vid_rgb565_no_memory.heap.calloc_calls = false
    ∧ sdl_rs90_generate_scaling_table false vid_rgb565_no_memory 256 224 512
        = .error .null_deref
    ∧ sdl_rs90_blit_frame16 false vid_rgb565_no_memory src_ramp 256 224 512
        = .error .null_deref := by
  have hg : vid_rgb565_no_memory.heap.grants vid_rgb565_no_memory.heap.calloc_calls
      = false := by decide
  have hgen := generate_scaling_table_null false vid_rgb565_no_memory 256 224 512 hg
  refine ⟨hg, hgen, ?_⟩
  rw [blit_frame16_table_path false vid_rgb565_no_memory src_ramp screen_rgb565 256 224 512
    rfl (by decide),
    if_pos (by decide), hgen]
  rfl

/-! ### The output-mode manager -/

theorem set_output_fields (SDL_SetVideoMode : VideoModeSetter) (vid : sdl_rs90_video_t)
    (W H : Nat) (rgb32 : Bool) :
    (sdl_rs90_set_output SDL_SetVideoMode vid W H rgb32).mode_valid
        = (SDL_SetVideoMode 240 160 (if rgb32 then 32 else 16) vid.vsync).isSome
    ∧ (sdl_rs90_set_output SDL_SetVideoMode vid W H rgb32).frame_width = W
    ∧ (sdl_rs90_set_output SDL_SetVideoMode vid W H rgb32).frame_height = H
    ∧ (SDL_SetVideoMode 240 160 (if rgb32 then 32 else 16) vid.vsync = none →
        (sdl_rs90_set_output SDL_SetVideoMode vid W H rgb32).screen = none) := by
  unfold sdl_rs90_set_output
  simp only [SDL_RS90_WIDTH, SDL_RS90_HEIGHT]
  cases SDL_SetVideoMode 240 160 (if rgb32 then 32 else 16) vid.vsync with
  | none => simp
  | some screen =>
    by_cases h : 240 ≠ W ∨ 160 ≠ H
    · simp only [if_pos h]
      simp
    · simp only [if_neg h]
      simp

/-- Claim C11.  When `SDL_SetVideoMode` returns a surface,
`sdl_rs90_set_output(W, H, rgb32)` leaves `frame_padding_x = (240 - W) / 2` if
`W < 240` and `0` otherwise, `frame_padding_y = (160 - H) / 2` if `H < 160` and
`0` otherwise; the subtraction is only made under its guard, the paddings are
at most 120 and 80, and the content rectangle fits the surface:
`frame_padding_x + min(W, 240) ≤ 240`, `frame_padding_y + min(H, 160) ≤ 160`. -/
theorem set_output_padding_formula (SDL_SetVideoMode : VideoModeSetter)
    (vid : sdl_rs90_video_t) (W H : Nat) (rgb32 : Bool) (screen : SDL_Surface)
    (hacc : SDL_SetVideoMode 240 160 (if rgb32 then 32 else 16) vid.vsync = some screen) :
    (sdl_rs90_set_output SDL_SetVideoMode vid W H rgb32).frame_padding_x
        = (if W < 240 then (240 - W) / 2 else 0)
    ∧ (sdl_rs90_set_output SDL_SetVideoMode vid W H rgb32).frame_padding_y
        = (if H < 160 then (160 - H) / 2 else 0)
    ∧ (sdl_rs90_set_output SDL_SetVideoMode vid W H rgb32).frame_padding_x ≤ 120
    ∧ (sdl_rs90_set_output SDL_SetVideoMode vid W H rgb32).frame_padding_y ≤ 80
    ∧ (sdl_rs90_set_output SDL_SetVideoMode vid W H rgb32).frame_padding_x + min W 240 ≤ 240
    ∧ (sdl_rs90_set_output SDL_SetVideoMode vid W H rgb32).frame_padding_y + min H 160
        ≤ 160 := by
  have hp := set_output_padding SDL_SetVideoMode vid W H rgb32
  have hf := set_output_padding_fits SDL_SetVideoMode vid W H rgb32
  rw [hacc] at hp
  simp only [Option.isSome_some, if_true] at hp
  refine ⟨hp.1, hp.2, ?_, ?_, hf.1, hf.2⟩
  · rw [hp.1]; split <;> omega
  · rw [hp.2]; split <;> omega

/-- Witness of C11: a 160x144 frame on the RS-90 display gets padding 40 and 8. -/
theorem set_output_padding_formula_witness :
    (sdl_rs90_set_output display_rs90 vid_rgb565 160 144 false).frame_padding_x = 40
    ∧ (sdl_rs90_set_output display_rs90 vid_rgb565 160 144 false).frame_padding_y = 8
    ∧ (sdl_rs90_set_output display_rs90 vid_rgb565 160 144 false).frame_padding_x
        + min 160 240 ≤ 240
    ∧ (sdl_rs90_set_output display_rs90 vid_rgb565 160 144 false).frame_padding_y
        + min 144 160 ≤ 160 := by
  obtain ⟨h1, h2, _, _, h5, h6⟩ :=
    set_output_padding_formula display_rs90 vid_rgb565 160 144 false screen_rgb565 rfl
  exact ⟨h1, h2, h5, h6⟩

/-- Claim C12.  Whatever the previous state (in particular the previous
`mode_valid`), `sdl_rs90_set_output(W, H, rgb32)` leaves `mode_valid` true if
and only if `SDL_SetVideoMode` returns a surface; in both cases it records
`frame_width = W` and `frame_height = H`, and when the mode is rejected both
paddings are 0 (and the surface pointer is null). -/
theorem set_output_mode_valid (SDL_SetVideoMode : VideoModeSetter)
    (vid : sdl_rs90_video_t) (W H : Nat) (rgb32 : Bool) :
    ((sdl_rs90_set_output SDL_SetVideoMode vid W H rgb32).mode_valid = true
        ↔ ∃ screen,
          SDL_SetVideoMode 240 160 (if rgb32 then 32 else 16) vid.vsync = some screen)
    ∧ (sdl_rs90_set_output SDL_SetVideoMode vid W H rgb32).frame_width = W
    ∧ (sdl_rs90_set_output SDL_SetVideoMode vid W H rgb32).frame_height = H
    ∧ (SDL_SetVideoMode 240 160 (if rgb32 then 32 else 16) vid.vsync = none →
        (sdl_rs90_set_output SDL_SetVideoMode vid W H rgb32).mode_valid = false
        ∧ (sdl_rs90_set_output SDL_SetVideoMode vid W H rgb32).frame_padding_x = 0
        ∧ (sdl_rs90_set_output SDL_SetVideoMode vid W H rgb32).frame_padding_y = 0
        ∧ (sdl_rs90_set_output SDL_SetVideoMode vid W H rgb32).screen = none) := by
  have hf := set_output_fields SDL_SetVideoMode vid W H rgb32
  have hp := set_output_padding SDL_SetVideoMode vid W H rgb32
  refine ⟨?_, hf.2.1, hf.2.2.1, ?_⟩
  · rw [hf.1, Option.isSome_iff_exists]
  · intro hrej
    rw [hrej] at hp
    refine ⟨?_, by simpa using hp.1, by simpa using hp.2, hf.2.2.2 hrej⟩
    rw [hf.1, hrej]
    rfl

/-- Witness of C12: from the same state, a rejected request leaves
`mode_valid` false with paddings 0, an accepted one leaves it true. -/
theorem set_output_mode_valid_witness :
    ((sdl_rs90_set_output display_rejecting vid_rgb565 256 224 false).mode_valid = false
      ∧ (sdl_rs90_set_output display_rejecting vid_rgb565 256 224 false).frame_padding_x = 0
      ∧ (sdl_rs90_set_output display_rejecting vid_rgb565 256 224 false).frame_padding_y = 0
      ∧ (sdl_rs90_set_output display_rejecting vid_rgb565 256 224 false).screen = none)
    ∧ (sdl_rs90_set_output display_rs90
        (sdl_rs90_set_output display_rejecting vid_rgb565 256 224 false) 256 224
          false).mode_valid = true :=
  ⟨(set_output_mode_valid display_rejecting vid_rgb565 256 224 false).2.2.2 rfl,
   (set_output_mode_valid display_rs90
      (sdl_rs90_set_output display_rejecting vid_rgb565 256 224 false) 256 224 false).1.mpr
      ⟨_, rfl⟩⟩

/-! ### Drawing one glyph -/

theorem px_index_iff (sz k0 j : Nat) (hsz : 0 < sz) :
    (sz * k0 ≤ j ∧ j < sz * k0 + sz) ↔ j / sz = k0 := by
  constructor
  · rintro ⟨h1, h2⟩
    apply Nat.le_antisymm
    · have : j / sz < k0 + 1 := (Nat.div_lt_iff_lt_mul hsz).2 (by
        rw [Nat.add_mul, Nat.one_mul, Nat.mul_comm]; exact h2)
      omega
    · exact (Nat.le_div_iff_mul_le hsz).2 (by rw [Nat.mul_comm]; exact h1)
  · intro h
    subst h
    have h1 := Nat.mul_div_le j sz
    have h2 := Nat.lt_mul_div_succ j hsz
    rw [Nat.mul_add, Nat.mul_one] at h2
    exact ⟨h1, h2⟩

/-- Writing the `sz` bytes of one pixel: pixel `k0` is replaced, byte by byte. -/
theorem surface_write_px (s : SDL_Surface) (sz k0 : Nat) (data : Nat → Nat) (hsz : 0 < sz)
    (h : k0 < 38400) (hsize : s.pitch * s.h = sz * 38400) :
    s.write (sz * k0) sz data
      = .ok { s with pixels := fun j => if j / sz = k0 then data (j % sz) else s.pixels j } := by
  have hb : sz * k0 + sz ≤ s.pitch * s.h := by
    rw [hsize]
    have : sz * (k0 + 1) ≤ sz * 38400 := Nat.mul_le_mul_left _ (by omega)
    rw [Nat.mul_add, Nat.mul_one] at this
    exact this
  rw [surface_write_ok s (sz * k0) sz data hb]
  congr 2
  funext j
  by_cases hj : j / sz = k0
  · have h1 := (px_index_iff sz k0 j hsz).2 hj
    rw [if_pos h1, if_pos hj]
    congr 1
    have := Nat.div_add_mod j sz
    rw [hj] at this
    omega
  · have h1 : ¬ (sz * k0 ≤ j ∧ j < sz * k0 + sz) := fun h => hj ((px_index_iff sz k0 j hsz).1 h)
    rw [if_neg h1, if_neg hj]

theorem glyph_mark_zero (fm : FontMetrics) (g : Nat → Bool) (i j : Nat) :
    glyph_mark fm g 0 0 i j = none := by
  unfold glyph_mark
  rw [if_neg (by simp), if_neg (by simp; omega)]

theorem glyph_mark_next_row (fm : FontMetrics) (g : Nat → Bool) (rows i j : Nat)
    (hi : i < fm.FONT_WIDTH) :
    glyph_mark fm g rows fm.FONT_WIDTH i j = glyph_mark fm g (rows + 1) 0 i j := by
  unfold glyph_mark
  simp only [if_pos hi, Nat.not_lt_zero, if_false]

theorem glyph_mark_clear (fm : FontMetrics) (g : Nat → Bool) (rows cols i j : Nat)
    (hg : g (cols + rows * fm.FONT_WIDTH) = false) :
    glyph_mark fm g rows (cols + 1) i j = glyph_mark fm g rows cols i j := by
  unfold glyph_mark
  by_cases hc : i = cols
  · subst hc
    have h1 : i < i + 1 := by omega
    have h2 : ¬ i < i := by omega
    simp only [if_pos h1, if_neg h2]
    by_cases hj : j = rows
    · subst hj
      simp [hg]
    · by_cases hj2 : j = rows + 1
      · subst hj2
        simp [hg]
      · have e1 : (j < rows + 1) ↔ (j < rows) := by omega
        have e2 : (j ≤ rows + 1) ↔ (j ≤ rows) := by omega
        simp only [e1, e2]
  · have e : (i < cols + 1) ↔ (i < cols) := by omega
    simp only [e]

theorem glyph_mark_set (fm : FontMetrics) (g : Nat → Bool) (rows cols : Nat)
    (hg : g (cols + rows * fm.FONT_WIDTH) = true) :
    glyph_mark fm g rows (cols + 1) cols rows = some true
    ∧ glyph_mark fm g rows (cols + 1) cols (rows + 1) = some false
    ∧ ∀ i j, ¬ (i = cols ∧ (j = rows ∨ j = rows + 1)) →
        glyph_mark fm g rows (cols + 1) i j = glyph_mark fm g rows cols i j := by
  refine ⟨?_, ?_, ?_⟩
  · unfold glyph_mark
    simp [hg]
  · unfold glyph_mark
    simp [hg]
  · intro i j hij
    unfold glyph_mark
    by_cases hc : i = cols
    · subst hc
      have hj1 : j ≠ rows := fun h => hij ⟨rfl, Or.inl h⟩
      have hj2 : j ≠ rows + 1 := fun h => hij ⟨rfl, Or.inr h⟩
      have h1 : i < i + 1 := by omega
      have h2 : ¬ i < i := by omega
      have e1 : (j < rows + 1) ↔ (j < rows) := by omega
      have e2 : (j ≤ rows + 1) ↔ (j ≤ rows) := by omega
      simp only [if_pos h1, if_neg h2, e1, e2]
    · have e : (i < cols + 1) ↔ (i < cols) := by omega
      simp only [e]

theorem blit_text_pixel_step (fm : FontMetrics) (sz : Nat) (colour : Nat → Nat)
    (g : Nat → Bool) (x y : Nat) (s0 : SDL_Surface) (hsz : 0 < sz)
    (hsize : s0.pitch * s0.h = sz * 38400) (hx : x + fm.FONT_WIDTH ≤ 240)
    (hy : y + fm.FONT_HEIGHT < 160) (rows cols : Nat) (hr : rows < fm.FONT_HEIGHT)
    (hc : cols < fm.FONT_WIDTH) :
    blit_text_pixel fm sz colour g 240 ((y + rows) * 240 + x) rows cols
        { s0 with pixels := glyph_pixels fm sz colour g x y s0.pixels rows cols }
      = .ok { s0 with pixels := glyph_pixels fm sz colour g x y s0.pixels rows (cols + 1) } := by
  unfold blit_text_pixel
  by_cases hg : g (cols + rows * fm.FONT_WIDTH) = true
  · rw [if_pos hg]
    have w1 := surface_write_px
      { s0 with pixels := glyph_pixels fm sz colour g x y s0.pixels rows cols }
      sz ((y + rows) * 240 + x + cols) colour hsz (by omega) hsize
    have w2 := surface_write_px
      { s0 with pixels := fun j =>
          if j / sz = (y + rows) * 240 + x + cols then colour (j % sz)
          else glyph_pixels fm sz colour g x y s0.pixels rows cols j }
      sz ((y + rows) * 240 + x + cols + 240) (fun _ => 0) hsz (by omega) hsize
    dsimp only at w1 w2
    rw [w1]
    simp only [Except.bind]
    rw [w2]
    congr 2
    funext b
    obtain ⟨m1, m2, m3⟩ := glyph_mark_set fm g rows cols hg
    simp only [glyph_pixels]
    generalize b / sz = k
    by_cases hk2 : k = (y + rows) * 240 + x + cols + 240
    · rw [if_pos hk2]
      have e1 : k % 240 = x + cols := by omega
      have e2 : k / 240 = y + (rows + 1) := by omega
      rw [e1, e2, if_pos ⟨by omega, by omega, by omega⟩, Nat.add_sub_cancel_left,
        Nat.add_sub_cancel_left, m2]
    · rw [if_neg hk2]
      by_cases hk1 : k = (y + rows) * 240 + x + cols
      · rw [if_pos hk1]
        have e1 : k % 240 = x + cols := by omega
        have e2 : k / 240 = y + rows := by omega
        rw [e1, e2, if_pos ⟨by omega, by omega, by omega⟩, Nat.add_sub_cancel_left,
          Nat.add_sub_cancel_left, m1]
      · rw [if_neg hk1]
        by_cases hout : x ≤ k % 240 ∧ k % 240 < x + fm.FONT_WIDTH ∧ y ≤ k / 240
        · rw [if_pos hout, if_pos hout, m3]
          rintro ⟨h1, h2⟩
          rcases h2 with h2 | h2
          · apply hk1; omega
          · apply hk2; omega
        · rw [if_neg hout, if_neg hout]
  · have hg' : g (cols + rows * fm.FONT_WIDTH) = false := by
      cases h : g (cols + rows * fm.FONT_WIDTH) with
      | false => rfl
      | true => exact absurd h hg
    rw [if_neg hg]
    congr 2
    funext b
    simp only [glyph_pixels, glyph_mark_clear fm g rows cols _ _ hg']

theorem blit_text_row_step (fm : FontMetrics) (sz : Nat) (colour : Nat → Nat)
    (g : Nat → Bool) (x y : Nat) (s0 : SDL_Surface) (hsz : 0 < sz)
    (hsize : s0.pitch * s0.h = sz * 38400) (hx : x + fm.FONT_WIDTH ≤ 240)
    (hy : y + fm.FONT_HEIGHT < 160) (rows : Nat) (hr : rows < fm.FONT_HEIGHT) :
    blit_text_row fm sz colour g 240 x y rows
        { s0 with pixels := glyph_pixels fm sz colour g x y s0.pixels rows 0 }
      = .ok { s0 with pixels := glyph_pixels fm sz colour g x y s0.pixels (rows + 1) 0 } := by
  unfold blit_text_row
  have hoff : u32 (u32 ((y + rows) * 240) + x) = (y + rows) * 240 + x := by
    unfold u32; omega
  rw [hoff]
  obtain ⟨s', h1, h2⟩ := forLoop_inv
    (fun c (s : SDL_Surface) =>
      s = { s0 with pixels := glyph_pixels fm sz colour g x y s0.pixels rows c })
    fm.FONT_WIDTH
    (blit_text_pixel fm sz colour g 240 ((y + rows) * 240 + x) rows)
    { s0 with pixels := glyph_pixels fm sz colour g x y s0.pixels rows 0 } rfl
    (fun c s hc hs => ⟨_, by
      rw [hs]
      exact blit_text_pixel_step fm sz colour g x y s0 hsz hsize hx hy rows c hr hc, rfl⟩)
  rw [h1, h2]
  congr 2
  funext b
  simp only [glyph_pixels]
  by_cases hout : x ≤ b / sz % 240 ∧ b / sz % 240 < x + fm.FONT_WIDTH ∧ y ≤ b / sz / 240
  · rw [if_pos hout, if_pos hout, glyph_mark_next_row fm g rows _ _ (by omega)]
  · rw [if_neg hout, if_neg hout]

/-- Drawing one glyph inside a surface of 240x160 pixels of `sz` bytes: the
loops complete and leave the pixel bytes `glyph_pixels` of the whole glyph. -/
theorem blit_text_glyph_ok (fm : FontMetrics) (sz : Nat) (colour : Nat → Nat)
    (g : Nat → Bool) (x y : Nat) (s0 : SDL_Surface) (hsz : 0 < sz)
    (hsize : s0.pitch * s0.h = sz * 38400) (hx : x + fm.FONT_WIDTH ≤ 240)
    (hy : y + fm.FONT_HEIGHT < 160) :
    blit_text_glyph fm sz colour g 240 x y s0
      = .ok { s0 with
          pixels := glyph_pixels fm sz colour g x y s0.pixels fm.FONT_HEIGHT 0 } := by
  unfold blit_text_glyph
  obtain ⟨s', h1, h2⟩ := forLoop_inv
    (fun r (s : SDL_Surface) =>
      s = { s0 with pixels := glyph_pixels fm sz colour g x y s0.pixels r 0 })
    fm.FONT_HEIGHT (blit_text_row fm sz colour g 240 x y) s0
    (by
      cases s0
      simp only [SDL_Surface.mk.injEq, true_and]
      funext b
      simp only [glyph_pixels, glyph_mark_zero]
      split <;> rfl)
    (fun r s hr hs => ⟨_, by
      rw [hs]
      exact blit_text_row_step fm sz colour g x y s0 hsz hsize hx hy r hr, rfl⟩)
  rw [h1, h2]

theorem glyph_pixels_drawn (fm : FontMetrics) (sz : Nat) (colour : Nat → Nat)
    (g : Nat → Bool) (x y : Nat) (s0 : SDL_Surface) (hsz : 0 < sz)
    (hx : x + fm.FONT_WIDTH ≤ 240) :
    GlyphDrawn fm sz colour g x y s0
      { s0 with pixels := glyph_pixels fm sz colour g x y s0.pixels fm.FONT_HEIGHT 0 } := by
  refine ⟨?_, ?_, rfl, rfl, rfl⟩
  · intro i j b hi hj hb
    simp only [glyph_pixels]
    have e0 : (sz * ((y + j) * 240 + (x + i)) + b) / sz = (y + j) * 240 + (x + i) := by
      rw [Nat.mul_add_div hsz, Nat.div_eq_of_lt hb, Nat.add_zero]
    have e0' : (sz * ((y + j) * 240 + (x + i)) + b) % sz = b := by
      rw [Nat.mul_add_mod, Nat.mod_eq_of_lt hb]
    have e1 : ((y + j) * 240 + (x + i)) % 240 = x + i := by omega
    have e2 : ((y + j) * 240 + (x + i)) / 240 = y + j := by omega
    rw [e0, e0', e1, e2, if_pos ⟨by omega, by omega, by omega⟩, Nat.add_sub_cancel_left,
      Nat.add_sub_cancel_left]
    unfold glyph_mark
    simp only [Nat.not_lt_zero, if_false]
    by_cases h1 : j < fm.FONT_HEIGHT ∧ g (i + j * fm.FONT_WIDTH) = true
    · rw [if_pos h1, if_pos h1]
    · rw [if_neg h1, if_neg h1]
      by_cases h2 : 1 ≤ j ∧ g (i + (j - 1) * fm.FONT_WIDTH) = true
      · rw [if_pos h2, if_pos ⟨h2.1, hj, h2.2⟩]
      · rw [if_neg h2, if_neg (fun h => h2 ⟨h.1, h.2.2⟩)]
  · intro a ha
    simp only [glyph_pixels]
    by_cases hout : x ≤ a / sz % 240 ∧ a / sz % 240 < x + fm.FONT_WIDTH ∧ y ≤ a / sz / 240
    · rw [if_pos hout]
      have hmark : glyph_mark fm g fm.FONT_HEIGHT 0 (a / sz % 240 - x) (a / sz / 240 - y)
          = none := by
        by_contra hne
        apply ha
        have hjle : a / sz / 240 - y ≤ fm.FONT_HEIGHT := by
          unfold glyph_mark at hne
          simp only [Nat.not_lt_zero, if_false] at hne
          by_contra hgt
          rw [if_neg (by omega), if_neg (by omega)] at hne
          exact hne rfl
        refine ⟨a / sz % 240 - x, a / sz / 240 - y, a % sz, by omega, hjle,
          Nat.mod_lt _ hsz, ?_⟩
        have e1 : (y + (a / sz / 240 - y)) * 240 + (x + (a / sz % 240 - x)) = a / sz := by
          omega
        rw [e1]
        exact (Nat.div_add_mod a sz).symm
      rw [hmark]
    · rw [if_neg hout]

/-- Drawing one glyph inside a surface of 240x160 pixels of `sz` bytes
completes with the effect `GlyphDrawn`. -/
theorem blit_text_glyph_drawn (fm : FontMetrics) (sz : Nat) (colour : Nat → Nat)
    (g : Nat → Bool) (x y : Nat) (s0 : SDL_Surface) (hsz : 0 < sz)
    (hsize : s0.pitch * s0.h = sz * 38400) (hx : x + fm.FONT_WIDTH ≤ 240)
    (hy : y + fm.FONT_HEIGHT < 160) :
    ∃ s', blit_text_glyph fm sz colour g 240 x y s0 = .ok s'
      ∧ GlyphDrawn fm sz colour g x y s0 s' :=
  ⟨_, blit_text_glyph_ok fm sz colour g x y s0 hsz hsize hx hy,
    glyph_pixels_drawn fm sz colour g x y s0 hsz hx⟩

/-- Claim C17.  On the 240x160 surface (16-bit: pixels of 2 bytes holding
`font_colour16`; 32-bit: pixels of 4 bytes holding `font_colour32`), the glyph
loops of `sdl_rs90_blit_text16` / `sdl_rs90_blit_text32`, run for a glyph
bitmap `g` at a cursor `(x_pos, y_pos)` with `x_pos + FONT_WIDTH ≤ 240` and
`y_pos + FONT_HEIGHT < 160`, complete; afterwards, for every column
`i < FONT_WIDTH` and row `j ≤ FONT_HEIGHT`, pixel `(x_pos + i, y_pos + j)` holds
the font colour if `j < FONT_HEIGHT` and `g(i, j)` is set, else the shadow
colour 0 if `j ≥ 1` and `g(i, j - 1)` is set, else its previous value, and
every other byte of the surface is unchanged. -/
theorem glyph_with_bottom_shadow (fm : FontMetrics) (msb_first : Bool)
    (vid : sdl_rs90_video_t) (g : Nat → Bool) (x_pos y_pos : Nat) (s16 s32 : SDL_Surface)
    (h16 : s16.pitch = 480 ∧ s16.h = 160) (h32 : s32.pitch = 960 ∧ s32.h = 160)
    (hx : x_pos + fm.FONT_WIDTH ≤ 240) (hy : y_pos + fm.FONT_HEIGHT < 160) :
    (∃ s', blit_text_glyph fm 2 (byte16 msb_first vid.font_colour16) g
            (u16 (s16.pitch >>> 1)) x_pos y_pos s16 = .ok s'
        ∧ GlyphDrawn fm 2 (byte16 msb_first vid.font_colour16) g x_pos y_pos s16 s')
    ∧ (∃ s', blit_text_glyph fm 4 (byte32 msb_first vid.font_colour32) g
            (u32 (s32.pitch >>> 2)) x_pos y_pos s32 = .ok s'
        ∧ GlyphDrawn fm 4 (byte32 msb_first vid.font_colour32) g x_pos y_pos s32 s') := by
  constructor
  · have hs : u16 (s16.pitch >>> 1) = 240 := by rw [h16.1]; rfl
    rw [hs]
    exact blit_text_glyph_drawn fm 2 _ g x_pos y_pos s16 (by omega)
      (by rw [h16.1, h16.2]) hx hy
  · have hs : u32 (s32.pitch >>> 2) = 240 := by rw [h32.1]; rfl
    rw [hs]
    exact blit_text_glyph_drawn fm 4 _ g x_pos y_pos s32 (by omega)
      (by rw [h32.1, h32.2]) hx hy

/-- Witness of C17: glyph 65 of `font_dots` at the
cursor `(6, 6)` of the two cleared 240x160 surfaces. -/
theorem glyph_with_bottom_shadow_witness :
    (∃ s', blit_text_glyph bitmap_font_metrics 2 (byte16 false vid_rgb565.font_colour16)
            (font_dots.lut 65) (u16 (screen_rgb565.pitch >>> 1)) 6 6 screen_rgb565 = .ok s'
        ∧ GlyphDrawn bitmap_font_metrics 2 (byte16 false vid_rgb565.font_colour16)
            (font_dots.lut 65) 6 6 screen_rgb565 s')
    ∧ (∃ s', blit_text_glyph bitmap_font_metrics 4 (byte32 false vid_rgb565.font_colour32)
            (font_dots.lut 65) (u32 (screen_xrgb8888.pitch >>> 2)) 6 6 screen_xrgb8888
              = .ok s'
        ∧ GlyphDrawn bitmap_font_metrics 4 (byte32 false vid_rgb565.font_colour32)
            (font_dots.lut 65) 6 6 screen_xrgb8888 s') :=
  glyph_with_bottom_shadow bitmap_font_metrics false vid_rgb565 (font_dots.lut 65) 6 6
    screen_rgb565 screen_xrgb8888 ⟨rfl, rfl⟩ ⟨rfl, rfl⟩ (by decide) (by decide)

/-! ### The character loop, case by case -/

theorem ligature_cases (c : Nat) :
    (c = 339 ∧ ligature c = 156) ∨ (c = 338 ∧ ligature c = 140)
      ∨ (c ≠ 339 ∧ c ≠ 338 ∧ ligature c = c) := by
  by_cases h1 : c = 339
  · exact .inl ⟨h1, by rw [h1]; rfl⟩
  · by_cases h2 : c = 338
    · exact .inr (.inl ⟨h2, by rw [h2]; rfl⟩)
    · exact .inr (.inr ⟨h1, h2, by unfold ligature; rw [if_neg h1, if_neg h2]⟩)

theorem ligature_idem (c : Nat) : ligature (ligature c) = ligature c := by
  rcases ligature_cases c with ⟨_, e⟩ | ⟨_, e⟩ | ⟨_, _, e⟩
  · rw [e]; rfl
  · rw [e]; rfl
  · rw [e, e]

theorem ligature_eq_zero (c : Nat) : ligature c = 0 ↔ c = 0 := by
  rcases ligature_cases c with ⟨h, e⟩ | ⟨h, e⟩ | ⟨_, _, e⟩ <;> rw [e] <;> omega

theorem ligature_eq_space (c : Nat) : ligature c = 32 ↔ c = 32 := by
  rcases ligature_cases c with ⟨h, e⟩ | ⟨h, e⟩ | ⟨_, _, e⟩ <;> rw [e] <;> omega

theorem ligature_ge (c : Nat) : 256 ≤ ligature c ↔ 256 ≤ c ∧ c ≠ 338 ∧ c ≠ 339 := by
  rcases ligature_cases c with ⟨h, e⟩ | ⟨h, e⟩ | ⟨_, _, e⟩ <;> rw [e] <;> omega

/-- The loop returns at once at a terminator or when the bounds check fires. -/
theorem blit_text_chars_stop (fm : FontMetrics) (sz : Nat) (colour : Nat → Nat)
    (f : bitmapfont_lut_t) (stride w pad y : Nat) (c : Nat) (cs : List Nat) (x : Nat)
    (s : SDL_Surface)
    (h : c = 0 ∨ u32 (x + fm.FONT_WIDTH_STRIDE + 1) ≥ usub w pad) :
    blit_text_chars fm sz colour f stride w pad y (c :: cs) x s
      = .ok { str := c :: cs, x_pos := x, screen := s } := by
  rw [blit_text_chars]
  by_cases h0 : c = 0
  · rw [if_pos h0]
  · rw [if_neg h0, if_pos (h.resolve_left h0)]

/-- A space moves the cursor and draws nothing. -/
theorem blit_text_chars_space (fm : FontMetrics) (sz : Nat) (colour : Nat → Nat)
    (f : bitmapfont_lut_t) (stride w pad y : Nat) (cs : List Nat) (x : Nat)
    (s : SDL_Surface) (hg : ¬ u32 (x + fm.FONT_WIDTH_STRIDE + 1) ≥ usub w pad) :
    blit_text_chars fm sz colour f stride w pad y (32 :: cs) x s
      = blit_text_chars fm sz colour f stride w pad y cs (u32 (x + fm.FONT_WIDTH_STRIDE)) s := by
  rw [blit_text_chars, if_neg (by decide), if_neg hg, if_pos rfl]

/-- A code point without a glyph is passed over, the cursor stays. -/
theorem blit_text_chars_skip (fm : FontMetrics) (sz : Nat) (colour : Nat → Nat)
    (f : bitmapfont_lut_t) (stride w pad y : Nat) (c : Nat) (cs : List Nat) (x : Nat)
    (s : SDL_Surface) (hg : ¬ u32 (x + fm.FONT_WIDTH_STRIDE + 1) ≥ usub w pad)
    (hc : 256 ≤ ligature c) :
    blit_text_chars fm sz colour f stride w pad y (c :: cs) x s
      = blit_text_chars fm sz colour f stride w pad y cs x s := by
  have h0 : c ≠ 0 := fun h => by rw [h] at hc; exact absurd hc (by decide)
  have h32 : c ≠ 32 := fun h => by rw [h] at hc; exact absurd hc (by decide)
  rw [blit_text_chars, if_neg h0, if_neg hg, if_neg h32]
  have hl : (if (if (utf8_walk (c :: cs)).1 = 339 then 156 else (utf8_walk (c :: cs)).1) = 338
      then 140 else (if (utf8_walk (c :: cs)).1 = 339 then 156 else (utf8_walk (c :: cs)).1))
      = ligature c := by
    simp only [utf8_walk, List.headD_cons, ligature]; split_ifs <;> omega
  simp only [hl]
  rw [if_pos (show ligature c ≥ SDL_DINGUX_NUM_FONT_GLYPHS from hc)]

/-- A code point with a glyph: the glyph is drawn at the cursor, which then
moves on; a glyph beyond the table is a read out of bounds. -/
theorem blit_text_chars_glyph (fm : FontMetrics) (sz : Nat) (colour : Nat → Nat)
    (f : bitmapfont_lut_t) (stride w pad y : Nat) (c : Nat) (cs : List Nat) (x : Nat)
    (s : SDL_Surface) (h0 : c ≠ 0) (hg : ¬ u32 (x + fm.FONT_WIDTH_STRIDE + 1) ≥ usub w pad)
    (h32 : c ≠ 32) (hc : ¬ 256 ≤ ligature c) :
    blit_text_chars fm sz colour f stride w pad y (c :: cs) x s
      = if ligature c > f.glyph_max then .error .heap_out_of_bounds
        else (blit_text_glyph fm sz colour (f.lut (ligature c)) stride x y s).bind fun s =>
          blit_text_chars fm sz colour f stride w pad y cs (u32 (x + fm.FONT_WIDTH_STRIDE)) s := by
  rw [blit_text_chars, if_neg h0, if_neg hg, if_neg h32]
  have hl : (if (if (utf8_walk (c :: cs)).1 = 339 then 156 else (utf8_walk (c :: cs)).1) = 338
      then 140 else (if (utf8_walk (c :: cs)).1 = 339 then 156 else (utf8_walk (c :: cs)).1))
      = ligature c := by
    simp only [utf8_walk, List.headD_cons, ligature]; split_ifs <;> omega
  simp only [hl]
  rw [if_neg (show ¬ ligature c ≥ SDL_DINGUX_NUM_FONT_GLYPHS from hc)]

/-! ### Strings of spaces -/

theorem blit_text_chars_spaces (fm : FontMetrics) (sz : Nat) (colour : Nat → Nat)
    (f : bitmapfont_lut_t) (stride w pad y : Nat) :
    ∀ (n x : Nat) (s : SDL_Surface), ∃ k, k ≤ n ∧
      blit_text_chars fm sz colour f stride w pad y (List.replicate n 32) x s
        = .ok { str := List.replicate (n - k) 32,
                x_pos := (fun c => u32 (c + fm.FONT_WIDTH_STRIDE))^[k] x, screen := s } := by
  intro n
  induction n with
  | zero => intro x s; exact ⟨0, Nat.le_refl 0, rfl⟩
  | succ n ih =>
    intro x s
    by_cases hg : u32 (x + fm.FONT_WIDTH_STRIDE + 1) ≥ usub w pad
    · refine ⟨0, Nat.zero_le _, ?_⟩
      rw [List.replicate_succ, blit_text_chars_stop fm sz colour f stride w pad y 32 _ x s
        (Or.inr hg)]
      rfl
    · obtain ⟨k, hk, h⟩ := ih (u32 (x + fm.FONT_WIDTH_STRIDE)) s
      refine ⟨k + 1, by omega, ?_⟩
      rw [List.replicate_succ, blit_text_chars_space fm sz colour f stride w pad y _ x s hg, h,
        Nat.add_sub_add_right, Function.iterate_succ_apply]

theorem video_with_screen (vid : sdl_rs90_video_t) (s : SDL_Surface)
    (hs : vid.screen = some s) : { vid with screen := some s } = vid := by
  cases vid
  simp only at hs
  simp only [hs]

theorem blit_text_spaces_ok (fm : FontMetrics) (sz : Nat) (colour : Nat → Nat)
    (vid : sdl_rs90_video_t) (s : SDL_Surface) (f : bitmapfont_lut_t)
    (stride w h x y n : Nat) (hs : vid.screen = some s) :
    blit_text fm sz colour vid s f stride w h x y (List.replicate n 32) = .ok vid := by
  unfold blit_text
  dsimp only
  generalize (if y > h >>> 1 then usub y vid.frame_padding_y
    else u32 (y + vid.frame_padding_y)) = y_pos
  by_cases hg : u32 (y_pos + fm.FONT_HEIGHT + 1) ≥ usub h vid.frame_padding_y
  · rw [if_pos hg]
  · rw [if_neg hg]
    obtain ⟨k, _, hk⟩ := blit_text_chars_spaces fm sz colour f stride w vid.frame_padding_x
      y_pos n (u32 (x + vid.frame_padding_x)) s
    rw [hk]
    simp only [Except.map]
    rw [video_with_screen vid s hs]

/-- The loop on a string of `n` spaces reads exactly `k` of them when the
bounds check passes at the first `k` cursors and, unless all `n` are read,
fires at the next one; each space read moves the cursor on by
`FONT_WIDTH_STRIDE`. -/
theorem blit_text_chars_spaces_exact (fm : FontMetrics) (sz : Nat) (colour : Nat → Nat)
    (f : bitmapfont_lut_t) (stride w pad y : Nat) :
    ∀ (n k x : Nat) (s : SDL_Surface), k ≤ n →
      (∀ i, i < k →
        ¬ u32 ((fun c => u32 (c + fm.FONT_WIDTH_STRIDE))^[i] x + fm.FONT_WIDTH_STRIDE + 1)
            ≥ usub w pad) →
      (k < n →
        u32 ((fun c => u32 (c + fm.FONT_WIDTH_STRIDE))^[k] x + fm.FONT_WIDTH_STRIDE + 1)
          ≥ usub w pad) →
      blit_text_chars fm sz colour f stride w pad y (List.replicate n 32) x s
        = .ok { str := List.replicate (n - k) 32,
                x_pos := (fun c => u32 (c + fm.FONT_WIDTH_STRIDE))^[k] x, screen := s } := by
  intro n
  induction n with
  | zero =>
    intro k x s hk _ _
    have hk0 : k = 0 := by omega
    subst hk0
    rfl
  | succ n ih =>
    intro k x s hk hpass hstop
    cases k with
    | zero =>
      rw [List.replicate_succ, blit_text_chars_stop fm sz colour f stride w pad y 32 _ x s
        (Or.inr (hstop (by omega)))]
      rfl
    | succ k =>
      have hg : ¬ u32 (x + fm.FONT_WIDTH_STRIDE + 1) ≥ usub w pad := hpass 0 (by omega)
      rw [List.replicate_succ, blit_text_chars_space fm sz colour f stride w pad y _ x s hg,
        ih k (u32 (x + fm.FONT_WIDTH_STRIDE)) s (by omega)
          (fun i hi => by
            have h := hpass (i + 1) (by omega)
            rw [Function.iterate_succ_apply] at h
            exact h)
          (fun hkn => by
            have h := hstop (by omega)
            rw [Function.iterate_succ_apply] at h
            exact h),
        Nat.add_sub_add_right, Function.iterate_succ_apply]

/-- A number of spaces read, as `blit_text_chars_spaces_exact` asks for, always
exists. -/
theorem blit_text_spaces_count (fm : FontMetrics) (w pad : Nat) :
    ∀ (n x : Nat), ∃ k, k ≤ n
      ∧ (∀ i, i < k →
        ¬ u32 ((fun c => u32 (c + fm.FONT_WIDTH_STRIDE))^[i] x + fm.FONT_WIDTH_STRIDE + 1)
            ≥ usub w pad)
      ∧ (k < n →
        u32 ((fun c => u32 (c + fm.FONT_WIDTH_STRIDE))^[k] x + fm.FONT_WIDTH_STRIDE + 1)
          ≥ usub w pad) := by
  intro n
  induction n with
  | zero => intro x; exact ⟨0, Nat.le_refl 0, fun i hi => absurd hi (by omega),
      fun h => absurd h (by omega)⟩
  | succ n ih =>
    intro x
    by_cases hg : u32 (x + fm.FONT_WIDTH_STRIDE + 1) ≥ usub w pad
    · exact ⟨0, Nat.zero_le _, fun i hi => absurd hi (by omega), fun _ => hg⟩
    · obtain ⟨k, hk, hp, hs⟩ := ih (u32 (x + fm.FONT_WIDTH_STRIDE))
      refine ⟨k + 1, by omega, ?_, ?_⟩
      · intro i hi
        cases i with
        | zero => exact hg
        | succ i =>
          rw [Function.iterate_succ_apply]
          exact hp i (by omega)
      · intro hkn
        rw [Function.iterate_succ_apply]
        exact hs (by omega)

/-- Claim C14.  In a driver state with a surface and a font, for every origin
`(x, y)`, both pixel formats and every number `n` of spaces, compositing the
string of `n` spaces with `sdl_rs90_blit_text16` / `sdl_rs90_blit_text32`
completes and leaves the state, hence the destination buffer, unchanged.  In
the character loop, on any surface and in both formats, a space met at the
cursor `x_pos` ends the loop when the horizontal bounds check fires there and
is otherwise consumed with the cursor moved to `x_pos + FONT_WIDTH_STRIDE`;
so when the check passes at the first `k ≤ n` cursors and, unless `k = n`,
fires at the next, the loop on `n` spaces consumes exactly `k` of them, draws
nothing and leaves the cursor advanced `k` times by `FONT_WIDTH_STRIDE`; such
a `k` always exists. -/
theorem blit_text_spaces (fm : FontMetrics) (msb_first : Bool) (vid : sdl_rs90_video_t)
    (s : SDL_Surface) (f : bitmapfont_lut_t) (x y n w pad x_pos k : Nat)
    (hs : vid.screen = some s) (hf : vid.osd_font = some f) (hk : k ≤ n)
    (hpass : ∀ i, i < k →
      ¬ u32 ((fun c => u32 (c + fm.FONT_WIDTH_STRIDE))^[i] x_pos + fm.FONT_WIDTH_STRIDE + 1)
          ≥ usub w pad)
    (hstop : k < n →
      u32 ((fun c => u32 (c + fm.FONT_WIDTH_STRIDE))^[k] x_pos + fm.FONT_WIDTH_STRIDE + 1)
        ≥ usub w pad) :
    sdl_rs90_blit_text16 fm msb_first vid x y (List.replicate n 32) = .ok vid
    ∧ sdl_rs90_blit_text32 fm msb_first vid x y (List.replicate n 32) = .ok vid
    ∧ (∀ (sz : Nat) (colour : Nat → Nat) (stride y_pos : Nat) (s0 : SDL_Surface),
        blit_text_chars fm sz colour f stride w pad y_pos (List.replicate n 32) x_pos s0
          = .ok { str := List.replicate (n - k) 32,
                  x_pos := (fun c => u32 (c + fm.FONT_WIDTH_STRIDE))^[k] x_pos,
                  screen := s0 })
    ∧ (∀ (sz : Nat) (colour : Nat → Nat) (stride y_pos : Nat) (s0 : SDL_Surface)
        (cs : List Nat),
        blit_text_chars fm sz colour f stride w pad y_pos (32 :: cs) x_pos s0
          = if u32 (x_pos + fm.FONT_WIDTH_STRIDE + 1) ≥ usub w pad then
              .ok { str := 32 :: cs, x_pos := x_pos, screen := s0 }
            else blit_text_chars fm sz colour f stride w pad y_pos cs
              (u32 (x_pos + fm.FONT_WIDTH_STRIDE)) s0)
    ∧ ∀ n' x', ∃ k', k' ≤ n'
        ∧ (∀ i, i < k' →
          ¬ u32 ((fun c => u32 (c + fm.FONT_WIDTH_STRIDE))^[i] x' + fm.FONT_WIDTH_STRIDE + 1)
              ≥ usub w pad)
        ∧ (k' < n' →
          u32 ((fun c => u32 (c + fm.FONT_WIDTH_STRIDE))^[k'] x' + fm.FONT_WIDTH_STRIDE + 1)
            ≥ usub w pad) := by
  refine ⟨?_, ?_, ?_, ?_, blit_text_spaces_count fm w pad⟩
  · simp only [sdl_rs90_blit_text16, hs, hf]
    exact blit_text_spaces_ok fm 2 _ vid s f _ _ _ x y n hs
  · simp only [sdl_rs90_blit_text32, hs, hf]
    exact blit_text_spaces_ok fm 4 _ vid s f _ _ _ x y n hs
  · intro sz colour stride y_pos s0
    exact blit_text_chars_spaces_exact fm sz colour f stride w pad y_pos n k x_pos s0 hk hpass
      hstop
  · intro sz colour stride y_pos s0 cs
    by_cases hg : u32 (x_pos + fm.FONT_WIDTH_STRIDE + 1) ≥ usub w pad
    · rw [if_pos hg]
      exact blit_text_chars_stop fm sz colour f stride w pad y_pos 32 cs x_pos s0 (Or.inr hg)
    · rw [if_neg hg]
      exact blit_text_chars_space fm sz colour f stride w pad y_pos cs x_pos s0 hg

/-- Witness of C14: three spaces at the origin `(6, 6)` of the grey 16-bit
surface.  From the cursor 6 the loop consumes all three and leaves the cursor
at 24; from the cursor 227 it consumes one, leaves the cursor at 233 and
stops there, because `233 + 7` reaches the width 240. -/
theorem blit_text_spaces_witness :
    (sdl_rs90_blit_text16 bitmap_font_metrics false vid_osd16 6 6 (List.replicate 3 32)
        = .ok vid_osd16
      ∧ sdl_rs90_blit_text32 bitmap_font_metrics false vid_osd16 6 6 (List.replicate 3 32)
        = .ok vid_osd16
      ∧ ∀ (sz : Nat) (colour : Nat → Nat) (stride y_pos : Nat) (s0 : SDL_Surface),
          blit_text_chars bitmap_font_metrics sz colour font_dots stride 240 0 y_pos
              (List.replicate 3 32) 6 s0
            = .ok { str := [], x_pos := 24, screen := s0 })
    ∧ ∀ (sz : Nat) (colour : Nat → Nat) (stride y_pos : Nat) (s0 : SDL_Surface),
        blit_text_chars bitmap_font_metrics sz colour font_dots stride 240 0 y_pos
            (List.replicate 3 32) 227 s0
          = .ok { str := [32, 32], x_pos := 233, screen := s0 } :=
  ⟨⟨(blit_text_spaces bitmap_font_metrics false vid_osd16
        { screen_rgb565 with pixels := fun _ => 170 } font_dots 6 6 3 240 0 6 3 rfl rfl
        (by decide) (by decide) (by decide)).1,
    (blit_text_spaces bitmap_font_metrics false vid_osd16
        { screen_rgb565 with pixels := fun _ => 170 } font_dots 6 6 3 240 0 6 3 rfl rfl
        (by decide) (by decide) (by decide)).2.1,
    (blit_text_spaces bitmap_font_metrics false vid_osd16
        { screen_rgb565 with pixels := fun _ => 170 } font_dots 6 6 3 240 0 6 3 rfl rfl
        (by decide) (by decide) (by decide)).2.2.1⟩,
   (blit_text_spaces bitmap_font_metrics false vid_osd16
      { screen_rgb565 with pixels := fun _ => 170 } font_dots 6 6 3 240 0 227 1 rfl rfl
      (by decide) (by decide) (by decide)).2.2.1⟩

/-! ### Strings that are drawn alike -/

theorem blit_text_congr (fm : FontMetrics) (sz : Nat) (colour : Nat → Nat)
    (vid : sdl_rs90_video_t) (s : SDL_Surface) (f : bitmapfont_lut_t)
    (stride w h x y : Nat) (A B : List Nat) (hAB : SameDrawing fm A B) :
    blit_text fm sz colour vid s f stride w h x y A
      = blit_text fm sz colour vid s f stride w h x y B := by
  unfold blit_text
  dsimp only
  generalize (if y > h >>> 1 then usub y vid.frame_padding_y
    else u32 (y + vid.frame_padding_y)) = y_pos
  by_cases hg : u32 (y_pos + fm.FONT_HEIGHT + 1) ≥ usub h vid.frame_padding_y
  · rw [if_pos hg, if_pos hg]
  · rw [if_neg hg, if_neg hg]
    have h := hAB sz colour f stride w vid.frame_padding_x y_pos (u32 (x + vid.frame_padding_x)) s
    revert h
    cases blit_text_chars fm sz colour f stride w vid.frame_padding_x y_pos A
        (u32 (x + vid.frame_padding_x)) s <;>
      cases blit_text_chars fm sz colour f stride w vid.frame_padding_x y_pos B
        (u32 (x + vid.frame_padding_x)) s <;>
      simp only [Except.map] <;> intro h
    · rw [Except.error.inj h]
    · exact absurd h (by simp)
    · exact absurd h (by simp)
    · have h := Except.ok.inj h
      rw [h]

theorem blit_text16_congr (fm : FontMetrics) (msb_first : Bool) (vid : sdl_rs90_video_t)
    (x y : Nat) (A B : List Nat) (hAB : SameDrawing fm A B) :
    sdl_rs90_blit_text16 fm msb_first vid x y A = sdl_rs90_blit_text16 fm msb_first vid x y B := by
  unfold sdl_rs90_blit_text16
  cases vid.screen with
  | none => rfl
  | some s =>
    cases vid.osd_font with
    | none => rfl
    | some f => exact blit_text_congr fm 2 _ vid s f _ _ _ x y A B hAB

theorem blit_text32_congr (fm : FontMetrics) (msb_first : Bool) (vid : sdl_rs90_video_t)
    (x y : Nat) (A B : List Nat) (hAB : SameDrawing fm A B) :
    sdl_rs90_blit_text32 fm msb_first vid x y A = sdl_rs90_blit_text32 fm msb_first vid x y B := by
  unfold sdl_rs90_blit_text32
  cases vid.screen with
  | none => rfl
  | some s =>
    cases vid.osd_font with
    | none => rfl
    | some f => exact blit_text_congr fm 4 _ vid s f _ _ _ x y A B hAB

theorem blit_text_chars_ligatures (fm : FontMetrics) (str : List Nat) :
    SameDrawing fm (replace_ligatures str) str := by
  intro sz colour f stride w pad y
  induction str with
  | nil => intro x s; rfl
  | cons c cs ih =>
    intro x s
    show (blit_text_chars fm sz colour f stride w pad y
      (ligature c :: replace_ligatures cs) x s).map TextSt.screen = _
    by_cases hstop : c = 0 ∨ u32 (x + fm.FONT_WIDTH_STRIDE + 1) ≥ usub w pad
    · rw [blit_text_chars_stop fm sz colour f stride w pad y c cs x s hstop,
        blit_text_chars_stop fm sz colour f stride w pad y (ligature c) _ x s
          (hstop.imp (ligature_eq_zero c).mpr id)]
      rfl
    · have h0 : c ≠ 0 := fun h => hstop (Or.inl h)
      have hg : ¬ u32 (x + fm.FONT_WIDTH_STRIDE + 1) ≥ usub w pad := fun h => hstop (Or.inr h)
      by_cases h32 : c = 32
      · subst h32
        rw [show ligature 32 = 32 from rfl,
          blit_text_chars_space fm sz colour f stride w pad y _ x s hg,
          blit_text_chars_space fm sz colour f stride w pad y _ x s hg]
        exact ih _ _
      · by_cases hc : 256 ≤ ligature c
        · rw [blit_text_chars_skip fm sz colour f stride w pad y c cs x s hg hc,
            blit_text_chars_skip fm sz colour f stride w pad y (ligature c) _ x s hg
              (by rw [ligature_idem]; exact hc)]
          exact ih _ _
        · rw [blit_text_chars_glyph fm sz colour f stride w pad y c cs x s h0 hg h32 hc,
            blit_text_chars_glyph fm sz colour f stride w pad y (ligature c) _ x s
              (fun h => h0 ((ligature_eq_zero c).mp h)) hg
              (fun h => h32 ((ligature_eq_space c).mp h))
              (by rw [ligature_idem]; exact hc),
            ligature_idem]
          by_cases hm : ligature c > f.glyph_max
          · rw [if_pos hm, if_pos hm]
          · rw [if_neg hm, if_neg hm]
            cases blit_text_glyph fm sz colour (f.lut (ligature c)) stride x y s with
            | error e => rfl
            | ok s1 => exact ih _ s1

/-- Claim C15.  For every origin, driver state (hence destination buffer) and
both pixel formats, compositing the string in which the code points 339 are
replaced by 156 and the code points 338 by 140 gives exactly the result of
compositing the original string; the same holds when a single code point 339
(respectively 338), anywhere in a string, is replaced by 156 (respectively
140). -/
theorem blit_text_ligature_remap (fm : FontMetrics) (msb_first : Bool)
    (vid : sdl_rs90_video_t) (x y : Nat) (str p q : List Nat) :
    sdl_rs90_blit_text16 fm msb_first vid x y (replace_ligatures str)
      = sdl_rs90_blit_text16 fm msb_first vid x y str
    ∧ sdl_rs90_blit_text32 fm msb_first vid x y (replace_ligatures str)
      = sdl_rs90_blit_text32 fm msb_first vid x y str
    ∧ sdl_rs90_blit_text16 fm msb_first vid x y (p ++ 156 :: q)
      = sdl_rs90_blit_text16 fm msb_first vid x y (p ++ 339 :: q)
    ∧ sdl_rs90_blit_text32 fm msb_first vid x y (p ++ 156 :: q)
      = sdl_rs90_blit_text32 fm msb_first vid x y (p ++ 339 :: q)
    ∧ sdl_rs90_blit_text16 fm msb_first vid x y (p ++ 140 :: q)
      = sdl_rs90_blit_text16 fm msb_first vid x y (p ++ 338 :: q)
    ∧ sdl_rs90_blit_text32 fm msb_first vid x y (p ++ 140 :: q)
      = sdl_rs90_blit_text32 fm msb_first vid x y (p ++ 338 :: q) := by
  have e1 : replace_ligatures (p ++ 156 :: q) = replace_ligatures (p ++ 339 :: q) := by
    simp only [replace_ligatures, List.map_append, List.map_cons]; rfl
  have e2 : replace_ligatures (p ++ 140 :: q) = replace_ligatures (p ++ 338 :: q) := by
    simp only [replace_ligatures, List.map_append, List.map_cons]; rfl
  refine ⟨blit_text16_congr fm msb_first vid x y _ _ (blit_text_chars_ligatures fm str),
    blit_text32_congr fm msb_first vid x y _ _ (blit_text_chars_ligatures fm str), ?_, ?_, ?_, ?_⟩
  · rw [← blit_text16_congr fm msb_first vid x y _ _ (blit_text_chars_ligatures fm (p ++ 156 :: q)),
      ← blit_text16_congr fm msb_first vid x y _ _ (blit_text_chars_ligatures fm (p ++ 339 :: q)),
      e1]
  · rw [← blit_text32_congr fm msb_first vid x y _ _ (blit_text_chars_ligatures fm (p ++ 156 :: q)),
      ← blit_text32_congr fm msb_first vid x y _ _ (blit_text_chars_ligatures fm (p ++ 339 :: q)),
      e1]
  · rw [← blit_text16_congr fm msb_first vid x y _ _ (blit_text_chars_ligatures fm (p ++ 140 :: q)),
      ← blit_text16_congr fm msb_first vid x y _ _ (blit_text_chars_ligatures fm (p ++ 338 :: q)),
      e2]
  · rw [← blit_text32_congr fm msb_first vid x y _ _ (blit_text_chars_ligatures fm (p ++ 140 :: q)),
      ← blit_text32_congr fm msb_first vid x y _ _ (blit_text_chars_ligatures fm (p ++ 338 :: q)),
      e2]

/-! ### Code points without a glyph -/

theorem drop_unmapped_cons (c : Nat) (cs : List Nat) :
    drop_unmapped (c :: cs)
      = if 256 ≤ ligature c then drop_unmapped cs else c :: drop_unmapped cs := by
  unfold drop_unmapped
  rw [List.filter_cons]
  by_cases h : 256 ≤ ligature c
  · rw [if_pos h, if_neg]
    rw [decide_eq_true ((ligature_ge c).mp h)]
    decide
  · rw [if_neg h, if_pos]
    rw [decide_eq_false (fun h' => h ((ligature_ge c).mpr h'))]
    rfl

theorem blit_text_chars_stuck (fm : FontMetrics) (sz : Nat) (colour : Nat → Nat)
    (f : bitmapfont_lut_t) (stride w pad y x : Nat) (s : SDL_Surface)
    (hg : u32 (x + fm.FONT_WIDTH_STRIDE + 1) ≥ usub w pad) (str : List Nat) :
    (blit_text_chars fm sz colour f stride w pad y str x s).map TextSt.screen = .ok s := by
  cases str with
  | nil => rfl
  | cons c cs =>
    rw [blit_text_chars_stop fm sz colour f stride w pad y c cs x s (Or.inr hg)]
    rfl

theorem blit_text_chars_unmapped (fm : FontMetrics) (str : List Nat) :
    SameDrawing fm (drop_unmapped str) str := by
  intro sz colour f stride w pad y
  induction str with
  | nil => intro x s; rfl
  | cons c cs ih =>
    intro x s
    rw [drop_unmapped_cons]
    by_cases hc : 256 ≤ ligature c
    · rw [if_pos hc]
      by_cases hg : u32 (x + fm.FONT_WIDTH_STRIDE + 1) ≥ usub w pad
      · rw [blit_text_chars_stuck fm sz colour f stride w pad y x s hg,
          blit_text_chars_stuck fm sz colour f stride w pad y x s hg]
      · rw [blit_text_chars_skip fm sz colour f stride w pad y c cs x s hg hc]
        exact ih _ _
    · rw [if_neg hc]
      by_cases hstop : c = 0 ∨ u32 (x + fm.FONT_WIDTH_STRIDE + 1) ≥ usub w pad
      · rw [blit_text_chars_stop fm sz colour f stride w pad y c cs x s hstop,
          blit_text_chars_stop fm sz colour f stride w pad y c _ x s hstop]
        rfl
      · have h0 : c ≠ 0 := fun h => hstop (Or.inl h)
        have hg : ¬ u32 (x + fm.FONT_WIDTH_STRIDE + 1) ≥ usub w pad :=
          fun h => hstop (Or.inr h)
        by_cases h32 : c = 32
        · subst h32
          rw [blit_text_chars_space fm sz colour f stride w pad y _ x s hg,
            blit_text_chars_space fm sz colour f stride w pad y _ x s hg]
          exact ih _ _
        · rw [blit_text_chars_glyph fm sz colour f stride w pad y c cs x s h0 hg h32 hc,
            blit_text_chars_glyph fm sz colour f stride w pad y c _ x s h0 hg h32 hc]
          by_cases hm : ligature c > f.glyph_max
          · rw [if_pos hm, if_pos hm]
          · rw [if_neg hm, if_neg hm]
            cases blit_text_glyph fm sz colour (f.lut (ligature c)) stride x y s with
            | error e => rfl
            | ok s1 => exact ih _ s1

theorem forLoop_fault {σ : Type} (Bad : Fault → Prop) (n : Nat)
    (body : Nat → σ → Except Fault σ)
    (hstep : ∀ k s e, body k s = .error e → Bad e) :
    ∀ s e, forLoop n body s = .error e → Bad e := by
  induction n with
  | zero => intro s e h; rw [forLoop_zero] at h; exact absurd h (by simp)
  | succ n ih =>
    intro s e h
    rw [forLoop_succ] at h
    cases h1 : forLoop n body s with
    | error e1 =>
      rw [h1] at h
      have h2 : e1 = e := Except.error.inj h
      rw [← h2]
      exact ih s e1 h1
    | ok s1 =>
      rw [h1] at h
      exact hstep n s1 e h

theorem surface_write_fault (s : SDL_Surface) (off n : Nat) (data : Nat → Nat) (e : Fault)
    (h : s.write off n data = .error e) : e = .surface_out_of_bounds := by
  unfold SDL_Surface.write at h
  split_ifs at h
  exact (Except.error.inj h).symm

theorem blit_text_glyph_fault (fm : FontMetrics) (sz : Nat) (colour : Nat → Nat)
    (g : Nat → Bool) (stride x y : Nat) (s : SDL_Surface) (e : Fault)
    (h : blit_text_glyph fm sz colour g stride x y s = .error e) :
    e = .surface_out_of_bounds := by
  refine forLoop_fault (fun e => e = .surface_out_of_bounds) _ _ ?_ s e h
  intro j s1 e1 h1
  refine forLoop_fault (fun e => e = .surface_out_of_bounds) _ _ ?_ s1 e1 h1
  intro i s2 e2 h2
  unfold blit_text_pixel at h2
  split_ifs at h2
  cases h3 : s2.write (sz * (u32 (u32 ((y + j) * stride) + x) + i)) sz colour with
  | error e3 =>
    rw [h3] at h2
    rw [← Except.error.inj h2]
    exact surface_write_fault _ _ _ _ _ h3
  | ok s3 =>
    rw [h3] at h2
    simp only [Except.bind] at h2
    exact surface_write_fault _ _ _ _ _ h2

theorem blit_text_chars_fault (fm : FontMetrics) (sz : Nat) (colour : Nat → Nat)
    (f : bitmapfont_lut_t) (stride w pad y : Nat) (hmax : 255 ≤ f.glyph_max) :
    ∀ (str : List Nat) (x : Nat) (s : SDL_Surface),
      blit_text_chars fm sz colour f stride w pad y str x s ≠ .error .heap_out_of_bounds := by
  intro str
  induction str with
  | nil => intro x s h; rw [blit_text_chars] at h; exact absurd h (by simp)
  | cons c cs ih =>
    intro x s
    by_cases hstop : c = 0 ∨ u32 (x + fm.FONT_WIDTH_STRIDE + 1) ≥ usub w pad
    · rw [blit_text_chars_stop fm sz colour f stride w pad y c cs x s hstop]
      simp
    · have h0 : c ≠ 0 := fun h => hstop (Or.inl h)
      have hg : ¬ u32 (x + fm.FONT_WIDTH_STRIDE + 1) ≥ usub w pad := fun h => hstop (Or.inr h)
      by_cases h32 : c = 32
      · subst h32
        rw [blit_text_chars_space fm sz colour f stride w pad y _ x s hg]
        exact ih _ _
      · by_cases hc : 256 ≤ ligature c
        · rw [blit_text_chars_skip fm sz colour f stride w pad y c cs x s hg hc]
          exact ih _ _
        · rw [blit_text_chars_glyph fm sz colour f stride w pad y c cs x s h0 hg h32 hc,
            if_neg (by omega)]
          cases hgl : blit_text_glyph fm sz colour (f.lut (ligature c)) stride x y s with
          | error e =>
            rw [blit_text_glyph_fault fm sz colour _ stride x y s e hgl]
            simp [Except.bind]
          | ok s1 => exact ih _ s1

theorem blit_text_fault (fm : FontMetrics) (sz : Nat) (colour : Nat → Nat)
    (vid : sdl_rs90_video_t) (s : SDL_Surface) (f : bitmapfont_lut_t)
    (stride w h x y : Nat) (str : List Nat) (hmax : 255 ≤ f.glyph_max) :
    blit_text fm sz colour vid s f stride w h x y str ≠ .error .heap_out_of_bounds := by
  unfold blit_text
  dsimp only
  generalize (if y > h >>> 1 then usub y vid.frame_padding_y
    else u32 (y + vid.frame_padding_y)) = y_pos
  by_cases hg : u32 (y_pos + fm.FONT_HEIGHT + 1) ≥ usub h vid.frame_padding_y
  · rw [if_pos hg]; simp
  · rw [if_neg hg]
    have hc := blit_text_chars_fault fm sz colour f stride w vid.frame_padding_x y_pos hmax str
      (u32 (x + vid.frame_padding_x)) s
    revert hc
    cases blit_text_chars fm sz colour f stride w vid.frame_padding_x y_pos str
        (u32 (x + vid.frame_padding_x)) s with
    | error e => intro hc h; exact hc (by rw [Except.error.inj h])
    | ok st => intro _ h; exact absurd h (by simp [Except.map])

/-- Claim C16.  For every sequence of code points `str`, origin, driver state
and both pixel formats, compositing `str` gives exactly the result of
compositing `str` without its code points `≥ 256` other than 338 and 339;
such a code point `c`, met by the character loop, is passed over with the
cursor and the surface unchanged (unless the bounds check ends the loop
first); and with a glyph table of 256 glyphs or more the compositor never
reads the table out of bounds. -/
theorem blit_text_skips_unmapped (fm : FontMetrics) (msb_first : Bool)
    (vid : sdl_rs90_video_t) (f : bitmapfont_lut_t) (x y : Nat) (str : List Nat) (c : Nat)
    (hf : vid.osd_font = some f) (hmax : 255 ≤ f.glyph_max)
    (hc : 256 ≤ c ∧ c ≠ 338 ∧ c ≠ 339) :
    sdl_rs90_blit_text16 fm msb_first vid x y (drop_unmapped str)
      = sdl_rs90_blit_text16 fm msb_first vid x y str
    ∧ sdl_rs90_blit_text32 fm msb_first vid x y (drop_unmapped str)
      = sdl_rs90_blit_text32 fm msb_first vid x y str
    ∧ (∀ (sz : Nat) (colour : Nat → Nat) (stride w pad y_pos x_pos : Nat) (s : SDL_Surface)
        (cs : List Nat),
        blit_text_chars fm sz colour f stride w pad y_pos (c :: cs) x_pos s
          = if u32 (x_pos + fm.FONT_WIDTH_STRIDE + 1) ≥ usub w pad then
              .ok { str := c :: cs, x_pos := x_pos, screen := s }
            else blit_text_chars fm sz colour f stride w pad y_pos cs x_pos s)
    ∧ sdl_rs90_blit_text16 fm msb_first vid x y str ≠ .error .heap_out_of_bounds
    ∧ sdl_rs90_blit_text32 fm msb_first vid x y str ≠ .error .heap_out_of_bounds := by
  refine ⟨blit_text16_congr fm msb_first vid x y _ _ (blit_text_chars_unmapped fm str),
    blit_text32_congr fm msb_first vid x y _ _ (blit_text_chars_unmapped fm str), ?_, ?_, ?_⟩
  · intro sz colour stride w pad y_pos x_pos s cs
    by_cases hg : u32 (x_pos + fm.FONT_WIDTH_STRIDE + 1) ≥ usub w pad
    · rw [if_pos hg]
      exact blit_text_chars_stop fm sz colour f stride w pad y_pos c cs x_pos s (Or.inr hg)
    · rw [if_neg hg]
      exact blit_text_chars_skip fm sz colour f stride w pad y_pos c cs x_pos s hg
        ((ligature_ge c).mpr hc)
  · unfold sdl_rs90_blit_text16
    rw [hf]
    cases vid.screen with
    | none => simp
    | some s => exact blit_text_fault fm 2 _ vid s f _ _ _ x y str hmax
  · unfold sdl_rs90_blit_text32
    rw [hf]
    cases vid.screen with
    | none => simp
    | some s => exact blit_text_fault fm 4 _ vid s f _ _ _ x y str hmax

/-- Witness of C16: the string `A`, code point 8364,
`A` on the grey 16-bit surface. -/
theorem blit_text_skips_unmapped_witness :
    sdl_rs90_blit_text16 bitmap_font_metrics false vid_osd16 6 6 (drop_unmapped [65, 8364, 65])
      = sdl_rs90_blit_text16 bitmap_font_metrics false vid_osd16 6 6 [65, 8364, 65]
    ∧ sdl_rs90_blit_text32 bitmap_font_metrics false vid_osd16 6 6
        (drop_unmapped [65, 8364, 65])
      = sdl_rs90_blit_text32 bitmap_font_metrics false vid_osd16 6 6 [65, 8364, 65]
    ∧ (∀ (sz : Nat) (colour : Nat → Nat) (stride w pad y_pos x_pos : Nat) (s : SDL_Surface)
        (cs : List Nat),
        blit_text_chars bitmap_font_metrics sz colour font_dots stride w pad y_pos (8364 :: cs)
            x_pos s
          = if u32 (x_pos + bitmap_font_metrics.FONT_WIDTH_STRIDE + 1) ≥ usub w pad then
              .ok { str := 8364 :: cs, x_pos := x_pos, screen := s }
            else blit_text_chars bitmap_font_metrics sz colour font_dots stride w pad y_pos cs
              x_pos s)
    ∧ sdl_rs90_blit_text16 bitmap_font_metrics false vid_osd16 6 6 [65, 8364, 65]
        ≠ .error .heap_out_of_bounds
    ∧ sdl_rs90_blit_text32 bitmap_font_metrics false vid_osd16 6 6 [65, 8364, 65]
        ≠ .error .heap_out_of_bounds :=
  blit_text_skips_unmapped bitmap_font_metrics false vid_osd16 font_dots 6 6 [65, 8364, 65]
    8364 rfl (by decide) (by decide)

/-! ### Text stays inside the surface -/

theorem px_coords (sz x y i j b : Nat) (hsz : 0 < sz) (hb : b < sz) (hx : x + i < 240) :
    (sz * ((y + j) * 240 + (x + i)) + b) / sz % 240 = x + i
    ∧ (sz * ((y + j) * 240 + (x + i)) + b) / sz / 240 = y + j := by
  have e0 : (sz * ((y + j) * 240 + (x + i)) + b) / sz = (y + j) * 240 + (x + i) := by
    rw [Nat.mul_add_div hsz, Nat.div_eq_of_lt hb, Nat.add_zero]
  rw [e0]
  constructor <;> omega

theorem blit_text_chars_in_bounds (fm : FontMetrics) (sz : Nat) (colour : Nat → Nat)
    (f : bitmapfont_lut_t) (pad y : Nat) (hsz : 0 < sz)
    (hfm : fm.FONT_WIDTH ≤ fm.FONT_WIDTH_STRIDE) (hmax : 255 ≤ f.glyph_max)
    (hpad : pad ≤ 120) (hy : y + fm.FONT_HEIGHT < 160) :
    ∀ (str : List Nat) (x : Nat) (s : SDL_Surface), s.pitch * s.h = sz * 38400 →
      x + fm.FONT_WIDTH_STRIDE + 1 < 4294967296 →
      ∃ st, blit_text_chars fm sz colour f 240 240 pad y str x s = .ok st
        ∧ st.screen.w = s.w ∧ st.screen.h = s.h ∧ st.screen.pitch = s.pitch
        ∧ ∀ a, st.screen.pixels a ≠ s.pixels a →
            x ≤ a / sz % 240 ∧ a / sz % 240 < 240 - pad
              ∧ y ≤ a / sz / 240 ∧ a / sz / 240 ≤ y + fm.FONT_HEIGHT := by
  intro str
  induction str with
  | nil =>
    intro x s _ _
    exact ⟨_, rfl, rfl, rfl, rfl, fun a ha => absurd rfl ha⟩
  | cons c cs ih =>
    intro x s hsize hxw
    by_cases hstop : c = 0 ∨ u32 (x + fm.FONT_WIDTH_STRIDE + 1) ≥ usub 240 pad
    · rw [blit_text_chars_stop fm sz colour f 240 240 pad y c cs x s hstop]
      exact ⟨_, rfl, rfl, rfl, rfl, fun a ha => absurd rfl ha⟩
    · have h0 : c ≠ 0 := fun h => hstop (Or.inl h)
      have hg : ¬ u32 (x + fm.FONT_WIDTH_STRIDE + 1) ≥ usub 240 pad :=
        fun h => hstop (Or.inr h)
      have hxb : x + fm.FONT_WIDTH_STRIDE + 1 < 240 - pad := by
        have hg' := hg
        simp only [u32, usub] at hg'
        omega
      have hx' : u32 (x + fm.FONT_WIDTH_STRIDE) = x + fm.FONT_WIDTH_STRIDE := by
        unfold u32; omega
      by_cases h32 : c = 32
      · subst h32
        rw [blit_text_chars_space fm sz colour f 240 240 pad y _ x s hg, hx']
        obtain ⟨st, hst, hw, hh, hp, hfr⟩ := ih (x + fm.FONT_WIDTH_STRIDE) s hsize (by omega)
        refine ⟨st, hst, hw, hh, hp, fun a ha => ?_⟩
        have := hfr a ha
        omega
      · by_cases hc : 256 ≤ ligature c
        · rw [blit_text_chars_skip fm sz colour f 240 240 pad y c cs x s hg hc]
          exact ih x s hsize hxw
        · rw [blit_text_chars_glyph fm sz colour f 240 240 pad y c cs x s h0 hg h32 hc,
            if_neg (by omega), hx']
          obtain ⟨s1, hgl, hD1, hD2, hDw, hDh, hDp⟩ :=
            blit_text_glyph_drawn fm sz colour (f.lut (ligature c)) x y s hsz hsize
              (by omega) hy
          rw [hgl]
          simp only [Except.bind]
          obtain ⟨st, hst, hw, hh, hp, hfr⟩ :=
            ih (x + fm.FONT_WIDTH_STRIDE) s1 (by rw [hDp, hDh]; exact hsize) (by omega)
          refine ⟨st, hst, hw.trans hDw, hh.trans hDh, hp.trans hDp, fun a ha => ?_⟩
          by_cases h1 : st.screen.pixels a = s1.pixels a
          · have hex : ∃ i j b, i < fm.FONT_WIDTH ∧ j ≤ fm.FONT_HEIGHT ∧ b < sz
                ∧ a = sz * ((y + j) * 240 + (x + i)) + b := by
              by_contra hne
              exact ha (h1.trans (hD2 a hne))
            obtain ⟨i, j, b, hi, hj, hb, rfl⟩ := hex
            obtain ⟨e1, e2⟩ := px_coords sz x y i j b hsz hb (by omega)
            rw [e1, e2]
            omega
          · have := hfr a h1
            omega

theorem blit_text_chars_consumed (fm : FontMetrics) (sz : Nat) (colour : Nat → Nat)
    (f : bitmapfont_lut_t) (stride w pad y : Nat) :
    ∀ (str : List Nat) (x : Nat) (s : SDL_Surface) (st : TextSt),
      blit_text_chars fm sz colour f stride w pad y str x s = .ok st →
      ∃ p, str = p ++ st.str
        ∧ blit_text_chars fm sz colour f stride w pad y p x s = .ok { st with str := [] } := by
  intro str
  induction str with
  | nil =>
    intro x s st h
    rw [blit_text_chars] at h
    rw [← Except.ok.inj h]
    exact ⟨[], rfl, rfl⟩
  | cons c cs ih =>
    intro x s st h
    by_cases hstop : c = 0 ∨ u32 (x + fm.FONT_WIDTH_STRIDE + 1) ≥ usub w pad
    · rw [blit_text_chars_stop fm sz colour f stride w pad y c cs x s hstop] at h
      rw [← Except.ok.inj h]
      exact ⟨[], rfl, rfl⟩
    · have h0 : c ≠ 0 := fun h => hstop (Or.inl h)
      have hg : ¬ u32 (x + fm.FONT_WIDTH_STRIDE + 1) ≥ usub w pad := fun h => hstop (Or.inr h)
      by_cases h32 : c = 32
      · subst h32
        rw [blit_text_chars_space fm sz colour f stride w pad y _ x s hg] at h
        obtain ⟨p, hp, hr⟩ := ih _ s st h
        refine ⟨32 :: p, by rw [hp]; rfl, ?_⟩
        rw [blit_text_chars_space fm sz colour f stride w pad y _ x s hg]
        exact hr
      · by_cases hc : 256 ≤ ligature c
        · rw [blit_text_chars_skip fm sz colour f stride w pad y c cs x s hg hc] at h
          obtain ⟨p, hp, hr⟩ := ih _ s st h
          refine ⟨c :: p, by rw [hp]; rfl, ?_⟩
          rw [blit_text_chars_skip fm sz colour f stride w pad y c p x s hg hc]
          exact hr
        · rw [blit_text_chars_glyph fm sz colour f stride w pad y c cs x s h0 hg h32 hc] at h
          by_cases hm : ligature c > f.glyph_max
          · rw [if_pos hm] at h
            exact absurd h (by simp)
          · rw [if_neg hm] at h
            cases hgl : blit_text_glyph fm sz colour (f.lut (ligature c)) stride x y s with
            | error e =>
              rw [hgl] at h
              exact absurd h (by simp [Except.bind])
            | ok s1 =>
              rw [hgl] at h
              simp only [Except.bind] at h
              obtain ⟨p, hp, hr⟩ := ih _ s1 st h
              refine ⟨c :: p, by rw [hp]; rfl, ?_⟩
              rw [blit_text_chars_glyph fm sz colour f stride w pad y c p x s h0 hg h32 hc,
                if_neg hm, hgl]
              simp only [Except.bind]
              exact hr

theorem blit_text_in_bounds_gen (fm : FontMetrics) (sz : Nat) (colour : Nat → Nat)
    (vid : sdl_rs90_video_t) (s : SDL_Surface) (f : bitmapfont_lut_t) (x y : Nat)
    (str : List Nat) (hsz : 0 < sz)
    (hfm : fm.FONT_WIDTH ≤ fm.FONT_WIDTH_STRIDE ∧ fm.FONT_WIDTH_STRIDE ≤ 240
      ∧ fm.FONT_HEIGHT ≤ 160)
    (hs : vid.screen = some s) (hsize : s.pitch * s.h = sz * 38400)
    (hmax : 255 ≤ f.glyph_max) (hpx : vid.frame_padding_x ≤ 120)
    (hpy : vid.frame_padding_y ≤ 80) (hx : x < 2147483648) (hy : y < 2147483648) :
    TextInBounds sz vid x (blit_text fm sz colour vid s f 240 240 160 x y str) := by
  unfold blit_text
  dsimp only
  have h80 : (160 >>> 1 : Nat) = 80 := rfl
  rw [h80]
  generalize hyp : (if y > 80 then usub y vid.frame_padding_y
    else u32 (y + vid.frame_padding_y)) = y_pos
  by_cases hg : u32 (y_pos + fm.FONT_HEIGHT + 1) ≥ usub 160 vid.frame_padding_y
  · rw [if_pos hg]
    exact ⟨s, s, hs, by rw [video_with_screen vid s hs], rfl, rfl, rfl,
      fun a ha => absurd rfl ha⟩
  · rw [if_neg hg]
    have hyb : y_pos + fm.FONT_HEIGHT + 1 < 160 - vid.frame_padding_y := by
      have hg' := hg
      simp only [usub, u32] at hyp hg'
      split_ifs at hyp <;> omega
    have hx' : u32 (x + vid.frame_padding_x) = x + vid.frame_padding_x := by
      unfold u32; omega
    rw [hx']
    obtain ⟨st, hst, hw, hh, hp, hfr⟩ :=
      blit_text_chars_in_bounds fm sz colour f vid.frame_padding_x y_pos hsz hfm.1 hmax hpx
        (by omega) str (x + vid.frame_padding_x) s hsize (by omega)
    rw [hst]
    refine ⟨s, st.screen, hs, rfl, hw, hh, hp, fun a ha => ?_⟩
    have := hfr a ha
    omega

theorem forLoop_error_first {σ : Type} (n : Nat) (body : Nat → σ → Except Fault σ) (s : σ)
    (e : Fault) (h : body 0 s = .error e) : forLoop (n + 1) body s = .error e := by
  induction n with
  | zero => rw [forLoop_succ, forLoop_zero]; exact h
  | succ n ih => rw [forLoop_succ, ih]; rfl

theorem blit_text16_unfold (fm : FontMetrics) (msb_first : Bool) (vid : sdl_rs90_video_t)
    (s : SDL_Surface) (f : bitmapfont_lut_t) (x y : Nat) (str : List Nat)
    (hs : vid.screen = some s) (hf : vid.osd_font = some f) :
    sdl_rs90_blit_text16 fm msb_first vid x y str
      = blit_text fm 2 (byte16 msb_first vid.font_colour16) vid s f
          (u16 (s.pitch >>> 1)) (u16 s.w) (u16 s.h) x y str := by
  simp only [sdl_rs90_blit_text16, hs, hf]

theorem blit_text32_unfold (fm : FontMetrics) (msb_first : Bool) (vid : sdl_rs90_video_t)
    (s : SDL_Surface) (f : bitmapfont_lut_t) (x y : Nat) (str : List Nat)
    (hs : vid.screen = some s) (hf : vid.osd_font = some f) :
    sdl_rs90_blit_text32 fm msb_first vid x y str
      = blit_text fm 4 (byte32 msb_first vid.font_colour32) vid s f
          (u32 (s.pitch >>> 2)) (u32 s.w) (u32 s.h) x y str := by
  simp only [sdl_rs90_blit_text32, hs, hf]

/-- Claim C19, counterexample.  On the 240x160 16-bit surface without padding,
compositing the one-glyph string `A` at the origin `(6, 4294967291)` passes
both bounds checks, because `y_pos + FONT_HEIGHT + 1` wraps around to 6, and
the first pixel of the glyph is written outside the surface. -/
theorem blit_text16_origin_wraps_around :
    sdl_rs90_blit_text16 bitmap_font_metrics false vid_osd16 6 4294967291 [65]
      = .error .surface_out_of_bounds := by
  have hpix : blit_text_pixel bitmap_font_metrics 2 (byte16 false 65535) (font_dots.lut 65)
      240 (u32 (u32 ((4294967291 + 0) * 240) + 6)) 0 0
        { screen_rgb565 with pixels := fun _ => 170 } = .error .surface_out_of_bounds := rfl
  have hrow : blit_text_row bitmap_font_metrics 2 (byte16 false 65535) (font_dots.lut 65)
      240 6 4294967291 0 { screen_rgb565 with pixels := fun _ => 170 }
        = .error .surface_out_of_bounds :=
    forLoop_error_first 4 _ _ _ hpix
  have hglyph : blit_text_glyph bitmap_font_metrics 2 (byte16 false 65535) (font_dots.lut 65)
      240 6 4294967291 { screen_rgb565 with pixels := fun _ => 170 }
        = .error .surface_out_of_bounds :=
    forLoop_error_first 9 _ _ _ hrow
  have hchars : blit_text_chars bitmap_font_metrics 2 (byte16 false 65535) font_dots
      240 240 0 4294967291 [65] 6 { screen_rgb565 with pixels := fun _ => 170 }
        = .error .surface_out_of_bounds := by
    rw [blit_text_chars_glyph bitmap_font_metrics 2 _ font_dots 240 240 0 4294967291 65 [] 6 _
      (by decide) (by decide) (by decide) (by decide), if_neg (by decide),
      show ligature 65 = 65 from rfl, hglyph]
    rfl
  rw [blit_text16_unfold bitmap_font_metrics false vid_osd16
    { screen_rgb565 with pixels := fun _ => 170 } font_dots 6 4294967291 [65] rfl rfl]
  unfold blit_text
  dsimp only
  rw [if_neg (by decide)]
  show Except.map _ (blit_text_chars bitmap_font_metrics 2 (byte16 false 65535) font_dots
      240 240 0 4294967291 [65] 6 { screen_rgb565 with pixels := fun _ => 170 }) = _
  rw [hchars]
  rfl

/-- Claim C19, amended.  On the 240x160 surface (16-bit state `vid16`, 32-bit
state `vid32`) with a font of 256 glyphs or more and padding at most 120
columns and 80 rows, for glyph cells with
`FONT_WIDTH ≤ FONT_WIDTH_STRIDE ≤ 240` and `FONT_HEIGHT ≤ 160`, every string and
every origin `(x, y)` with `x < 2^31` and `y < 2^31` (no unsigned wrap-around
of the cursor): `sdl_rs90_blit_text16` / `sdl_rs90_blit_text32` complete
without a write outside the surface, and every byte they change belongs to a
pixel of column `< 240 - frame_padding_x` and row `< 160 - frame_padding_y`;
and whenever the character loop completes, the string is a prefix `p`
followed by the part left unread, and the loop run on `p` alone reads all of
`p` and leaves the same cursor and surface. -/
theorem blit_text_in_bounds (fm : FontMetrics) (msb_first : Bool)
    (vid16 vid32 : sdl_rs90_video_t) (x y : Nat) (str : List Nat)
    (hfm : fm.FONT_WIDTH ≤ fm.FONT_WIDTH_STRIDE ∧ fm.FONT_WIDTH_STRIDE ≤ 240
      ∧ fm.FONT_HEIGHT ≤ 160)
    (h16 : TextReady vid16 480) (h32 : TextReady vid32 960)
    (hx : x < 2147483648) (hy : y < 2147483648) :
    TextInBounds 2 vid16 x (sdl_rs90_blit_text16 fm msb_first vid16 x y str)
    ∧ TextInBounds 4 vid32 x (sdl_rs90_blit_text32 fm msb_first vid32 x y str)
    ∧ ∀ (sz : Nat) (colour : Nat → Nat) (f : bitmapfont_lut_t) (stride w pad y_pos x_pos : Nat)
        (s : SDL_Surface) (st : TextSt),
        blit_text_chars fm sz colour f stride w pad y_pos str x_pos s = .ok st →
        ∃ p, str = p ++ st.str
          ∧ blit_text_chars fm sz colour f stride w pad y_pos p x_pos s
              = .ok { st with str := [] } := by
  refine ⟨?_, ?_, ?_⟩
  · obtain ⟨s, f, hs, hf, hw, hh, hp, hmax, hpx, hpy⟩ := h16
    rw [blit_text16_unfold fm msb_first vid16 s f x y str hs hf, hw, hh, hp]
    exact blit_text_in_bounds_gen fm 2 _ vid16 s f x y str (by omega) hfm hs
      (by rw [hp, hh]) hmax hpx hpy hx hy
  · obtain ⟨s, f, hs, hf, hw, hh, hp, hmax, hpx, hpy⟩ := h32
    rw [blit_text32_unfold fm msb_first vid32 s f x y str hs hf, hw, hh, hp]
    exact blit_text_in_bounds_gen fm 4 _ vid32 s f x y str (by omega) hfm hs
      (by rw [hp, hh]) hmax hpx hpy hx hy
  · intro sz colour f stride w pad y_pos x_pos s st h
    exact blit_text_chars_consumed fm sz colour f stride w pad y_pos str x_pos s st h

/-- Witness of C19: the string `A`, space, `A` at the origin
`(6, 6)` of the grey surfaces. -/
theorem blit_text_in_bounds_witness :
    TextInBounds 2 vid_osd16 6
      (sdl_rs90_blit_text16 bitmap_font_metrics false vid_osd16 6 6 [65, 32, 65])
    ∧ TextInBounds 4 vid_osd32 6
      (sdl_rs90_blit_text32 bitmap_font_metrics false vid_osd32 6 6 [65, 32, 65])
    ∧ ∀ (sz : Nat) (colour : Nat → Nat) (f : bitmapfont_lut_t) (stride w pad y_pos x_pos : Nat)
        (s : SDL_Surface) (st : TextSt),
        blit_text_chars bitmap_font_metrics sz colour f stride w pad y_pos [65, 32, 65] x_pos s
          = .ok st →
        ∃ p, [65, 32, 65] = p ++ st.str
          ∧ blit_text_chars bitmap_font_metrics sz colour f stride w pad y_pos p x_pos s
              = .ok { st with str := [] } :=
  blit_text_in_bounds bitmap_font_metrics false vid_osd16 vid_osd32 6 6 [65, 32, 65]
    (by decide) ⟨_, _, rfl, rfl, rfl, rfl, rfl, by decide, by decide, by decide⟩
    ⟨_, _, rfl, rfl, rfl, rfl, rfl, by decide, by decide, by decide⟩ (by decide) (by decide)

/-! ### One glyph through the compositor -/

theorem blit_text_one_glyph (fm : FontMetrics) (sz : Nat) (colour : Nat → Nat)
    (vid : sdl_rs90_video_t) (s : SDL_Surface) (f : bitmapfont_lut_t)
    (x y c x_pos y_pos : Nat) (hsz : 0 < sz) (hsize : s.pitch * s.h = sz * 38400)
    (hxp : u32 (x + vid.frame_padding_x) = x_pos)
    (hyp : (if y > 160 >>> 1 then usub y vid.frame_padding_y
      else u32 (y + vid.frame_padding_y)) = y_pos)
    (hyg : ¬ u32 (y_pos + fm.FONT_HEIGHT + 1) ≥ usub 160 vid.frame_padding_y)
    (hxg : ¬ u32 (x_pos + fm.FONT_WIDTH_STRIDE + 1) ≥ usub 240 vid.frame_padding_x)
    (hc0 : c ≠ 0) (hc32 : c ≠ 32) (hlig : ligature c = c) (hc : c ≤ 255)
    (hmax : c ≤ f.glyph_max) (hx : x_pos + fm.FONT_WIDTH ≤ 240)
    (hy : y_pos + fm.FONT_HEIGHT < 160) :
    blit_text fm sz colour vid s f 240 240 160 x y [c]
      = .ok { vid with screen := some { s with
          pixels := glyph_pixels fm sz colour (f.lut c) x_pos y_pos s.pixels
            fm.FONT_HEIGHT 0 } } := by
  unfold blit_text
  dsimp only
  rw [hxp, hyp, if_neg hyg,
    blit_text_chars_glyph fm sz colour f 240 240 vid.frame_padding_x y_pos c [] x_pos s hc0 hxg
      hc32 (by rw [hlig]; omega), hlig, if_neg (by omega),
    blit_text_glyph_ok fm sz colour (f.lut c) x_pos y_pos s hsz hsize hx hy]
  rfl

/-- Claim C18.  The glyph of `A` in `font_dots` has the single set pixel
`(0, 0)`.  Composited at the origin `(6, 6)` of a grey surface (every byte
170) with a white font colour, in either pixel format, it leaves the font
colour in pixel `(6, 6)` and the shadow colour 0 in pixel `(6, 7)` below it,
but the pixel `(7, 6)` to its right keeps the grey it had: no right shadow is
drawn. -/
theorem blit_text_draws_no_right_shadow :
    (∃ vid' s', sdl_rs90_blit_text16 bitmap_font_metrics false vid_osd16 6 6 [65] = .ok vid'
      ∧ vid'.screen = some s'
      ∧ (∀ b, b < 2 → s'.pixels (2 * (6 * 240 + 6) + b) = 255)
      ∧ (∀ b, b < 2 → s'.pixels (2 * (7 * 240 + 6) + b) = 0)
      ∧ (∀ b, b < 2 → s'.pixels (2 * (6 * 240 + 7) + b) = 170))
    ∧ (∃ vid' s', sdl_rs90_blit_text32 bitmap_font_metrics false vid_osd32 6 6 [65] = .ok vid'
      ∧ vid'.screen = some s'
      ∧ (∀ b, b < 4 → s'.pixels (4 * (6 * 240 + 6) + b) = 255)
      ∧ (∀ b, b < 4 → s'.pixels (4 * (7 * 240 + 6) + b) = 0)
      ∧ (∀ b, b < 4 → s'.pixels (4 * (6 * 240 + 7) + b) = 170)) := by
  constructor
  · have h := (blit_text16_unfold bitmap_font_metrics false vid_osd16
        { screen_rgb565 with pixels := fun _ => 170 } font_dots 6 6 [65] rfl rfl).trans
      (blit_text_one_glyph bitmap_font_metrics 2 _ vid_osd16 _ font_dots 6 6 65 6 6
        (by decide) rfl rfl rfl (by decide) (by decide) (by decide) (by decide) rfl
        (by decide) (by decide) (by decide) (by decide))
    refine ⟨_, _, h, rfl, ?_, ?_, ?_⟩
    · intro b hb
      interval_cases b <;> rfl
    · intro b hb
      interval_cases b <;> rfl
    · intro b hb
      interval_cases b <;> rfl
  · have h := (blit_text32_unfold bitmap_font_metrics false vid_osd32
        { screen_xrgb8888 with pixels := fun _ => 170 } font_dots 6 6 [65] rfl rfl).trans
      (blit_text_one_glyph bitmap_font_metrics 4 _ vid_osd32 _ font_dots 6 6 65 6 6
        (by decide) rfl rfl rfl (by decide) (by decide) (by decide) (by decide) rfl
        (by decide) (by decide) (by decide) (by decide))
    refine ⟨_, _, h, rfl, ?_, ?_, ?_⟩
    · intro b hb
      interval_cases b <;> rfl
    · intro b hb
      interval_cases b <;> rfl
    · intro b hb
      interval_cases b <;> rfl

/-- Claim C20.  After the output has been set for a 240x8 frame the padding
is 76 rows, so rows 0 to 75 are padding.  The OSD text of `sdl_rs90_gfx_frame`
has the origin `y = 160 - (FONT_HEIGHT + FONT_WIDTH_STRIDE) = 144`, which the
compositor moves up to row `144 - 76 = 68`; the bounds check passes, and the
one-glyph message `A` changes the pixel `(6, 68)`, inside the top padding,
from 0 to the font colour. -/
theorem osd_text_drawn_in_padding :
    vid_low_frame.frame_padding_y = 76
    ∧ (∃ s, vid_low_frame.screen = some s ∧ s.pixels (2 * (68 * 240 + 6)) = 0)
    ∧ ∃ vid' s',
        gfx_frame_osd bitmap_font_metrics false vid_low_frame (some [65]) = .ok vid'
        ∧ sdl_rs90_blit_text16 bitmap_font_metrics false vid_low_frame 6 144 [65] = .ok vid'
        ∧ vid'.screen = some s' ∧ s'.pixels (2 * (68 * 240 + 6)) = 255 := by
  have h := (blit_text16_unfold bitmap_font_metrics false vid_low_frame
      { screen_rgb565 with pixels := fun j =>
          if j < (u32 (screen_rgb565.pitch * screen_rgb565.h)) then 0
          else screen_rgb565.pixels j }
      font_dots 6 144 [65] rfl rfl).trans
    (blit_text_one_glyph bitmap_font_metrics 2 _ vid_low_frame _ font_dots 6 144 65 6 68
      (by decide) rfl rfl rfl (by decide) (by decide) (by decide) (by decide) rfl
      (by decide) (by decide) (by decide) (by decide))
  exact ⟨rfl, ⟨_, rfl, rfl⟩, _, _, h, h, rfl, rfl⟩

/-- Claim C13.  After the display has rejected a mode request,
`sdl_rs90_set_output` leaves `mode_valid = false` and a null surface.  The
next `sdl_rs90_gfx_frame` call for a frame of the same size, with the menu
inactive and no OSD message, does not complete: it dereferences the null
surface, as does `sdl_rs90_blit_video_mode_error_msg`, the function meant to
draw the diagnostic message. -/
theorem gfx_frame_after_rejected_mode (fm : FontMetrics) (msb_first : Bool)
    (SDL_SetVideoMode : VideoModeSetter) (error_msg : List Nat) :
    vid_rejected.mode_valid = false ∧ vid_rejected.screen = none
    ∧ vid_rejected.menu_active = false
    ∧ sdl_rs90_blit_video_mode_error_msg fm msb_first error_msg vid_rejected
        = .error .null_deref
    ∧ sdl_rs90_gfx_frame fm msb_first SDL_SetVideoMode error_msg (some vid_rejected)
        (some src_ramp) 256 224 512 none false 0 = .error .null_deref :=
  ⟨rfl, rfl, rfl, rfl, rfl⟩

/-! ### The font colour -/

/-- Claim C24, counterexample.  For white, the default message colour
`(255, 255, 255)`, `sdl_rs90_init_font_color` stores `0xFFDF` in
`font_colour16`, whereas the packing
`((r >> 3) << 11) | ((g >> 2) << 5) | (b >> 3)` of white is `0xFFFF`. -/
theorem init_font_color_white_is_not_ffff :
    (sdl_rs90_init_font_color vid_rgb565 255 255 255).font_colour16 = 0xFFDF
    ∧ ((255 >>> 3) <<< 11) ||| ((255 >>> 2) <<< 5) ||| (255 >>> 3) = 0xFFFF
    ∧ (sdl_rs90_init_font_color vid_rgb565 255 255 255).font_colour16
        ≠ ((255 >>> 3) <<< 11) ||| ((255 >>> 2) <<< 5) ||| (255 >>> 3) := by
  refine ⟨rfl, by decide, ?_⟩
  show (65503 : Nat) ≠ _
  decide

/-- Claim C24, amended.  From 8-bit channels `(r, g, b)`,
`sdl_rs90_init_font_color` stores the XRGB8888 packing
`(r << 16) | (g << 8) | b` in `font_colour32`, and in `font_colour16` the
16-bit value `((r >> 3) << 11) | ((g >> 3) << 6) | (b >> 3)`: five bits per
channel, those of green in the upper five bits of the 6-bit green field of
RGB565, so that bit 5 is always clear. -/
theorem init_font_color_packing (vid : sdl_rs90_video_t) (r g b : Nat)
    (hr : r < 256) (hg : g < 256) (hb : b < 256) :
    (sdl_rs90_init_font_color vid r g b).font_colour32 = (r <<< 16) ||| (g <<< 8) ||| b
    ∧ (sdl_rs90_init_font_color vid r g b).font_colour16
        = ((r >>> 3) <<< 11) ||| ((g >>> 3) <<< 6) ||| (b >>> 3)
    ∧ (sdl_rs90_init_font_color vid r g b).font_colour16 < 65536
    ∧ (sdl_rs90_init_font_color vid r g b).font_colour16.testBit 5 = false := by
  have hR : (r >>> 3) <<< 11 < 2 ^ 16 := by
    rw [Nat.shiftLeft_eq, Nat.shiftRight_eq_div_pow]; omega
  have hG : (g >>> 3) <<< 6 < 2 ^ 16 := by
    rw [Nat.shiftLeft_eq, Nat.shiftRight_eq_div_pow]; omega
  have hB : b >>> 3 < 2 ^ 16 := by
    rw [Nat.shiftRight_eq_div_pow]; omega
  have hB5 : b >>> 3 < 2 ^ 5 := by
    rw [Nat.shiftRight_eq_div_pow]; omega
  have hlt : ((r >>> 3) <<< 11) ||| ((g >>> 3) <<< 6) ||| (b >>> 3) < 2 ^ 16 :=
    Nat.or_lt_two_pow (Nat.or_lt_two_pow hR hG) hB
  have h16 : (sdl_rs90_init_font_color vid r g b).font_colour16
      = ((r >>> 3) <<< 11) ||| ((g >>> 3) <<< 6) ||| (b >>> 3) := by
    show u16 _ = _
    unfold u16
    exact Nat.mod_eq_of_lt hlt
  refine ⟨rfl, h16, by rw [h16]; exact hlt, ?_⟩
  rw [h16]
  simp only [Nat.testBit_or, Nat.testBit_shiftLeft, Nat.testBit_lt_two_pow hB5]
  simp

/-- Witness of C24 (amended): white packs to `0x00FFFFFF` and `0xFFDF`. -/
theorem init_font_color_packing_witness :
    (sdl_rs90_init_font_color vid_rgb565 255 255 255).font_colour32 = 0x00FFFFFF
    ∧ (sdl_rs90_init_font_color vid_rgb565 255 255 255).font_colour16 = 0xFFDF
    ∧ (sdl_rs90_init_font_color vid_rgb565 255 255 255).font_colour16 < 65536
    ∧ (sdl_rs90_init_font_color vid_rgb565 255 255 255).font_colour16.testBit 5 = false :=
  init_font_color_packing vid_rgb565 255 255 255 (by decide) (by decide) (by decide)

/-! ### Bounds and identity of the table -/

/-- Claim C25.  For `W`, `H` in `[1, 65535]` and `P` in `[1, 131071]` with
`W ≤ P >> 1`, and when the allocation is granted,
`sdl_rs90_generate_scaling_table(W, H, P)` completes and every entry of its
table is at most `(H - 1) * (P >> 1) + (W - 1)`, hence smaller than
`H * (P >> 1)`; and for the tight stride `2 * W` every entry of the table
built for `(W, H, 2 * W)` is smaller than `W * H`. -/
theorem scaling_table_entries_within_stride (msb_first : Bool) (vid : sdl_rs90_video_t)
    (W H P : Nat) (hW : 1 ≤ W ∧ W ≤ 65535) (hH : 1 ≤ H ∧ H ≤ 65535)
    (hP : 1 ≤ P ∧ P ≤ 131071) (hstride : W ≤ P >>> 1)
    (hg : vid.heap.grants vid.heap.calloc_calls = true) :
    (∃ vid' t, sdl_rs90_generate_scaling_table msb_first vid W H P = .ok vid'
      ∧ vid'.scaling_table = some t
      ∧ ∀ k, k < 240 * 160 → ∃ e, t.load32 msb_first (4 * k) = .ok e
          ∧ e ≤ (H - 1) * (P >>> 1) + (W - 1) ∧ e < H * (P >>> 1))
    ∧ (∃ vid' t, sdl_rs90_generate_scaling_table msb_first vid W H (2 * W) = .ok vid'
      ∧ vid'.scaling_table = some t
      ∧ ∀ k, k < 240 * 160 → ∃ e, t.load32 msb_first (4 * k) = .ok e ∧ e < W * H) := by
  have hH' : H = (H - 1) + 1 := by omega
  constructor
  · obtain ⟨t, h1, h2⟩ := generate_scaling_table_ok msb_first vid W H P hg
    refine ⟨_, t, h1, rfl, ?_⟩
    intro k hk
    have hsz : 4 * k + 4 ≤ t.size := by rw [h2.1]; omega
    have h := scaling_entry_le W H P k hW.1 hH.1 (by omega)
    have hu : u16 (P >>> 1) = P >>> 1 := by
      unfold u16
      simp only [Nat.shiftRight_eq_div_pow, pow_one]
      omega
    rw [hu] at h
    refine ⟨scaling_entry W H P k, ?_, h, ?_⟩
    · rw [Block.load32, if_pos hsz,
        table_filled_peek32 msb_first _ 38400 t h2 k (by omega) (scaling_entry_lt _ _ _ _)]
    · have he : H * (P >>> 1) = (H - 1) * (P >>> 1) + (P >>> 1) := by
        rw [← Nat.succ_mul, Nat.succ_eq_add_one, ← hH']
      omega
  · obtain ⟨t, h1, h2⟩ := generate_scaling_table_ok msb_first vid W H (2 * W) hg
    refine ⟨_, t, h1, rfl, ?_⟩
    intro k hk
    have hsz : 4 * k + 4 ≤ t.size := by rw [h2.1]; omega
    have h := scaling_entry_le W H (2 * W) k hW.1 hH.1 (by omega)
    have hu : u16 ((2 * W) >>> 1) = W := by
      unfold u16
      simp only [Nat.shiftRight_eq_div_pow, pow_one]
      omega
    rw [hu] at h
    refine ⟨scaling_entry W H (2 * W) k, ?_, ?_⟩
    · rw [Block.load32, if_pos hsz,
        table_filled_peek32 msb_first _ 38400 t h2 k (by omega) (scaling_entry_lt _ _ _ _)]
    · have he : W * H = (H - 1) * W + W := by
        rw [← Nat.succ_mul, Nat.succ_eq_add_one, ← hH', Nat.mul_comm]
      omega

/-- Witness of C25: the 256x224 frame with the padded stride 1024 and with the
tight stride 512. -/
theorem scaling_table_entries_within_stride_witness :
    (∃ vid' t, sdl_rs90_generate_scaling_table false vid_rgb565 256 224 1024 = .ok vid'
      ∧ vid'.scaling_table = some t
      ∧ ∀ k, k < 240 * 160 → ∃ e, t.load32 false (4 * k) = .ok e
          ∧ e ≤ (224 - 1) * (1024 >>> 1) + (256 - 1) ∧ e < 224 * (1024 >>> 1))
    ∧ (∃ vid' t, sdl_rs90_generate_scaling_table false vid_rgb565 256 224 (2 * 256) = .ok vid'
      ∧ vid'.scaling_table = some t
      ∧ ∀ k, k < 240 * 160 → ∃ e, t.load32 false (4 * k) = .ok e ∧ e < 256 * 224) :=
  scaling_table_entries_within_stride false vid_rgb565 256 224 1024 (by decide) (by decide)
    (by decide) (by decide) rfl

theorem scaling_entry_native (k : Nat) (hk : k < 38400) : scaling_entry 240 160 480 k = k := by
  have h := (scaling_entry_exact 240 160 480 (k / 240) (k % 240) (by decide) (by decide)
    (by decide) (by omega) (by omega)).1
  have e : k / 240 * 240 + k % 240 = k := by omega
  rw [e] at h
  rw [h]
  simp only [Nat.shiftLeft_eq, Nat.shiftRight_eq_div_pow, Nat.reducePow, Nat.reduceMul,
    Nat.reduceDiv]
  omega

/-! ### Upscaling reaches every source pixel -/

theorem scaling_entry_split (W H P k : Nat) :
    scaling_entry W H P k
      = u32 (u32 (source_row H (k / 240) * u16 (P >>> 1)) + source_col W (k % 240)) := rfl

theorem source_col_eq (W c : Nat) (hW : W ≤ 240) (hc : c < 240) :
    source_col W c = c * (W * 65536 / 240) / 65536 := by
  simp only [source_col, u32, SDL_RS90_WIDTH, Nat.shiftLeft_eq, Nat.shiftRight_eq_div_pow,
    Nat.reducePow]
  have hx : W * 65536 / 240 ≤ 65536 := by omega
  have hm : W * 65536 / 240 * c ≤ 65536 * 239 := Nat.mul_le_mul hx (by omega)
  have m1 : W * 65536 % 4294967296 = W * 65536 := Nat.mod_eq_of_lt (by omega)
  have m2 : W * 65536 / 240 % 4294967296 = W * 65536 / 240 := Nat.mod_eq_of_lt (by omega)
  have m3 : W * 65536 / 240 * c % 4294967296 = W * 65536 / 240 * c :=
    Nat.mod_eq_of_lt (by omega)
  rw [m1, m2, m3, Nat.mul_comm]

theorem source_row_eq (H r : Nat) (hH : H ≤ 160) (hr : r < 160) :
    source_row H r = r * (H * 65536 / 160) / 65536 := by
  simp only [source_row, u32, SDL_RS90_HEIGHT, Nat.shiftLeft_eq, Nat.shiftRight_eq_div_pow,
    Nat.reducePow]
  have hx : H * 65536 / 160 ≤ 65536 := by omega
  have hm : r * (H * 65536 / 160) ≤ 159 * 65536 := Nat.mul_le_mul (by omega) hx
  have m1 : H * 65536 % 4294967296 = H * 65536 := Nat.mod_eq_of_lt (by omega)
  have m2 : H * 65536 / 160 % 4294967296 = H * 65536 / 160 := Nat.mod_eq_of_lt (by omega)
  have m3 : r * (H * 65536 / 160) % 4294967296 = r * (H * 65536 / 160) :=
    Nat.mod_eq_of_lt (by omega)
  rw [m1, m2, m3]

/-- A map on the naturals that starts at 0 and never rises by more than one
takes every value up to the one it has at `n`, at an argument `≤ n`. -/
theorem steps_onto (g : Nat → Nat) (h0 : g 0 = 0) (hstep : ∀ c, g (c + 1) ≤ g c + 1) :
    ∀ n s, s ≤ g n → ∃ c, c ≤ n ∧ g c = s := by
  intro n
  induction n with
  | zero => intro s hs; exact ⟨0, Nat.le_refl 0, by omega⟩
  | succ n ih =>
    intro s hs
    by_cases h : s ≤ g n
    · obtain ⟨c, hc, e⟩ := ih s h
      exact ⟨c, by omega, e⟩
    · exact ⟨n + 1, Nat.le_refl _, by have := hstep n; omega⟩

/-- The fixed-point map `c ↦ (c * x) >> 16` with a step `x ≤ 1.0` is monotone
and takes every value up to the one it has at `n`. -/
theorem fixed_point_map (x : Nat) (hx : x ≤ 65536) :
    (∀ c c', c ≤ c' → c * x / 65536 ≤ c' * x / 65536)
    ∧ ∀ n s, s ≤ n * x / 65536 → ∃ c, c ≤ n ∧ c * x / 65536 = s := by
  constructor
  · intro c c' h
    exact Nat.div_le_div_right (Nat.mul_le_mul_right x h)
  · refine steps_onto (fun c => c * x / 65536) (by simp) ?_
    intro c
    show (c + 1) * x / 65536 ≤ c * x / 65536 + 1
    rw [Nat.add_mul, Nat.one_mul]
    generalize c * x = t
    omega

/-- Claim C27.  For every `W` in `[1, 240]` the map
`c ↦ (c * x_step) >> 16` of `sdl_rs90_generate_scaling_table`, with
`x_step = (W << 16) / 240`, is non-decreasing on `c < 240` and its image is
exactly `{0, ..., W - 1}`; for every `H` in `[1, 160]` the map
`r ↦ (r * y_step) >> 16`, with `y_step = (H << 16) / 160`, is non-decreasing on
`r < 160` and its image is exactly `{0, ..., H - 1}`.  These are the two maps
the table entries are made of. -/
theorem upscaling_keeps_every_source_pixel (W H : Nat) (hW : 1 ≤ W ∧ W ≤ 240)
    (hH : 1 ≤ H ∧ H ≤ 160) :
    (∀ c c', c ≤ c' → c' < 240 → source_col W c ≤ source_col W c')
    ∧ (∀ c, c < 240 → source_col W c < W)
    ∧ (∀ s, s < W → ∃ c, c < 240 ∧ source_col W c = s)
    ∧ (∀ r r', r ≤ r' → r' < 160 → source_row H r ≤ source_row H r')
    ∧ (∀ r, r < 160 → source_row H r < H)
    ∧ (∀ s, s < H → ∃ r, r < 160 ∧ source_row H r = s)
    ∧ ∀ P k, scaling_entry W H P k
        = u32 (u32 (source_row H (k / 240) * u16 (P >>> 1)) + source_col W (k % 240)) := by
  have hx : W * 65536 / 240 ≤ 65536 := by omega
  have hy : H * 65536 / 160 ≤ 65536 := by omega
  have hlx : 239 * (W * 65536 / 240) / 65536 = W - 1 := by
    by_cases h : W = 240
    · rw [h]
    · omega
  have hly : 159 * (H * 65536 / 160) / 65536 = H - 1 := by
    by_cases h : H = 160
    · rw [h]
    · omega
  obtain ⟨mx, ox⟩ := fixed_point_map (W * 65536 / 240) hx
  obtain ⟨my, oy⟩ := fixed_point_map (H * 65536 / 160) hy
  refine ⟨?_, ?_, ?_, ?_, ?_, ?_, fun P k => scaling_entry_split W H P k⟩
  · intro c c' h h'
    rw [source_col_eq W c hW.2 (by omega), source_col_eq W c' hW.2 h']
    exact mx c c' h
  · intro c hc
    rw [source_col_eq W c hW.2 hc]
    have := mx c 239 (by omega)
    omega
  · intro s hs
    obtain ⟨c, hc, e⟩ := ox 239 s (by omega)
    exact ⟨c, by omega, by rw [source_col_eq W c hW.2 (by omega)]; exact e⟩
  · intro r r' h h'
    rw [source_row_eq H r hH.2 (by omega), source_row_eq H r' hH.2 h']
    exact my r r' h
  · intro r hr
    rw [source_row_eq H r hH.2 hr]
    have := my r 159 (by omega)
    omega
  · intro s hs
    obtain ⟨r, hr, e⟩ := oy 159 s (by omega)
    exact ⟨r, by omega, by rw [source_row_eq H r hH.2 (by omega)]; exact e⟩

/-- Witness of C27: a 160x144 source. -/
theorem upscaling_keeps_every_source_pixel_witness :
    (∀ c c', c ≤ c' → c' < 240 → source_col 160 c ≤ source_col 160 c')
    ∧ (∀ c, c < 240 → source_col 160 c < 160)
    ∧ (∀ s, s < 160 → ∃ c, c < 240 ∧ source_col 160 c = s)
    ∧ (∀ r r', r ≤ r' → r' < 160 → source_row 144 r ≤ source_row 144 r')
    ∧ (∀ r, r < 160 → source_row 144 r < 144)
    ∧ (∀ s, s < 144 → ∃ r, r < 160 ∧ source_row 144 r = s)
    ∧ ∀ P k, scaling_entry 160 144 P k
        = u32 (u32 (source_row 144 (k / 240) * u16 (P >>> 1)) + source_col 160 (k % 240)) :=
  upscaling_keeps_every_source_pixel 160 144 (by decide) (by decide)

/-! ### Letterboxing of the 32-bit blitter -/

theorem set_output_screen_cleared (SDL_SetVideoMode : VideoModeSetter)
    (vid : sdl_rs90_video_t) (W H : Nat) (rgb32 : Bool) (screen : SDL_Surface)
    (hacc : SDL_SetVideoMode 240 160 (if rgb32 then 32 else 16) vid.vsync = some screen)
    (hdim : 240 ≠ W ∨ 160 ≠ H) :
    (sdl_rs90_set_output SDL_SetVideoMode vid W H rgb32).screen
      = some { screen with pixels := fun j =>
          if j < (u32 (screen.pitch * screen.h)) then 0 else screen.pixels j } := by
  unfold sdl_rs90_set_output
  simp only [SDL_RS90_WIDTH, SDL_RS90_HEIGHT]
  rw [hacc]
  simp only [if_pos hdim]

theorem blit32_pixels_rect (src p0 : Nat → Nat) (pad_y pad_x wt stride ht : Nat)
    (hx : pad_x + wt ≤ 240) :
    (∀ y x b, y < ht → x < wt → b < 4 →
      blit32_pixels src p0 (pad_y * 960 + 4 * pad_x) wt stride ht
          ((pad_y + y) * 960 + 4 * (pad_x + x) + b)
        = src (4 * (y * stride + x) + b))
    ∧ (∀ j, (¬ ∃ y x b, y < ht ∧ x < wt ∧ b < 4
          ∧ j = (pad_y + y) * 960 + 4 * (pad_x + x) + b) →
        blit32_pixels src p0 (pad_y * 960 + 4 * pad_x) wt stride ht j = p0 j) := by
  constructor
  · intro y x b hy hxw hb
    simp only [blit32_pixels]
    have e0 : (pad_y + y) * 960 + 4 * (pad_x + x) + b - (pad_y * 960 + 4 * pad_x)
        = 960 * y + (4 * x + b) := by
      rw [Nat.add_mul]; omega
    have e1 : (960 * y + (4 * x + b)) / 960 = y := by omega
    have e2 : (960 * y + (4 * x + b)) % 960 = 4 * x + b := by omega
    rw [e0, e1, e2, if_pos ⟨by rw [Nat.add_mul]; omega, hy, by omega⟩]
    congr 1
    ring
  · intro j hj
    simp only [blit32_pixels]
    rw [if_neg]
    rintro ⟨h1, h2, h3⟩
    apply hj
    refine ⟨(j - (pad_y * 960 + 4 * pad_x)) / 960,
      (j - (pad_y * 960 + 4 * pad_x)) % 960 / 4,
      (j - (pad_y * 960 + 4 * pad_x)) % 960 % 4, h2, by omega, by omega, ?_⟩
    rw [Nat.add_mul]
    omega

/-- Claim C23, counterexample.  After `sdl_rs90_set_output(160, 144, true)` the
padding is 40 columns and 8 rows.  A 160x144 frame whose row stride is 960
bytes (`≥ 4 * 160`), the pitch of the surface, takes the bulk copy, which
starts at column 0 of row 8: the pixel `(8, 40)` does not hold source pixel
`(0, 0)`, and the pixel `(8, 0)`, outside the content rectangle, is not zero. -/
theorem blit_frame32_bulk_copy_is_not_letterboxed :
    vid_padded32.frame_padding_x = 40 ∧ vid_padded32.frame_padding_y = 8
    ∧ ∃ vid' s', sdl_rs90_blit_frame32 vid_padded32 src_ramp 160 144 960 = .ok vid'
      ∧ vid'.screen = some s'
      ∧ s'.pixels ((8 + 0) * 960 + 4 * (40 + 0) + 0) ≠ src_ramp (4 * (0 * (960 >>> 2) + 0) + 0)
      ∧ s'.pixels ((8 + 0) * 960 + 4 * 0 + 1) ≠ 0 := by
  have h := blit_frame32_fast vid_padded32 src_ramp
    { screen_xrgb8888 with pixels := fun j =>
        if j < (u32 (screen_xrgb8888.pitch * screen_xrgb8888.h)) then 0
        else screen_xrgb8888.pixels j }
    160 144 960 rfl rfl (by decide) (by decide)
  exact ⟨rfl, rfl, _, _, h, rfl, by decide, by decide⟩

/-- Claim C23, amended.  After `sdl_rs90_set_output(W, H, true)` has acquired
the 240x160 surface of pitch 960 with `W < 240` or `H < 160`, and for a row
stride `P` that sends `sdl_rs90_blit_frame32` down the line-by-line path
(`P ≠ 960` or `H > 160`), the blit completes; the pixel
`(frame_padding_y + y, frame_padding_x + x)` holds source pixel
`y * (P >> 2) + x` for every `x < min(W, 240)` and `y < min(H, 160)`, and
every other byte of the surface is zero. -/
theorem blit_frame32_letterbox (SDL_SetVideoMode : VideoModeSetter)
    (vid0 : sdl_rs90_video_t) (src : Nat → Nat) (screen : SDL_Surface) (W H P : Nat)
    (hacc : SDL_SetVideoMode 240 160 32 vid0.vsync = some screen)
    (hp : screen.pitch = 960) (hh : screen.h = 160) (hdim : W < 240 ∨ H < 160)
    (hP : P < 4294967296) (hslow : P ≠ 960 ∨ H > 160) :
    ∃ s', sdl_rs90_blit_frame32 (sdl_rs90_set_output SDL_SetVideoMode vid0 W H true) src W H P
        = .ok { sdl_rs90_set_output SDL_SetVideoMode vid0 W H true with screen := some s' }
      ∧ (∀ y x b, y < min H 160 → x < min W 240 → b < 4 →
          s'.pixels
            (((sdl_rs90_set_output SDL_SetVideoMode vid0 W H true).frame_padding_y + y) * 960
              + 4 * ((sdl_rs90_set_output SDL_SetVideoMode vid0 W H true).frame_padding_x + x)
              + b)
            = src (4 * (y * (P >>> 2) + x) + b))
      ∧ (∀ j, j < 960 * 160 →
          (¬ ∃ y x b, y < min H 160 ∧ x < min W 240 ∧ b < 4
            ∧ j = ((sdl_rs90_set_output SDL_SetVideoMode vid0 W H true).frame_padding_y + y)
                  * 960
                + 4 * ((sdl_rs90_set_output SDL_SetVideoMode vid0 W H true).frame_padding_x
                  + x) + b) →
          s'.pixels j = 0) := by
  have hs := set_output_screen_cleared SDL_SetVideoMode vid0 W H true screen hacc (by omega)
  have hfits := set_output_padding_fits SDL_SetVideoMode vid0 W H true
  have hl := blit_frame32_lines (sdl_rs90_set_output SDL_SetVideoMode vid0 W H true) src _
    W H P hs hp hh hP (by show P ≠ screen.pitch ∨ H > 160; rw [hp]; exact hslow)
    hfits.1 hfits.2
  obtain ⟨r1, r2⟩ := blit32_pixels_rect src
    (fun j => if j < (u32 (screen.pitch * screen.h)) then 0 else screen.pixels j)
    (sdl_rs90_set_output SDL_SetVideoMode vid0 W H true).frame_padding_y
    (sdl_rs90_set_output SDL_SetVideoMode vid0 W H true).frame_padding_x
    (min W 240) (P >>> 2) (min H 160) hfits.1
  refine ⟨_, hl, r1, ?_⟩
  intro j hj hout
  show blit32_pixels src _ _ _ _ _ j = 0
  rw [r2 j hout, hp, hh, if_pos (by unfold u32; omega)]

/-- Witness of C23 (amended): a 160x144 frame of stride 640 on the RS-90
display. -/
theorem blit_frame32_letterbox_witness :
    ∃ s', sdl_rs90_blit_frame32 (sdl_rs90_set_output display_rs90 vid_xrgb8888 160 144 true)
          src_ramp 160 144 640
        = .ok { sdl_rs90_set_output display_rs90 vid_xrgb8888 160 144 true with
                screen := some s' }
      ∧ (∀ y x b, y < min 144 160 → x < min 160 240 → b < 4 →
          s'.pixels
            (((sdl_rs90_set_output display_rs90 vid_xrgb8888 160 144 true).frame_padding_y + y)
                * 960
              + 4 * ((sdl_rs90_set_output display_rs90 vid_xrgb8888 160 144 true).frame_padding_x
                + x) + b)
            = src_ramp (4 * (y * (640 >>> 2) + x) + b))
      ∧ (∀ j, j < 960 * 160 →
          (¬ ∃ y x b, y < min 144 160 ∧ x < min 160 240 ∧ b < 4
            ∧ j = ((sdl_rs90_set_output display_rs90 vid_xrgb8888 160 144 true).frame_padding_y
                  + y) * 960
                + 4 * ((sdl_rs90_set_output display_rs90 vid_xrgb8888 160 144
                  true).frame_padding_x + x) + b) →
          s'.pixels j = 0) :=
  blit_frame32_letterbox display_rs90 vid_xrgb8888 src_ramp screen_xrgb8888 160 144 640
    rfl rfl rfl (by decide) (by decide) (by decide)

/-! ### Fields that the functions leave alone -/

theorem set_output_keeps (SDL_SetVideoMode : VideoModeSetter) (vid : sdl_rs90_video_t)
    (W H : Nat) (rgb32 : Bool) :
    (sdl_rs90_set_output SDL_SetVideoMode vid W H rgb32).last_frame_time = vid.last_frame_time
    ∧ (sdl_rs90_set_output SDL_SetVideoMode vid W H rgb32).rgb32 = vid.rgb32
    ∧ (sdl_rs90_set_output SDL_SetVideoMode vid W H rgb32).vsync = vid.vsync := by
  unfold sdl_rs90_set_output
  simp only [SDL_RS90_WIDTH, SDL_RS90_HEIGHT]
  cases SDL_SetVideoMode 240 160 (if rgb32 then 32 else 16) vid.vsync with
  | none => exact ⟨rfl, rfl, rfl⟩
  | some screen =>
    by_cases h : 240 ≠ W ∨ 160 ≠ H
    · simp only [if_pos h]
      simp
    · simp only [if_neg h]
      simp

theorem set_output_clock (SDL_SetVideoMode : VideoModeSetter) (vid : sdl_rs90_video_t)
    (W H : Nat) (rgb32 : Bool) :
    (sdl_rs90_set_output SDL_SetVideoMode vid W H rgb32).last_frame_time
      = vid.last_frame_time :=
  (set_output_keeps SDL_SetVideoMode vid W H rgb32).1

theorem set_output_rgb32 (SDL_SetVideoMode : VideoModeSetter) (vid : sdl_rs90_video_t)
    (W H : Nat) (rgb32 : Bool) :
    (sdl_rs90_set_output SDL_SetVideoMode vid W H rgb32).rgb32 = vid.rgb32 :=
  (set_output_keeps SDL_SetVideoMode vid W H rgb32).2.1

theorem set_output_vsync (SDL_SetVideoMode : VideoModeSetter) (vid : sdl_rs90_video_t)
    (W H : Nat) (rgb32 : Bool) :
    (sdl_rs90_set_output SDL_SetVideoMode vid W H rgb32).vsync = vid.vsync :=
  (set_output_keeps SDL_SetVideoMode vid W H rgb32).2.2

/-- Claim C22.  When `sdl_rs90_gfx_set_nonblock_state` changes the vsync
policy (`toggle` is the current `vsync`, so the new policy `!toggle` differs),
it calls `sdl_rs90_set_output` twice and afterwards `frame_width` and
`frame_height` are as before and `vsync = !toggle`; but the display receives
two identical requests, both for 240x160 at the current depth with the new
flag: `sdl_rs90_set_output` always requests `SDL_RS90_WIDTH x SDL_RS90_HEIGHT`,
so the first request does not differ in geometry from the second, and neither
carries `frame_width x frame_height`. -/
theorem set_nonblock_state_repeats_request (d : Display) (vid : sdl_rs90_video_t)
    (adaptive_vsync_enabled : Bool) (swap_interval : Nat) :
    (sdl_rs90_gfx_set_nonblock_state d (some vid) vid.vsync adaptive_vsync_enabled
        swap_interval).2.requests
      = d.requests ++ [(240, 160, if vid.rgb32 then 32 else 16, !vid.vsync),
                       (240, 160, if vid.rgb32 then 32 else 16, !vid.vsync)]
    ∧ ∃ vid', (sdl_rs90_gfx_set_nonblock_state d (some vid) vid.vsync adaptive_vsync_enabled
          swap_interval).1 = some vid'
      ∧ vid'.frame_width = vid.frame_width ∧ vid'.frame_height = vid.frame_height
      ∧ vid'.vsync = !vid.vsync := by
  have hne : vid.vsync ≠ !vid.vsync := by cases vid.vsync <;> decide
  unfold sdl_rs90_gfx_set_nonblock_state
  simp only [if_pos hne, set_output_recorded, Display.SDL_SetVideoMode, SDL_RS90_WIDTH,
    SDL_RS90_HEIGHT]
  refine ⟨?_, _, rfl, ?_, ?_, ?_⟩
  · simp only [set_output_rgb32, set_output_vsync, List.append_assoc, List.cons_append,
      List.nil_append]
  · exact (set_output_fields _ _ _ _ _).2.1
  · exact (set_output_fields _ _ _ _ _).2.2.1
  · simp only [set_output_vsync]

/-! ### The frame clock -/

theorem except_map_ok {α β : Type} (f : α → β) (e : Except Fault α) (b : β)
    (h : e.map f = .ok b) : ∃ a, e = .ok a ∧ f a = b := by
  cases e with
  | error x => exact absurd h (by simp [Except.map])
  | ok a => exact ⟨a, rfl, Except.ok.inj h⟩

theorem except_bind_ok {α β : Type} (f : α → Except Fault β) (e : Except Fault α) (b : β)
    (h : e.bind f = .ok b) : ∃ a, e = .ok a ∧ f a = .ok b := by
  cases e with
  | error x => exact absurd h (by simp [Except.bind])
  | ok a => exact ⟨a, rfl, h⟩

theorem generate_scaling_table_clock (msb_first : Bool) (vid vid' : sdl_rs90_video_t)
    (W H P : Nat) (h : sdl_rs90_generate_scaling_table msb_first vid W H P = .ok vid') :
    vid'.last_frame_time = vid.last_frame_time := by
  unfold sdl_rs90_generate_scaling_table at h
  simp only [calloc] at h
  by_cases hg : vid.heap.grants vid.heap.calloc_calls = true
  · rw [if_pos hg] at h
    obtain ⟨st, _, e⟩ := except_map_ok _ _ _ h
    rw [← e]
  · rw [if_neg hg] at h
    exact absurd h (by simp)

theorem blit_frame16_scale_precomputed_clock (msb_first : Bool) (vid vid' : sdl_rs90_video_t)
    (src : Nat → Nat)
    (h : sdl_rs90_blit_frame16_scale_precomputed msb_first vid src = .ok vid') :
    vid'.last_frame_time = vid.last_frame_time := by
  unfold sdl_rs90_blit_frame16_scale_precomputed at h
  cases hs : vid.screen with
  | none => rw [hs] at h; exact absurd h (by simp)
  | some screen =>
    rw [hs] at h
    cases ht : vid.scaling_table with
    | none => rw [ht] at h; exact absurd h (by simp)
    | some t =>
      rw [ht] at h
      obtain ⟨st, _, e⟩ := except_map_ok _ _ _ h
      rw [← e]

theorem blit_frame16_clock (msb_first : Bool) (vid vid' : sdl_rs90_video_t)
    (src : Nat → Nat) (W H P : Nat)
    (h : sdl_rs90_blit_frame16 msb_first vid src W H P = .ok vid') :
    vid'.last_frame_time = vid.last_frame_time := by
  unfold sdl_rs90_blit_frame16 at h
  cases hs : vid.screen with
  | none => rw [hs] at h; exact absurd h (by simp)
  | some screen =>
    rw [hs] at h
    dsimp only at h
    split_ifs at h
    all_goals first
      | (obtain ⟨st, _, e⟩ := except_map_ok _ _ _ h
         rw [← e])
      | (obtain ⟨v, hv, hb⟩ := except_bind_ok _ _ _ h
         rw [blit_frame16_scale_precomputed_clock msb_first v vid' src hb,
           generate_scaling_table_clock msb_first vid v W H P hv])
      | (obtain ⟨v, hv, hb⟩ := except_bind_ok _ _ _ h
         rw [blit_frame16_scale_precomputed_clock msb_first v vid' src hb,
           ← Except.ok.inj hv])

theorem blit_frame32_clock (vid vid' : sdl_rs90_video_t) (src : Nat → Nat) (W H P : Nat)
    (h : sdl_rs90_blit_frame32 vid src W H P = .ok vid') :
    vid'.last_frame_time = vid.last_frame_time := by
  unfold sdl_rs90_blit_frame32 at h
  cases hs : vid.screen with
  | none => rw [hs] at h; exact absurd h (by simp)
  | some screen =>
    rw [hs] at h
    dsimp only at h
    split_ifs at h
    all_goals
      obtain ⟨st, _, e⟩ := except_map_ok _ _ _ h
      rw [← e]

theorem blit_text_clock (fm : FontMetrics) (sz : Nat) (colour : Nat → Nat)
    (vid vid' : sdl_rs90_video_t) (s : SDL_Surface) (f : bitmapfont_lut_t)
    (stride w h x y : Nat) (str : List Nat)
    (hr : blit_text fm sz colour vid s f stride w h x y str = .ok vid') :
    vid'.last_frame_time = vid.last_frame_time := by
  unfold blit_text at hr
  dsimp only at hr
  split_ifs at hr
  all_goals first
    | (rw [← Except.ok.inj hr])
    | (obtain ⟨st, _, e⟩ := except_map_ok _ _ _ hr
       rw [← e])

theorem blit_text16_clock (fm : FontMetrics) (msb_first : Bool) (vid vid' : sdl_rs90_video_t)
    (x y : Nat) (str : List Nat)
    (h : sdl_rs90_blit_text16 fm msb_first vid x y str = .ok vid') :
    vid'.last_frame_time = vid.last_frame_time := by
  unfold sdl_rs90_blit_text16 at h
  cases hs : vid.screen with
  | none => rw [hs] at h; exact absurd h (by simp)
  | some s =>
    cases hf : vid.osd_font with
    | none => rw [hs, hf] at h; exact absurd h (by simp)
    | some f =>
      rw [hs, hf] at h
      exact blit_text_clock fm 2 _ vid vid' s f _ _ _ x y str h

theorem blit_text32_clock (fm : FontMetrics) (msb_first : Bool) (vid vid' : sdl_rs90_video_t)
    (x y : Nat) (str : List Nat)
    (h : sdl_rs90_blit_text32 fm msb_first vid x y str = .ok vid') :
    vid'.last_frame_time = vid.last_frame_time := by
  unfold sdl_rs90_blit_text32 at h
  cases hs : vid.screen with
  | none => rw [hs] at h; exact absurd h (by simp)
  | some s =>
    cases hf : vid.osd_font with
    | none => rw [hs, hf] at h; exact absurd h (by simp)
    | some f =>
      rw [hs, hf] at h
      exact blit_text_clock fm 4 _ vid vid' s f _ _ _ x y str h

theorem blit_video_mode_error_msg_clock (fm : FontMetrics) (msb_first : Bool)
    (error_msg : List Nat) (vid vid' : sdl_rs90_video_t)
    (h : sdl_rs90_blit_video_mode_error_msg fm msb_first error_msg vid = .ok vid') :
    vid'.last_frame_time = vid.last_frame_time := by
  unfold sdl_rs90_blit_video_mode_error_msg at h
  cases hs : vid.screen with
  | none => rw [hs] at h; exact absurd h (by simp)
  | some screen =>
    rw [hs] at h
    dsimp only at h
    split_ifs at h
    · obtain ⟨v, hv, hb⟩ := except_bind_ok _ _ _ h
      rw [blit_text32_clock fm msb_first v vid' _ _ _ hb,
        blit_text32_clock fm msb_first _ v _ _ _ hv]
    · obtain ⟨v, hv, hb⟩ := except_bind_ok _ _ _ h
      rw [blit_text16_clock fm msb_first v vid' _ _ _ hb,
        blit_text16_clock fm msb_first _ v _ _ _ hv]

theorem gfx_frame_osd_clock (fm : FontMetrics) (msb_first : Bool)
    (vid vid' : sdl_rs90_video_t) (msg : Option (List Nat))
    (h : gfx_frame_osd fm msb_first vid msg = .ok vid') :
    vid'.last_frame_time = vid.last_frame_time := by
  unfold gfx_frame_osd at h
  cases msg with
  | none => rw [← Except.ok.inj h]
  | some m =>
    cases hs : vid.screen with
    | none => rw [hs] at h; exact absurd h (by simp)
    | some screen =>
      rw [hs] at h
      dsimp only at h
      split_ifs at h
      · exact blit_text32_clock fm msb_first vid vid' _ _ _ h
      · exact blit_text16_clock fm msb_first vid vid' _ _ _ h

theorem gfx_frame_content_clock (fm : FontMetrics) (msb_first : Bool)
    (SDL_SetVideoMode : VideoModeSetter) (error_msg : List Nat)
    (vid vid' : sdl_rs90_video_t) (frame : Option (Nat → Nat)) (W H P : Nat)
    (h : gfx_frame_content fm msb_first SDL_SetVideoMode error_msg vid frame W H P = .ok vid') :
    vid'.last_frame_time = vid.last_frame_time := by
  unfold gfx_frame_content at h
  dsimp only at h
  have hc : (if vid.was_in_menu = true ∨ vid.frame_width ≠ W ∨ vid.frame_height ≠ H then
      sdl_rs90_set_output SDL_SetVideoMode vid W H vid.rgb32 else vid).last_frame_time
        = vid.last_frame_time := by
    split_ifs
    · exact set_output_clock _ _ _ _ _
    · rfl
  revert hc h
  generalize (if vid.was_in_menu = true ∨ vid.frame_width ≠ W ∨ vid.frame_height ≠ H then
      sdl_rs90_set_output SDL_SetVideoMode vid W H vid.rgb32 else vid) = v1
  intro h hc
  obtain ⟨_, _, hb⟩ := except_bind_ok _ _ _ h
  obtain ⟨a, ha, e⟩ := except_map_ok _ _ _ hb
  rw [← e, ← hc]
  show a.last_frame_time = v1.last_frame_time
  by_cases hm : v1.mode_valid = true
  · rw [if_pos hm] at ha
    cases frame with
    | none => rw [← Except.ok.inj ha]
    | some fr =>
      dsimp only at ha
      by_cases hr : v1.rgb32 = true
      · rw [if_pos hr] at ha
        exact blit_frame32_clock v1 a fr W H P ha
      · rw [if_neg hr] at ha
        exact blit_frame16_clock msb_first v1 a fr W H P ha
  · rw [if_neg hm] at ha
    exact blit_video_mode_error_msg_clock fm msb_first error_msg v1 a ha

theorem gfx_frame_menu_clock (msb_first : Bool) (SDL_SetVideoMode : VideoModeSetter)
    (vid vid' : sdl_rs90_video_t)
    (h : gfx_frame_menu msb_first SDL_SetVideoMode vid = .ok vid') :
    vid'.last_frame_time = vid.last_frame_time := by
  unfold gfx_frame_menu at h
  dsimp only at h
  have hc : (if ¬ vid.was_in_menu = true then
      { sdl_rs90_set_output SDL_SetVideoMode vid SDL_RS90_WIDTH SDL_RS90_HEIGHT false with
        was_in_menu := true } else vid).last_frame_time = vid.last_frame_time := by
    split_ifs
    · rfl
    · exact set_output_clock _ _ _ _ _
  revert hc h
  generalize (if ¬ vid.was_in_menu = true then
      { sdl_rs90_set_output SDL_SetVideoMode vid SDL_RS90_WIDTH SDL_RS90_HEIGHT false with
        was_in_menu := true } else vid) = v1
  intro h hc
  obtain ⟨_, _, hb⟩ := except_bind_ok _ _ _ h
  rw [← hc]
  exact blit_frame16_clock msb_first v1 vid' _ _ _ _ hb

/-- A call of `sdl_rs90_gfx_frame` that is not in fast-forward mode and
completes returns true and leaves `last_frame_time` as it was. -/
theorem gfx_frame_throttled_clock (fm : FontMetrics) (msb_first : Bool)
    (SDL_SetVideoMode : VideoModeSetter) (error_msg : List Nat) (vid : sdl_rs90_video_t)
    (frame : Option (Nat → Nat)) (W H P : Nat) (msg : Option (List Nat)) (t : Int)
    (r : Option sdl_rs90_video_t × Bool)
    (h : sdl_rs90_gfx_frame fm msb_first SDL_SetVideoMode error_msg (some vid) frame W H P msg
      false t = .ok r) :
    ∃ vid', r = (some vid', true) ∧ vid'.last_frame_time = vid.last_frame_time := by
  unfold sdl_rs90_gfx_frame at h
  simp only [Bool.false_eq_true, false_and, if_false] at h
  obtain ⟨v3, hv3, e⟩ := except_map_ok _ _ _ h
  obtain ⟨v1, hv1, hb⟩ := except_bind_ok _ _ _ hv3
  obtain ⟨v2, hv2, hb2⟩ := except_bind_ok _ _ _ hb
  obtain ⟨_, _, e3⟩ := except_map_ok _ _ _ hb2
  refine ⟨v3, e.symm, ?_⟩
  rw [← e3, gfx_frame_osd_clock fm msb_first v1 v2 msg hv2]
  split_ifs at hv1
  · exact gfx_frame_menu_clock msb_first SDL_SetVideoMode vid v1 hv1
  · exact gfx_frame_content_clock fm msb_first SDL_SetVideoMode error_msg vid v1 frame W H P hv1

/-- Claim C21.  In fast-forward mode (`input_driver_nonblock_state` set):
when `current_time - last_frame_time < ff_frame_time_min`,
`sdl_rs90_gfx_frame` returns true at once and leaves the whole driver state,
surface included, as it was; otherwise it records
`last_frame_time = current_time` and goes on exactly as a call outside
fast-forward mode does on the state so updated, and whenever it completes it
returns true with `last_frame_time = current_time`. -/
theorem gfx_frame_drops_frame (fm : FontMetrics) (msb_first : Bool)
    (SDL_SetVideoMode : VideoModeSetter) (error_msg : List Nat) (vid : sdl_rs90_video_t)
    (frame : Option (Nat → Nat)) (W H P : Nat) (msg : Option (List Nat))
    (current_time : Int) :
    (current_time - vid.last_frame_time < vid.ff_frame_time_min →
      sdl_rs90_gfx_frame fm msb_first SDL_SetVideoMode error_msg (some vid) frame W H P msg
        true current_time = .ok (some vid, true))
    ∧ (¬ current_time - vid.last_frame_time < vid.ff_frame_time_min →
      sdl_rs90_gfx_frame fm msb_first SDL_SetVideoMode error_msg (some vid) frame W H P msg
          true current_time
        = sdl_rs90_gfx_frame fm msb_first SDL_SetVideoMode error_msg
            (some { vid with last_frame_time := current_time }) frame W H P msg
            false current_time
      ∧ ∀ r, sdl_rs90_gfx_frame fm msb_first SDL_SetVideoMode error_msg (some vid) frame
            W H P msg true current_time = .ok r →
          ∃ vid', r = (some vid', true) ∧ vid'.last_frame_time = current_time) := by
  have key : ¬ current_time - vid.last_frame_time < vid.ff_frame_time_min →
      sdl_rs90_gfx_frame fm msb_first SDL_SetVideoMode error_msg (some vid) frame W H P msg
          true current_time
        = sdl_rs90_gfx_frame fm msb_first SDL_SetVideoMode error_msg
            (some { vid with last_frame_time := current_time }) frame W H P msg
            false current_time := by
    intro hno
    unfold sdl_rs90_gfx_frame
    simp only [hno, and_false, if_false, if_true, Bool.false_eq_true, false_and]
  refine ⟨?_, fun hno => ⟨key hno, ?_⟩⟩
  · intro hdrop
    unfold sdl_rs90_gfx_frame
    simp only [hdrop, and_self, if_true]
  · intro r hr
    rw [key hno] at hr
    exact gfx_frame_throttled_clock fm msb_first SDL_SetVideoMode error_msg
      { vid with last_frame_time := current_time } frame W H P msg current_time r hr

/-- Witness of C21: at time 10000 after a frame at time 0 the call is dropped;
at time 20000 a duplicate frame (null `frame`, no message) is accepted and the
time is recorded. -/
theorem gfx_frame_drops_frame_witness :
    sdl_rs90_gfx_frame bitmap_font_metrics false display_rs90 [] (some vid_xrgb8888)
        (some src_ramp) 240 160 960 none true 10000 = .ok (some vid_xrgb8888, true)
    ∧ ∃ vid', sdl_rs90_gfx_frame bitmap_font_metrics false display_rs90 [] (some vid_xrgb8888)
          none 240 160 960 none true 20000 = .ok (some vid', true)
        ∧ vid'.last_frame_time = 20000 := by
  have h1 := (gfx_frame_drops_frame bitmap_font_metrics false display_rs90 []
    vid_xrgb8888 (some src_ramp) 240 160 960 none 10000).1 (by decide)
  have h2 := (gfx_frame_drops_frame bitmap_font_metrics false display_rs90 []
    vid_xrgb8888 none 240 160 960 none 20000).2 (by decide)
  have h3 : sdl_rs90_gfx_frame bitmap_font_metrics false display_rs90 [] (some vid_xrgb8888)
      none 240 160 960 none true 20000
        = .ok (some { vid_xrgb8888 with last_frame_time := 20000 }, true) := rfl
  obtain ⟨vid', e, hc⟩ := h2.2 _ h3
  exact ⟨h1, vid', h3.trans (congrArg Except.ok e), hc⟩

/-! ### The menu frame on a 32-bit surface -/

theorem blit_frame16_row_loop_wide (msb_first : Bool) (t : Block) (src : Nat → Nat)
    (s0 : SDL_Surface) (ht : 76800 ≤ t.size) (r : Nat) (hr : r < 160) (st : BlitSt)
    (hinv : Blit16WideInv msb_first t src s0 (240 * r) st) :
    ∃ st', blit_frame16_row msb_first t src 480 r st = .ok st'
      ∧ Blit16WideInv msb_first t src s0 (240 * (r + 1)) st' := by
  unfold blit_frame16_row
  have hu : 2 * u32 (480 * r) = 960 * r := by
    unfold u32; omega
  rw [hu]
  obtain ⟨st', h1, _, h3⟩ := forLoop_inv
    (fun c (s : BlitSt) => s.out_ptr = 960 * r + 2 * c
      ∧ Blit16WideInv msb_first t src s0 (240 * r + c) s)
    SDL_RS90_WIDTH (blit_frame16_col msb_first t src)
    { st with out_ptr := 960 * r }
    ⟨rfl, hinv⟩ (by
      intro c s hc ⟨hop, hi, hw, hh, hp, hpx⟩
      simp only [SDL_RS90_WIDTH] at hc
      have hl : 2 * s.i + 2 ≤ t.size := by omega
      have hwr : s.out_ptr + 2 ≤ s.screen.pitch * s.screen.h := by rw [hp, hh]; omega
      simp only [blit_frame16_col, Block.load16, if_pos hl, Except.bind, SDL_Surface.write,
        if_pos hwr, Except.map]
      refine ⟨_, rfl, ?_, ?_, hw, hh, hp, ?_⟩
      · simp only; omega
      · simp only; omega
      · funext j
        simp only [hpx, blit16_pixels_wide]
        by_cases hj : s.out_ptr ≤ j ∧ j < s.out_ptr + 2
        · have e1 : j / 960 * 240 + j % 960 / 2 = s.i := by omega
          have e2 : j % 2 = j - s.out_ptr := by omega
          rw [if_pos hj, if_pos ⟨by omega, by omega⟩, e1, e2]
        · rw [if_neg hj]
          by_cases hj2 : j % 960 < 480 ∧ j / 960 * 240 + j % 960 / 2 < 240 * r + c
          · rw [if_pos hj2, if_pos ⟨hj2.1, by omega⟩]
          · rw [if_neg hj2, if_neg (by omega)])
  exact ⟨st', h1, h3⟩

/-- On a surface of pitch 960 (and 160 rows) the table-driven blit completes
and writes its 16-bit pixels into the first 480 bytes of every row. -/
theorem blit_frame16_scale_precomputed_wide (msb_first : Bool) (vid : sdl_rs90_video_t)
    (src : Nat → Nat) (screen : SDL_Surface) (t : Block)
    (hs : vid.screen = some screen) (hp : screen.pitch = 960) (hh : screen.h = 160)
    (htab : vid.scaling_table = some t) (ht : 76800 ≤ t.size) :
    sdl_rs90_blit_frame16_scale_precomputed msb_first vid src
      = .ok { vid with screen := some { screen with
          pixels := blit16_pixels_wide msb_first t src screen.pixels 38400 } } := by
  obtain ⟨st', h1, _, hw, hh', hp', hpx⟩ := forLoop_inv
    (fun r s => Blit16WideInv msb_first t src screen (240 * r) s)
    SDL_RS90_HEIGHT
    (blit_frame16_row msb_first t src 480) { i := 0, out_ptr := 0, screen := screen }
    ⟨rfl, rfl, hh, hp, by funext j; simp [blit16_pixels_wide]⟩
    (fun r s hr hinv => blit_frame16_row_loop_wide msb_first t src screen ht r hr s hinv)
  have hos : u16 (screen.pitch >>> 1) = 480 := by rw [hp]; rfl
  unfold sdl_rs90_blit_frame16_scale_precomputed
  rw [hs, htab]
  dsimp only
  rw [hos, h1]
  have : st'.screen = { screen with
      pixels := blit16_pixels_wide msb_first t src screen.pixels 38400 } := by
    cases hst : st'.screen
    rw [hst] at hw hh' hp' hpx
    simp only at hw hh' hp' hpx
    simp only [SDL_RS90_HEIGHT] at hpx
    subst hw hpx
    rw [hh, hp, hh', hp']
  simp only [Except.map, this]

/-- With the menu active, no OSD message and fast-forward off,
`sdl_rs90_gfx_frame` runs the menu branch and returns true. -/
theorem gfx_frame_menu_path (fm : FontMetrics) (msb_first : Bool)
    (SDL_SetVideoMode : VideoModeSetter) (error_msg : List Nat) (vid : sdl_rs90_video_t)
    (frame : Option (Nat → Nat)) (W H P : Nat) (t : Int) (hm : vid.menu_active = true) :
    sdl_rs90_gfx_frame fm msb_first SDL_SetVideoMode error_msg (some vid) frame W H P none
        false t
      = ((gfx_frame_menu msb_first SDL_SetVideoMode vid).bind fun v =>
          (SDL_MUSTLOCK v.screen).map fun _ => v).map fun v => (some v, true) := by
  unfold sdl_rs90_gfx_frame
  simp only [Bool.false_eq_true, false_and, if_false, hm, not_true_eq_false, gfx_frame_osd]
  rfl

/-- The first menu frame sets the 16-bit output and blits the menu texture. -/
theorem gfx_frame_menu_first (msb_first : Bool) (SDL_SetVideoMode : VideoModeSetter)
    (vid : sdl_rs90_video_t) (s : SDL_Surface) (hw : vid.was_in_menu = false)
    (hs : (sdl_rs90_set_output SDL_SetVideoMode vid 240 160 false).screen = some s) :
    gfx_frame_menu msb_first SDL_SetVideoMode vid
      = sdl_rs90_blit_frame16 msb_first
          { sdl_rs90_set_output SDL_SetVideoMode vid 240 160 false with was_in_menu := true }
          vid.menu_texture 240 160 480 := by
  have hmt : (sdl_rs90_set_output SDL_SetVideoMode vid 240 160 false).menu_texture
      = vid.menu_texture := by
    unfold sdl_rs90_set_output
    simp only [SDL_RS90_WIDTH, SDL_RS90_HEIGHT]
    cases SDL_SetVideoMode 240 160 (if false = true then 32 else 16) vid.vsync <;> simp
  unfold gfx_frame_menu
  simp only [hw, Bool.false_eq_true, not_false_eq_true, if_true, SDL_RS90_WIDTH,
    SDL_RS90_HEIGHT, hs, SDL_MUSTLOCK, Except.bind, hmt]

/-- A later menu frame blits the menu texture on the surface as it is. -/
theorem gfx_frame_menu_again (msb_first : Bool) (SDL_SetVideoMode : VideoModeSetter)
    (vid : sdl_rs90_video_t) (s : SDL_Surface) (hw : vid.was_in_menu = true)
    (hs : vid.screen = some s) :
    gfx_frame_menu msb_first SDL_SetVideoMode vid
      = sdl_rs90_blit_frame16 msb_first vid vid.menu_texture 240 160 480 := by
  unfold gfx_frame_menu
  simp only [hw, not_true_eq_false, if_false, SDL_RS90_WIDTH, SDL_RS90_HEIGHT, hs,
    SDL_MUSTLOCK, Except.bind]

/-- When the menu branch completes on a surface, `sdl_rs90_gfx_frame` returns
true with the state the branch leaves. -/
theorem gfx_frame_menu_done (fm : FontMetrics) (msb_first : Bool)
    (SDL_SetVideoMode : VideoModeSetter) (error_msg : List Nat) (vid v : sdl_rs90_video_t)
    (s : SDL_Surface) (frame : Option (Nat → Nat)) (W H P : Nat) (t : Int)
    (hm : vid.menu_active = true)
    (hg : gfx_frame_menu msb_first SDL_SetVideoMode vid = .ok v) (hs : v.screen = some s) :
    sdl_rs90_gfx_frame fm msb_first SDL_SetVideoMode error_msg (some vid) frame W H P none
        false t = .ok (some v, true) := by
  rw [gfx_frame_menu_path fm msb_first SDL_SetVideoMode error_msg vid frame W H P t hm, hg]
  simp only [Except.bind, hs, SDL_MUSTLOCK, Except.map]

/-- Claim C26.  A driver with 32-bit content shows the menu: the first menu
frame sets a 16-bit output and copies the 240x160 menu texture in bulk.  A
change of the vsync policy then sets the output again with the depth of the
content, which leaves a surface of pitch 960.  The next menu frame therefore
sends the native-size texture (stride 480) through the table: the table built
by `sdl_rs90_generate_scaling_table(240, 160, 480)` is the identity, entry `i`
is `i` for every `i < 240 * 160`, yet the frame is not copied: destination
pixel 1 holds texture pixel 0, because the blitter reads the 32-bit entries
through a `uint16_t` pointer (the defect of claim C1). -/
theorem menu_frame_through_identity_table_is_no_copy :
    sdl_rs90_gfx_frame bitmap_font_metrics false display_rs90 [] (some vid_menu_start) none
        240 160 960 none false 0 = .ok (some vid_menu_shown, true)
    ∧ (sdl_rs90_gfx_set_nonblock_state { answer := display_rs90, requests := [] }
        (some vid_menu_shown) true false 0).1 = some vid_menu_toggled
    ∧ vid_menu_toggled.menu_active = true ∧ vid_menu_toggled.menu_texture = src_ramp
    ∧ (∃ s, vid_menu_toggled.screen = some s ∧ s.pitch = 960)
    ∧ ∃ v3 t s3,
        sdl_rs90_gfx_frame bitmap_font_metrics false display_rs90 [] (some vid_menu_toggled)
          none 240 160 960 none false 0 = .ok (some v3, true)
        ∧ v3.content_width = 240 ∧ v3.content_height = 160 ∧ v3.content_pitch = 480
        ∧ v3.scaling_table = some t
        ∧ (∀ i, i < 240 * 160 → t.load32 false (4 * i) = .ok i)
        ∧ v3.screen = some s3
        ∧ s3.pixels (2 * 1) = src_ramp (2 * 0)
        ∧ s3.pixels (2 * 1 + 1) = src_ramp (2 * 0 + 1)
        ∧ s3.pixels (2 * 1) ≠ src_ramp (2 * 1) := by
  -- the first menu frame
  have hb1 := blit_frame16_fast false
    { sdl_rs90_set_output display_rs90 vid_menu_start 240 160 false with was_in_menu := true }
    src_ramp screen_rgb565 240 160 480 rfl rfl (by decide) (by decide)
  have e1 := gfx_frame_menu_done bitmap_font_metrics false display_rs90 [] vid_menu_start
    vid_menu_shown _ none 240 160 960 0 rfl
    ((gfx_frame_menu_first false display_rs90 vid_menu_start screen_rgb565 rfl rfl).trans hb1)
    rfl
  -- the menu frame after the change of the vsync policy
  obtain ⟨t, h1, h2⟩ := generate_scaling_table_ok false vid_menu_toggled 240 160 480 rfl
  have hpath := blit_frame16_table_path false vid_menu_toggled src_ramp screen_xrgb8888
    240 160 480 rfl (by decide)
  rw [if_pos (by decide), h1] at hpath
  simp only [Except.bind] at hpath
  have hb := blit_frame16_scale_precomputed_wide false _ src_ramp screen_xrgb8888 t
    (rfl : ({ vid_menu_toggled with
        content_width := 240, content_height := 160, content_pitch := 480,
        scaling_table := some t,
        heap := { vid_menu_toggled.heap with
          calloc_calls := vid_menu_toggled.heap.calloc_calls + 1 } }
        : sdl_rs90_video_t).screen = some screen_xrgb8888) rfl rfl rfl (by rw [h2.1]; omega)
  have e3 := gfx_frame_menu_done bitmap_font_metrics false display_rs90 [] vid_menu_toggled
    _ _ none 240 160 960 0 rfl
    ((gfx_frame_menu_again false display_rs90 vid_menu_toggled screen_xrgb8888 rfl rfl).trans
      (hpath.trans hb))
    rfl
  have p1 : t.peek16 false (2 * 1) = 0 := by
    rw [table_filled_peek16 false _ 38400 t h2 1 (by omega)]
    simp only [half32, Bool.false_eq_true, if_false]
    rw [show (1 : Nat) / 2 = 0 by decide, scaling_entry_native 0 (by omega)]
    decide
  have l1 : ∀ i, i < 240 * 160 → t.load32 false (4 * i) = .ok i := by
    intro i hi
    have hsz : 4 * i + 4 ≤ t.size := by rw [h2.1]; omega
    rw [Block.load32, if_pos hsz,
      table_filled_peek32 false _ 38400 t h2 i (by omega) (scaling_entry_lt _ _ _ _),
      scaling_entry_native i (by omega)]
  have q2 : blit16_pixels_wide false t src_ramp screen_xrgb8888.pixels 38400 (2 * 1)
      = src_ramp (2 * 0) := by
    simp only [blit16_pixels_wide]
    rw [if_pos ⟨by decide, by decide⟩,
      show (2 * 1) / 960 * 240 + (2 * 1) % 960 / 2 = 1 by decide, p1]
  have q3 : blit16_pixels_wide false t src_ramp screen_xrgb8888.pixels 38400 (2 * 1 + 1)
      = src_ramp (2 * 0 + 1) := by
    simp only [blit16_pixels_wide]
    rw [if_pos ⟨by decide, by decide⟩,
      show (2 * 1 + 1) / 960 * 240 + (2 * 1 + 1) % 960 / 2 = 1 by decide, p1]
  refine ⟨e1, rfl, rfl, rfl, ⟨_, rfl, rfl⟩, _, t, _, e3, rfl, rfl, rfl, rfl, l1, rfl, q2, q3, ?_⟩
  show blit16_pixels_wide false t src_ramp screen_xrgb8888.pixels 38400 (2 * 1) ≠ src_ramp (2 * 1)
  rw [q2]
  decide

end RS90
